import Mathlib

/-!
# The embedded data layer of the food-ordering service (`src/config/database.js`)

A shallow embedding of the JSON-file-backed tabular store and of its SQL-subset
interpreter: `query`, `handleSelect`, `handleInsert`, `handleUpdate`,
`handleDelete`, `evaluateCondition` and `run`.

Modelling conventions.

* JS scalars are the type `Value`.  Numbers are the integers among the doubles,
  together with `NaN`; the increment of a counter is computed in double
  precision (`increment`), so it is exact below `2^53` and rounds above.  The
  conversion of a string to a number (`stringToNumber`) reads signed decimal
  integer literals only.  For that reason the theorems give the result of `==`
  explicitly for two numbers or two strings, where no conversion takes place,
  and otherwise relate the functions of the source to each other.
* A row is the list of its own properties in assignment order, and its prototype
  is `Object.prototype`.  `Row.get` reads own properties: a field the row lacks
  reads undefined, as in the program for every name that is not inherited
  (`objectPrototypeNames` lists the inherited ones).  `Row.set` creates or
  replaces an own property, as the program does for every name other than
  `__proto__`.  Theorems that depend on either restriction state it.
* The snapshot is the record `Db`: the tables, the `_counters` object, and the
  array stored under the name `_counters` once a `delete` has replaced the
  counters object by an array (counter names that are indices of that array are
  not modelled).  A select on a name inherited from `Object.prototype` throws,
  as a select on `_counters` does.
* The debounced write scheduled by `saveDatabase()` does not affect the result
  or the in-memory snapshot of `query` and is left out of the handlers.
* A thrown `TypeError` (a rejected promise of the `async` function `query`) is
  the outcome `Outcome.typeError`; the snapshot returned with it is the state the
  statement leaves behind.
* The clock read by `new Date().toISOString()` is the explicit argument `now`.
* Regular expressions are transcribed with the backtracking combinators
  `plusThen`, `starThen`, `lazyPlusThen`, `litCI` and `search`.
* A statement text is a list of characters.  The strings handled by
  `sanitizeString` are lists of UTF-16 code units, the units in which `length`,
  `trim` and `substring` count.
* `Date.now()` is an explicit integer argument (milliseconds); the timer of
  `saveDatabase` is the explicit state `SaveState`, the backing file the explicit
  input `BackingFile`, and `JSON.parse` a parameter of `loadDatabase`.
-/

namespace FoodOrder

/-! ## JS values -/

/-- JS scalar values stored in rows and passed as bound parameters. -/
inductive Value where
  | undefined
  | null
  | bool (b : Bool)
  | num (n : Int)
  | nan
  | str (s : String)
  deriving DecidableEq, Repr, Inhabited

/-- Line terminators of the JS grammar: LF, CR, LS, PS. -/
def isLineTerminator (c : Char) : Bool :=
  c.toNat == 10 || c.toNat == 13 || c.toNat == 0x2028 || c.toNat == 0x2029

/-- The class `\s` (and the characters removed by `trim`): JS white space and
line terminators. -/
def isSpace (c : Char) : Bool :=
  c.toNat == 9 || c.toNat == 10 || c.toNat == 11 || c.toNat == 12 || c.toNat == 13 ||
  c.toNat == 32 || c.toNat == 0xA0 || c.toNat == 0x1680 ||
  (0x2000 ≤ c.toNat && c.toNat ≤ 0x200A) ||
  c.toNat == 0x2028 || c.toNat == 0x2029 || c.toNat == 0x202F || c.toNat == 0x205F ||
  c.toNat == 0x3000 || c.toNat == 0xFEFF

/-- The class `\w`: ASCII letters, digits and the underscore. -/
def isWordChar (c : Char) : Bool :=
  c.isAlphanum || c == '_'

/-- The class `.` without the `s` flag: anything but a line terminator. -/
def isDot (c : Char) : Bool :=
  !isLineTerminator c

/-- The method `String.prototype.trim` on a list of characters. -/
def trimChars (s : List Char) : List Char :=
  ((s.dropWhile isSpace).reverse.dropWhile isSpace).reverse

/-- ASCII lower-casing, which agrees with `toLowerCase` on every test the
interpreter makes (`startsWith` of a statement keyword, `includes("where")`). -/
def lowerChars (s : List Char) : List Char :=
  s.map Char.toLower

/-- The test `s.startsWith(p)`. -/
def startsWith : List Char → List Char → Bool
  | _, [] => true
  | [], _ :: _ => false
  | c :: cs, p :: ps => c == p && startsWith cs ps

/-- The test `s.includes(p)`. -/
def includes : List Char → List Char → Bool
  | [], p => startsWith [] p
  | c :: cs, p => startsWith (c :: cs) p || includes cs p

/-- The method `s.split(sep)` for a one-character separator, with the piece
under construction kept in `cur`. -/
def splitAux (sep : Char) : List Char → List Char → List (List Char)
  | cur, [] => [cur]
  | cur, c :: cs => if c == sep then cur :: splitAux sep [] cs else splitAux sep (cur ++ [c]) cs

/-- The method `s.split(sep)` for a one-character separator. -/
def splitChar (sep : Char) (s : List Char) : List (List Char) :=
  splitAux sep [] s

/-- Decimal digits read as a natural number, `none` when a character is not a digit. -/
def digitsToNat : Nat → List Char → Option Nat
  | acc, [] => some acc
  | acc, c :: cs => if c.isDigit then digitsToNat (acc * 10 + (c.toNat - 48)) cs else none

/-- The abstract operation `StringToNumber` on signed decimal integer literals:
`none` stands for `NaN`. Other numeric literals (a fraction, an exponent, a
radix prefix, `Infinity`) are outside the model. -/
def stringToNumber (s : String) : Option Int :=
  match trimChars s.data with
  | [] => some 0
  | '-' :: d :: ds => (digitsToNat 0 (d :: ds)).map (fun n => - (n : Int))
  | '+' :: d :: ds => (digitsToNat 0 (d :: ds)).map (fun n => (n : Int))
  | '-' :: [] => none
  | '+' :: [] => none
  | d :: ds => (digitsToNat 0 (d :: ds)).map (fun n => (n : Int))

/-- The abstract operation `ToNumber`, `none` standing for `NaN`. -/
def toNumber : Value → Option Int
  | .undefined => none
  | .null => some 0
  | .bool b => some (if b then 1 else 0)
  | .num n => some n
  | .nan => none
  | .str s => stringToNumber s

/-- A number as a value. -/
def ofNumber : Option Int → Value
  | some n => .num n
  | none => .nan

/-- The number of binary digits of `m`, counted with at most `fuel` halvings. -/
def bitLength : Nat → Nat → Nat
  | 0, _ => 0
  | fuel + 1, m => if m = 0 then 0 else bitLength fuel (m / 2) + 1

/-- The double nearest to the natural number `m` (below `2 ^ 1024`), ties to the
even significand: a number of at most 53 binary digits is a double, a longer one
is rounded to a multiple of `2 ^ (digits - 53)`. -/
def roundNat (m : Nat) : Nat :=
  if bitLength m m ≤ 53 then m
  else
    let unit := 2 ^ (bitLength m m - 53)
    let q := m / unit
    let r := m % unit
    if 2 * r < unit ∨ (2 * r = unit ∧ q % 2 = 0) then q * unit else (q + 1) * unit

/-- The double nearest to the integer `n`. -/
def roundInt (n : Int) : Int :=
  if n < 0 then - (roundNat n.natAbs : Int) else (roundNat n.natAbs : Int)

/-- The value stored by `x++` for the number `n`: the sum `n + 1` in double
precision. -/
def increment (n : Int) : Int :=
  roundInt (n + 1)

/-- Equality of two numbers, false as soon as one of them is `NaN`. -/
def numEq : Option Int → Option Int → Bool
  | some a, some b => a == b
  | _, _ => false

/-- The operator `==` (`IsLooselyEqual`). -/
def looseEq : Value → Value → Bool
  | .undefined, .undefined => true
  | .undefined, .null => true
  | .null, .undefined => true
  | .null, .null => true
  | .undefined, _ => false
  | .null, _ => false
  | _, .undefined => false
  | _, .null => false
  | .str a, .str b => a == b
  | a, b => numEq (toNumber a) (toNumber b)

/-- The operator `===` (`IsStrictlyEqual`). -/
def strictEq : Value → Value → Bool
  | .undefined, .undefined => true
  | .null, .null => true
  | .bool a, .bool b => a == b
  | .num a, .num b => a == b
  | .str a, .str b => a == b
  | _, _ => false

/-- Lexicographic comparison of two strings. -/
def ltChars : List Char → List Char → Bool
  | _, [] => false
  | [], _ :: _ => true
  | a :: as, b :: bs => a.toNat < b.toNat || (a == b && ltChars as bs)

/-- The abstract operation `IsLessThan`: `none` stands for `undefined`. -/
def isLessThan : Value → Value → Option Bool
  | .str a, .str b => some (ltChars a.data b.data)
  | a, b =>
    match toNumber a, toNumber b with
    | some x, some y => some (decide (x < y))
    | _, _ => none

/-- The operator `<`. -/
def jsLt (a b : Value) : Bool := (isLessThan a b).getD false

/-- The operator `>`. -/
def jsGt (a b : Value) : Bool := (isLessThan b a).getD false

/-- The operator `<=`. -/
def jsLe (a b : Value) : Bool :=
  match isLessThan b a with
  | some r => !r
  | none => false

/-- The operator `>=`. -/
def jsGe (a b : Value) : Bool :=
  match isLessThan a b with
  | some r => !r
  | none => false

/-- The abstract operation `ToBoolean`. -/
def truthy : Value → Bool
  | .undefined => false
  | .null => false
  | .bool b => b
  | .num n => n != 0
  | .nan => false
  | .str s => s != ""

/-! ## Rows, tables and the snapshot -/

/-- A row: the ordered list of its own properties. -/
abbrev Row := List (String × Value)

/-- The property read `row[field]` of an own property; a field the row lacks
reads undefined (for a name in `objectPrototypeNames` the program finds the
inherited member instead). -/
def Row.get : Row → String → Value
  | [], _ => .undefined
  | (k, v) :: rest, f => if k = f then v else Row.get rest f

/-- The property write `row[field] = v`, for every name other than `__proto__`
(which the program hands to the inherited setter). -/
def Row.set : Row → String → Value → Row
  | [], f, v => [(f, v)]
  | (k, w) :: rest, f, v => if k = f then (k, v) :: rest else (k, w) :: Row.set rest f v

/-- The element read `params[i]`. -/
def param (params : List Value) (i : Nat) : Value :=
  params.getD i .undefined

/-- The snapshot: the arrays stored under the table names, the `_counters`
object, and the array stored under the name `_counters` itself when there is one. -/
structure Db where
  tables : List (String × List Row)
  counters : List (String × Value)
  countersRows : Option (List Row)
  deriving DecidableEq, Repr

/-- The seeded snapshot the module starts from. -/
def Db.seed : Db :=
  { tables := [("users", []), ("menu_items", []), ("orders", []), ("order_items", []),
      ("feedback", [])],
    counters := [("users", .num 1), ("menu_items", .num 1), ("orders", .num 1),
      ("order_items", .num 1), ("feedback", .num 1)],
    countersRows := none }

/-- First value bound to a key in an association list. -/
def lookupKey {α : Type} : List (String × α) → String → Option α
  | [], _ => none
  | (k, v) :: rest, f => if k = f then some v else lookupKey rest f

/-- Bind a key in an association list, in place when it is already bound. -/
def bindKey {α : Type} : List (String × α) → String → α → List (String × α)
  | [], f, v => [(f, v)]
  | (k, w) :: rest, f, v => if k = f then (k, v) :: rest else (k, w) :: bindKey rest f v

/-- The property names every plain object inherits from `Object.prototype`: under
each of them a lookup on an object that has no own property of that name finds a
function (for `__proto__`, the prototype itself). -/
def objectPrototypeNames : List String :=
  ["constructor", "__defineGetter__", "__defineSetter__", "hasOwnProperty",
    "__lookupGetter__", "__lookupSetter__", "isPrototypeOf", "propertyIsEnumerable",
    "toString", "valueOf", "__proto__", "toLocaleString"]

/-- The array `database[tableName]`, `none` when that property is absent or is
not an array. -/
def Db.table (db : Db) (tableName : String) : Option (List Row) :=
  if tableName = "_counters" then db.countersRows else lookupKey db.tables tableName

/-- The value `database._counters[tableName]`. -/
def Db.counter (db : Db) (tableName : String) : Value :=
  (lookupKey db.counters tableName).getD .undefined

/-- The write `database._counters[tableName] = v`. -/
def Db.setCounter (db : Db) (tableName : String) (v : Value) : Db :=
  { db with counters := bindKey db.counters tableName v }

/-- The array `database[tableName]` after a mutation in place (`push`, or
assignments to the fields of its rows). -/
def Db.mutateTable (db : Db) (tableName : String) (rows : List Row) : Db :=
  if tableName = "_counters" then { db with countersRows := some rows }
  else { db with tables := bindKey db.tables tableName rows }

/-- The assignment `database[tableName] = rows` of a fresh array; under the
name `_counters` it replaces the counters object. -/
def Db.assignTable (db : Db) (tableName : String) (rows : List Row) : Db :=
  if tableName = "_counters" then { db with counters := [], countersRows := some rows }
  else { db with tables := bindKey db.tables tableName rows }

/-- What a call of `query` produces: the result rows, or a thrown `TypeError`. -/
inductive Outcome where
  | rows (rs : List Row)
  | typeError
  deriving DecidableEq, Repr

/-! ## Regular expressions

The combinators follow the backtracking order of the JS matcher: a greedy
quantifier tries the longest repetition first, a lazy one the shortest, an
alternation its branches from left to right, and `search` the start positions
from left to right. -/

/-- First success of two attempts, in backtracking order. -/
def orTry {α : Type} : Option α → Option α → Option α
  | some a, _ => some a
  | none, b => b

/-- A literal under the `i` flag (the literal is given in lower case); the
result is the text after the literal. -/
def litCI : List Char → List Char → Option (List Char)
  | [], s => some s
  | _ :: _, [] => none
  | k :: ks, c :: cs => if c.toLower == k then litCI ks cs else none

/-- The greedy quantifier `p+` followed by the continuation `k`, which receives
the repeated text (appended to `acc`) and the text after it. -/
def plusThen {α : Type} (p : Char → Bool) (k : List Char → List Char → Option α) :
    List Char → List Char → Option α
  | _, [] => none
  | acc, c :: cs =>
    if p c then orTry (plusThen p k (acc ++ [c]) cs) (k (acc ++ [c]) cs) else none

/-- The greedy quantifier `p*` followed by the continuation `k`. -/
def starThen {α : Type} (p : Char → Bool) (k : List Char → List Char → Option α)
    (acc s : List Char) : Option α :=
  orTry (plusThen p k acc s) (k acc s)

/-- The lazy quantifier `p+?` followed by the continuation `k`. -/
def lazyPlusThen {α : Type} (p : Char → Bool) (k : List Char → List Char → Option α) :
    List Char → List Char → Option α
  | _, [] => none
  | acc, c :: cs =>
    if p c then orTry (k (acc ++ [c]) cs) (lazyPlusThen p k (acc ++ [c]) cs) else none

/-- An alternation of literals under the `i` flag followed by the continuation
`k`, which receives the matched text and the text after it. -/
def altThen {α : Type} (k : List Char → List Char → Option α) :
    List (List Char) → List Char → Option α
  | [], _ => none
  | a :: rest, s =>
    orTry ((litCI a s).bind (fun r => k (s.take a.length) r)) (altThen k rest s)

/-- Leftmost match of the matcher `m` in `s`. -/
def search {α : Type} (m : List Char → Option α) : List Char → Option α
  | [] => m []
  | c :: cs => orTry (m (c :: cs)) (search m cs)

/-- A keyword, `\s+`, then the capture `(\w+)`. -/
def keywordThenWord (kw : List Char) (t : List Char) : Option (List Char) :=
  (litCI kw t).bind
    (plusThen isSpace (fun _ r => plusThen isWordChar (fun w _ => some w) [] r) [])

/-- Capture 1 of `sql.match(/from\s+(\w+)/i)`. -/
def fromMatch (sql : String) : Option String :=
  (search (keywordThenWord "from".data) sql.data).map String.mk

/-- Capture 1 of `sql.match(/update\s+(\w+)/i)`. -/
def updateMatch (sql : String) : Option String :=
  (search (keywordThenWord "update".data) sql.data).map String.mk

/-- Capture 1 of `sql.match(/insert\s+into\s+(\w+)/i)`. -/
def insertMatch (sql : String) : Option String :=
  (search (fun t => (litCI "insert".data t).bind
    (plusThen isSpace (fun _ r => keywordThenWord "into".data r) [])) sql.data).map String.mk

/-- Capture 1 of `sql.match(/\(([^)]+)\)/)`. -/
def columnsMatch (sql : String) : Option String :=
  (search (fun t =>
    match t with
    | '(' :: r =>
      plusThen (fun c => c != ')')
        (fun body rest => match rest with
          | ')' :: _ => some body
          | _ => none) [] r
    | _ => none) sql.data).map String.mk

/-- The group `(?:order|limit|$)` of the select predicate pattern. -/
def selectStop (rest : List Char) : Bool :=
  (litCI "order".data rest).isSome || (litCI "limit".data rest).isSome || rest.isEmpty

/-- Capture 1 of `sql.match(/where\s+(.+?)(?:order|limit|$)/i)`. -/
def selectWhereMatch (sql : String) : Option String :=
  (search (fun t => (litCI "where".data t).bind
    (plusThen isSpace (fun _ r =>
      lazyPlusThen isDot (fun body rest => if selectStop rest then some body else none) [] r)
      [])) sql.data).map String.mk

/-- Capture 1 of `sql.match(/where\s+(.+?)$/i)`. -/
def whereMatch (sql : String) : Option String :=
  (search (fun t => (litCI "where".data t).bind
    (plusThen isSpace (fun _ r =>
      lazyPlusThen isDot (fun body rest => if rest.isEmpty then some body else none) [] r)
      [])) sql.data).map String.mk

/-- Capture 1 of `sql.match(/set\s+(.+?)where/i)`. -/
def setMatch (sql : String) : Option String :=
  (search (fun t => (litCI "set".data t).bind
    (plusThen isSpace (fun _ r =>
      lazyPlusThen isDot
        (fun body rest => if (litCI "where".data rest).isSome then some body else none) [] r)
      [])) sql.data).map String.mk

/-- Whether `name\s*=\s*\?` under the `i` flag matches somewhere in `condition`. -/
def equalsPlaceholderMatch (name : String) (condition : String) : Bool :=
  (search (fun t => (litCI name.data t).bind
    (starThen isSpace (fun _ r => (litCI ['='] r).bind
      (starThen isSpace (fun _ r2 => litCI ['?'] r2) [])) [])) condition.data).isSome

/-- Whether `condition.match(/id\s*=\s*\?/i)` succeeds. -/
def idMatch (condition : String) : Bool := equalsPlaceholderMatch "id" condition

/-- Whether `condition.match(/email\s*=\s*\?/i)` succeeds. -/
def emailMatch (condition : String) : Bool := equalsPlaceholderMatch "email" condition

/-- Whether `condition.match(/order_id\s*=\s*\?/i)` succeeds. -/
def orderIdMatch (condition : String) : Bool := equalsPlaceholderMatch "order_id" condition

/-- The branches of the group `(=|>|<|>=|<=|!=|AND|OR)`, in source order. -/
def operatorAlternatives : List (List Char) :=
  ["=".data, ">".data, "<".data, ">=".data, "<=".data, "!=".data, "and".data, "or".data]

/-- A match of `/\s*(=|>|<|>=|<=|!=|AND|OR)\s*/i` starting exactly at the head
of `s`: the captured operator and the text after the match. -/
def separatorAt (s : List Char) : Option (List Char × List Char) :=
  starThen isSpace (fun _ r =>
    altThen (fun op r2 => starThen isSpace (fun _ r3 => some (op, r3)) [] r2)
      operatorAlternatives r) [] s

/-- The method `condition.split(/\s*(=|>|<|>=|<=|!=|AND|OR)\s*/i)`: pieces and
captured separators alternate.  The first argument counts the characters still
covered by the separator matched last, `cur` is the piece under construction. -/
def splitOperators : Nat → List Char → List Char → List (List Char)
  | _, cur, [] => [cur]
  | skip + 1, cur, _ :: cs => splitOperators skip cur cs
  | 0, cur, c :: cs =>
    match separatorAt (c :: cs) with
    | some (op, rest) =>
      cur :: op :: splitOperators ((c :: cs).length - rest.length - 1) [] cs
    | none => splitOperators 0 (cur ++ [c]) cs

/-! ## The condition evaluator -/

/-- The `switch (operator)` of `evaluateCondition`. -/
def applyOperator (operator : Option String) (a value : Value) : Bool :=
  if operator = some "=" then looseEq a value
  else if operator = some "!=" then !looseEq a value
  else if operator = some ">" then jsGt a value
  else if operator = some "<" then jsLt a value
  else if operator = some ">=" then jsGe a value
  else if operator = some "<=" then jsLe a value
  else true

/-- The array `parts` of `evaluateCondition`. -/
def conditionParts (condition : String) : List String :=
  (splitOperators 0 [] condition.data).map String.mk

/-- The field name `parts[0].trim()`. -/
def conditionField (condition : String) : String :=
  String.mk (trimChars ((conditionParts condition).headD "").data)

/-- The operator `parts[1]`, `none` when the array has a single element. -/
def conditionOperator (condition : String) : Option String :=
  (conditionParts condition).get? 1

/-- The function `evaluateCondition(row, condition, params)`. -/
def evaluateCondition (row : Row) (condition : String) (params : List Value) : Bool :=
  let paramIndex := (splitChar '?' condition.data).length - 1
  if paramIndex = 0 then true
  else
    applyOperator (conditionOperator condition) (row.get (conditionField condition))
      (param params 0)

/-! ## The statement handlers -/

/-- The loop `names.forEach((name, idx) => row[name] = params[idx])`, started at
index `idx`. -/
def assignColumns : Row → List String → List Value → Nat → Row
  | row, [], _, _ => row
  | row, col :: cols, params, idx =>
    assignColumns (row.set col (param params idx)) cols params (idx + 1)

/-- The function `handleSelect(sql, params)`. The spread `[...(database[tableName]
|| [])]` throws when the property is a truthy value that is not iterable: the
counters object, or a member inherited from `Object.prototype`. -/
def handleSelect (db : Db) (sql : String) (params : List Value) : Outcome :=
  match fromMatch sql with
  | none => .rows []
  | some tableName =>
    if (tableName = "_counters" ∧ db.countersRows = none) ∨
        (tableName ∈ objectPrototypeNames ∧ db.table tableName = none) then .typeError
    else
      let results := (db.table tableName).getD []
      if includes (lowerChars sql.data) "where".data then
        match selectWhereMatch sql with
        | some w =>
          let condition := String.mk (trimChars w.data)
          if idMatch condition && truthy (param params 0) then
            match results.find? (fun row => looseEq (row.get "id") (param params 0)) with
            | some found => .rows [found]
            | none => .rows []
          else if emailMatch condition && truthy (param params 0) then
            .rows (results.filter (fun row => strictEq (row.get "email") (param params 0)))
          else if orderIdMatch condition && truthy (param params 0) then
            .rows (results.filter (fun row => strictEq (row.get "order_id") (param params 0)))
          else
            .rows (results.filter (fun row => evaluateCondition row condition params))
        | none => .rows results
      else .rows results

/-- The column list `columnsMatch[1].split(",").map((c) => c.trim())`. -/
def insertColumns (columnsText : String) : List String :=
  (splitChar ',' columnsText.data).map (fun c => String.mk (trimChars c))

/-- The row assembled by `handleInsert` from the counter value `id`. -/
def insertRow (id : Value) (columns : List String) (params : List Value) (now : String) : Row :=
  let newRow := assignColumns [("id", id)] columns params 0
  let newRow := if !truthy (newRow.get "created_at") then newRow.set "created_at" (.str now)
    else newRow
  if !truthy (newRow.get "updated_at") then newRow.set "updated_at" (.str now) else newRow

/-- The function `handleInsert(sql, params)`. -/
def handleInsert (db : Db) (sql : String) (params : List Value) (now : String) :
    Outcome × Db :=
  match insertMatch sql with
  | none => (.rows [], db)
  | some tableName =>
    match columnsMatch sql with
    | none => (.rows [], db)
    | some columnsText =>
      let old := toNumber (db.counter tableName)
      let db := db.setCounter tableName (ofNumber (old.map increment))
      let newRow := insertRow (ofNumber old) (insertColumns columnsText) params now
      match db.table tableName with
      | none => (.typeError, db)
      | some rows => (.rows [newRow], db.mutateTable tableName (rows ++ [newRow]))

/-- The assigned column names `update.split("=").map((s) => s.trim())[0]` of the
pieces of `setMatch[1].split(",")`. -/
def updateColumns (setText : String) : List String :=
  (splitChar ',' setText.data).map
    (fun update => String.mk (trimChars ((splitChar '=' update).headD [])))

/-- The body of `results.forEach((row) => ...)` in `handleUpdate`. -/
def updateRow (row : Row) (setText : String) (params : List Value) (now : String) : Row :=
  (assignColumns row (updateColumns setText) params 0).set "updated_at" (.str now)

/-- The filter predicate of `handleUpdate`. -/
def updateSelects (whereText : Option String) (setText : String) (params : List Value)
    (row : Row) : Bool :=
  match whereText with
  | some w => evaluateCondition row w (params.drop (splitChar ',' setText.data).length)
  | none => true

/-- The function `handleUpdate(sql, params)`. -/
def handleUpdate (db : Db) (sql : String) (params : List Value) (now : String) :
    Outcome × Db :=
  match updateMatch sql with
  | none => (.rows [], db)
  | some tableName =>
    match setMatch sql with
    | none => (.rows [], db)
    | some setText =>
      match db.table tableName with
      | none => (.typeError, db)
      | some rows =>
        let selects := updateSelects (whereMatch sql) setText params
        let results := (rows.filter selects).map (fun row => updateRow row setText params now)
        let rows := rows.map
          (fun row => if selects row then updateRow row setText params now else row)
        (.rows results, db.mutateTable tableName rows)

/-- The function `handleDelete(sql, params)`. -/
def handleDelete (db : Db) (sql : String) (params : List Value) : Outcome × Db :=
  match fromMatch sql with
  | none => (.rows [], db)
  | some tableName =>
    match whereMatch sql with
    | none => (.rows [], db.assignTable tableName [])
    | some w =>
      match db.table tableName with
      | none => (.typeError, db)
      | some rows =>
        (.rows [],
          db.assignTable tableName (rows.filter (fun row => !evaluateCondition row w params)))

/-- The function `query(sql, params)`: the outcome and the snapshot it leaves. -/
def query (db : Db) (sql : String) (params : List Value) (now : String) : Outcome × Db :=
  let sqlLower := trimChars (lowerChars sql.data)
  if startsWith sqlLower "select".data then (handleSelect db sql params, db)
  else if startsWith sqlLower "insert".data then handleInsert db sql params now
  else if startsWith sqlLower "update".data then handleUpdate db sql params now
  else if startsWith sqlLower "delete".data then handleDelete db sql params
  else (.rows [], db)

/-! ## Reference definitions for the refinement and sequence properties -/

/-- The general evaluation of a select predicate, in the words of the
specification: the predicate is evaluated by the Condition Evaluator against
every row of the table, accumulating the rows that satisfy it. -/
def selectByEvaluator (db : Db) (tableName condition : String) (params : List Value) :
    List Row :=
  ((db.table tableName).getD []).filter (fun row => evaluateCondition row condition params)

/-- One call of `query`: the statement text, the bound parameters and the clock
reading. -/
structure Call where
  sql : String
  params : List Value
  now : String
  deriving DecidableEq, Repr

/-- The snapshot left by a sequence of calls of `query`, each call starting from
the snapshot the previous one left (whether it returned or threw). -/
def queryAll : Db → List Call → Db
  | db, [] => db
  | db, call :: calls => queryAll (query db call.sql call.params call.now).2 calls

/-- Whether the ids of the rows are pairwise distinct values. -/
def idsDistinct (rows : List Row) : Prop :=
  rows.Pairwise (fun a b => a.get "id" ≠ b.get "id")

/-- Whether the statement assigns a value to the column `id`: it is an insert
whose column list names `id`, or an update whose set clause does. -/
def assignsId (sql : String) : Bool :=
  (startsWith (trimChars (lowerChars sql.data)) "insert".data &&
    match columnsMatch sql with
    | some columnsText => (insertColumns columnsText).contains "id"
    | none => false) ||
  (startsWith (trimChars (lowerChars sql.data)) "update".data &&
    match setMatch sql with
    | some setText => (updateColumns setText).contains "id"
    | none => false)

/-- Whether the statement is a delete that names a table the snapshot does not
hold under that name (the counters object `_counters` is not a table). -/
def deletesMissingTable (db : Db) (sql : String) : Bool :=
  startsWith (trimChars (lowerChars sql.data)) "delete".data &&
    match fromMatch sql with
    | some tableName => !(db.table tableName).isSome
    | none => false

/-- The inductive invariant behind id uniqueness: the counters object is in
place, and in every table the ids are pairwise distinct numbers below the table's
counter, itself a number between `-2^53` and `bound`. -/
def IdsFresh (db : Db) (bound : Int) : Prop :=
  db.countersRows = none ∧
  ∀ tableName rows, db.table tableName = some rows →
    idsDistinct rows ∧
    ∃ c, db.counter tableName = .num c ∧ -(2 ^ 53) ≤ c ∧ c ≤ bound ∧
      ∀ row ∈ rows, ∃ n, row.get "id" = .num n ∧ n < c

/-! ## The secondary result channel -/

/-- The record `{ lastID, changes }` returned by `run`. -/
structure RunResult where
  lastID : Value
  changes : Nat
  deriving DecidableEq, Repr

/-- The expression `result[0]?.id`. -/
def firstId (result : List Row) : Value :=
  match result.head? with
  | some row => row.get "id"
  | none => .undefined

/-- The function `run(sql, params)`: the record, `none` when `query` throws, and
the snapshot the statement leaves. -/
def run (db : Db) (sql : String) (params : List Value) (now : String) :
    Option RunResult × Db :=
  match query db sql params now with
  | (.rows result, db) =>
    (some
      { lastID := if truthy (firstId result) then firstId result else .num 0
        changes := result.length }, db)
  | (.typeError, db) => (none, db)

/-! ## Reference definitions for the properties of sequences and of predicates -/

/-- The ids of the rows a call of `query` returns (none when it throws). -/
def Outcome.ids : Outcome → List Value
  | .rows rs => rs.map (fun row => row.get "id")
  | .typeError => []

/-- The ids of the rows returned by the calls of a sequence, in order. -/
def returnedIds : Db → List Call → List Value
  | _, [] => []
  | db, call :: calls =>
    (query db call.sql call.params call.now).1.ids ++
      returnedIds (query db call.sql call.params call.now).2 calls

/-- Whether the statement is an insert into the table or a delete from it. -/
def insertsOrDeletes (tableName sql : String) : Bool :=
  (startsWith (trimChars (lowerChars sql.data)) "insert".data &&
    decide (insertMatch sql = some tableName)) ||
  (startsWith (trimChars (lowerChars sql.data)) "delete".data &&
    decide (fromMatch sql = some tableName))

/-- A character that is neither white space nor the first character of a
comparison operator. -/
def plainChar (c : Char) : Bool :=
  !isSpace c && c.toLower != '=' && c.toLower != '>' && c.toLower != '<' && c.toLower != '!'

/-- A field name in which the split pattern of `evaluateCondition` finds no
separator: no white space, no operator character, and neither `and` nor `or`
(in any letter case) inside it. -/
def plainName : List Char → Bool
  | [] => true
  | c :: cs =>
    plainChar c && !startsWith (lowerChars (c :: cs)) "and".data &&
      !startsWith (lowerChars (c :: cs)) "or".data && plainName cs

/-! ## The session facade -/

/-- The method `execute(sql, params)` of the object returned by
`getConnection()`: the one-element array `[result]` around the record of `run`,
`none` when `run` throws. -/
def execute (db : Db) (sql : String) (params : List Value) (now : String) :
    Option (List RunResult) × Db :=
  match run db sql params now with
  | (some result, db) => (some [result], db)
  | (none, db) => (none, db)

/-! ## The read-through cache -/

/-- A value handed to the cache: a scalar, or an object such as the grouped menu
listing (category name to rows). -/
inductive CacheValue where
  | scalar (v : Value)
  | object (groups : List (String × List Row))
  deriving DecidableEq, Repr

/-- The abstract operation `ToBoolean` on a cached value: every object is truthy. -/
def CacheValue.truthy : CacheValue → Bool
  | .scalar v => FoodOrder.truthy v
  | .object _ => true

/-- The object `cache`: the entry `menu` and its `menuTimestamp` (`none` for
`null`), in milliseconds. -/
structure Cache where
  menu : CacheValue
  menuTimestamp : Option Int
  deriving DecidableEq, Repr

/-- The constant `cache.CACHE_TTL`. -/
def CACHE_TTL : Int := 60000

/-- The initial cache, and the cache after `clearMenuCache()`. -/
def Cache.empty : Cache :=
  { menu := .scalar .null, menuTimestamp := none }

/-- The function `getCachedMenu()` with `Date.now()` as the argument `now`; a
`null` timestamp counts as 0 in the subtraction. -/
def getCachedMenu (cache : Cache) (now : Int) : CacheValue :=
  if cache.menu.truthy && decide (now - cache.menuTimestamp.getD 0 < CACHE_TTL) then cache.menu
  else .scalar .null

/-- The function `setCachedMenu(data)` with `Date.now()` as the argument `now`. -/
def setCachedMenu (_cache : Cache) (data : CacheValue) (now : Int) : Cache :=
  { menu := data, menuTimestamp := some now }

/-- The function `clearMenuCache()`. -/
def clearMenuCache (_cache : Cache) : Cache :=
  { menu := .scalar .null, menuTimestamp := none }

/-! ## Persistence -/

/-- The backing file as `loadDatabase` meets it: absent (`existsSync` is false),
present but `readFile` throws, or present with its text. -/
inductive BackingFile where
  | missing
  | unreadable
  | text (data : String)
  deriving DecidableEq, Repr

/-- The function `loadDatabase()`: the snapshot it leaves and whether it logged
an error. `JSON.parse` is the parameter `parse`, `none` when it throws. -/
def loadDatabase (parse : String → Option Db) (file : BackingFile) (database : Db) :
    Db × Bool :=
  match file with
  | .missing => (database, false)
  | .unreadable => (database, true)
  | .text data =>
    match parse data with
    | some parsed => (parsed, false)
    | none => (database, true)

/-- The method `rollback()` of the session facade. -/
def rollback (parse : String → Option Db) (file : BackingFile) (database : Db) :
    Db × Bool :=
  loadDatabase parse file database

/-- The persistence state: the in-memory snapshot, the deadline of the pending
timer `saveTimeout` (`none` when no timer is pending), and the writes made so
far, each with its time and the snapshot it serialized. -/
structure SaveState where
  database : Db
  saveTimeout : Option Int
  writes : List (Int × Db)
  deriving DecidableEq, Repr

/-- The function `saveDatabase()` called at time `now`: the pending timer is
cleared and a timer of 100 ms is started. -/
def saveDatabase (s : SaveState) (now : Int) : SaveState :=
  { s with saveTimeout := some (now + 100) }

/-- The event loop reaching time `now`: a pending timer whose deadline has come
fires and writes the snapshot as it stands. -/
def runTimers (s : SaveState) (now : Int) : SaveState :=
  match s.saveTimeout with
  | some deadline =>
    if deadline ≤ now then
      { s with saveTimeout := none, writes := s.writes ++ [(deadline, s.database)] }
    else s
  | none => s

/-- A mutation at time `now` that leaves the snapshot `next` and calls
`saveDatabase()`, as the handlers do. -/
def mutateAndSave (s : SaveState) (now : Int) (next : Db) : SaveState :=
  saveDatabase { (runTimers s now) with database := next } now

/-- A sequence of mutations, each with its time and the snapshot it leaves. -/
def saveAll : SaveState → List (Int × Db) → SaveState
  | s, [] => s
  | s, (now, next) :: rest => saveAll (mutateAndSave s now next) rest

/-! ## Input sanitization (`src/middleware/validation.js`) -/

/-- The UTF-16 code units of a character: one unit in the Basic Multilingual
Plane, a surrogate pair above it. -/
def utf16Char (c : Char) : List Nat :=
  if c.toNat < 0x10000 then [c.toNat]
  else [0xD800 + (c.toNat - 0x10000) / 0x400, 0xDC00 + (c.toNat - 0x10000) % 0x400]

/-- The UTF-16 code units of a text: the form in which a JS string is held, and
in which `length`, `replace`, `trim` and `substring` work. -/
def utf16 : List Char → List Nat
  | [] => []
  | c :: cs => utf16Char c ++ utf16 cs

/-- The code units removed by `trim`: JS white space and line terminators. -/
def isSpaceUnit (u : Nat) : Bool :=
  u == 9 || u == 10 || u == 11 || u == 12 || u == 13 ||
  u == 32 || u == 0xA0 || u == 0x1680 ||
  (0x2000 ≤ u && u ≤ 0x200A) ||
  u == 0x2028 || u == 0x2029 || u == 0x202F || u == 0x205F ||
  u == 0x3000 || u == 0xFEFF

/-- The method `String.prototype.trim` on a list of code units. -/
def trimUnits (s : List Nat) : List Nat :=
  ((s.dropWhile isSpaceUnit).reverse.dropWhile isSpaceUnit).reverse

/-- An argument of `sanitizeString`: a string, given by its UTF-16 code units,
or a value of any other type. -/
inductive Input (α : Type) where
  | string (units : List Nat)
  | other (value : α)
  deriving DecidableEq, Repr

/-- The function `sanitizeString(str)`: a value that is not a string is
returned as it is, a string becomes
`str.replace(/[<>]/g, "").trim().substring(0, 1000)` (`<` is the unit 60, `>` the
unit 62). -/
def sanitizeString {α : Type} : Input α → Input α
  | .string s => .string ((trimUnits (s.filter (fun u => u != 60 && u != 62))).take 1000)
  | .other v => .other v

end FoodOrder

/-! # Theorems -/

namespace FoodOrder

/-! ## Rows and snapshots: basic facts -/

theorem Row.get_set_self (row : Row) (f : String) (v : Value) : (row.set f v).get f = v := by
  induction row with
  | nil => simp [Row.set, Row.get]
  | cons kv rest ih =>
    obtain ⟨k, w⟩ := kv
    by_cases h : k = f
    · simp [Row.set, Row.get, h]
    · simp [Row.set, Row.get, h, ih]

theorem Row.get_set_ne (row : Row) (f g : String) (v : Value) (h : f ≠ g) :
    (row.set f v).get g = row.get g := by
  induction row with
  | nil => simp [Row.set, Row.get, h]
  | cons kv rest ih =>
    obtain ⟨k, w⟩ := kv
    by_cases hk : k = f
    · subst hk
      simp [Row.set, Row.get, h]
    · by_cases hg : k = g
      · subst hg
        simp [Row.set, Row.get, hk]
      · simp [Row.set, Row.get, hk, hg, ih]

theorem assignColumns_get_of_not_mem (cols : List String) (row : Row) (params : List Value)
    (idx : Nat) (f : String) (h : f ∉ cols) :
    (assignColumns row cols params idx).get f = row.get f := by
  induction cols generalizing row idx with
  | nil => simp [assignColumns]
  | cons c cs ih =>
    simp only [List.mem_cons, not_or] at h
    simp only [assignColumns]
    rw [ih _ _ h.2, Row.get_set_ne _ _ _ _ (Ne.symm h.1)]

theorem lookupKey_bindKey_self {α : Type} (l : List (String × α)) (f : String) (v : α) :
    lookupKey (bindKey l f v) f = some v := by
  induction l with
  | nil => simp [bindKey, lookupKey]
  | cons kv rest ih =>
    obtain ⟨k, w⟩ := kv
    by_cases h : k = f
    · simp [bindKey, lookupKey, h]
    · simp [bindKey, lookupKey, h, ih]

theorem lookupKey_bindKey_ne {α : Type} (l : List (String × α)) (f g : String) (v : α)
    (h : f ≠ g) : lookupKey (bindKey l f v) g = lookupKey l g := by
  induction l with
  | nil => simp [bindKey, lookupKey, h]
  | cons kv rest ih =>
    obtain ⟨k, w⟩ := kv
    by_cases hk : k = f
    · subst hk
      simp [bindKey, lookupKey, h]
    · by_cases hg : k = g
      · subst hg
        simp [bindKey, lookupKey, hk]
      · simp [bindKey, lookupKey, hk, hg, ih]

theorem Db.table_setCounter (db : Db) (t u : String) (v : Value) :
    (db.setCounter t v).table u = db.table u := by
  simp [Db.setCounter, Db.table]

theorem Db.counter_setCounter_self (db : Db) (t : String) (v : Value) :
    (db.setCounter t v).counter t = v := by
  simp [Db.setCounter, Db.counter, lookupKey_bindKey_self]

theorem Db.counter_setCounter_ne (db : Db) (t u : String) (v : Value) (h : t ≠ u) :
    (db.setCounter t v).counter u = db.counter u := by
  simp [Db.setCounter, Db.counter, lookupKey_bindKey_ne _ _ _ _ h]

theorem Db.counter_mutateTable (db : Db) (t u : String) (rows : List Row) :
    (db.mutateTable t rows).counter u = db.counter u := by
  unfold Db.mutateTable
  split <;> rfl

theorem Db.table_mutateTable_self (db : Db) (t : String) (rows : List Row) :
    (db.mutateTable t rows).table t = some rows := by
  unfold Db.mutateTable
  by_cases h : t = "_counters"
  · simp [h, Db.table]
  · simp [h, Db.table, lookupKey_bindKey_self]

theorem Db.table_mutateTable_ne (db : Db) (t u : String) (rows : List Row) (h : t ≠ u) :
    (db.mutateTable t rows).table u = db.table u := by
  unfold Db.mutateTable
  by_cases ht : t = "_counters"
  · have hu : u ≠ "_counters" := fun hu => h (ht.trans hu.symm)
    simp [ht, Db.table, hu]
  · by_cases hu : u = "_counters"
    · simp [ht, Db.table, hu]
    · simp [ht, Db.table, hu, lookupKey_bindKey_ne _ _ _ _ h]

/-! ## The increment of a counter -/

theorem bitLength_le (fuel m k : Nat) (h : m < 2 ^ k) : bitLength fuel m ≤ k := by
  induction fuel generalizing m k with
  | zero => simp [bitLength]
  | succ f ih =>
    unfold bitLength
    split
    · exact Nat.zero_le _
    · next hm =>
      cases k with
      | zero =>
        simp only [pow_zero, Nat.lt_one_iff] at h
        exact absurd h hm
      | succ k =>
        have h2 : m / 2 < 2 ^ k := by
          rw [Nat.div_lt_iff_lt_mul (by decide)]
          rw [pow_succ] at h
          exact h
        have := ih (m / 2) k h2
        omega

theorem roundNat_of_lt (m : Nat) (h : m < 2 ^ 53) : roundNat m = m := by
  unfold roundNat
  rw [if_pos (bitLength_le m m 53 h)]

theorem roundNat_two_pow : roundNat (2 ^ 53) = 2 ^ 53 := by
  decide

/-- Below `2 ^ 53` in magnitude the increment is exact. -/
theorem increment_of_lt (c : Int) (hlow : -(2 ^ 53) ≤ c) (hhigh : c < 2 ^ 53) :
    increment c = c + 1 := by
  unfold increment roundInt
  by_cases hneg : c + 1 < 0
  · have hlt : (c + 1).natAbs < 2 ^ 53 := by omega
    rw [if_pos hneg, roundNat_of_lt _ hlt]
    omega
  · rw [if_neg hneg]
    by_cases heq : (c + 1).natAbs = 2 ^ 53
    · rw [heq, roundNat_two_pow]
      omega
    · have hlt : (c + 1).natAbs < 2 ^ 53 := by omega
      rw [roundNat_of_lt _ hlt]
      omega

theorem increment_two_pow : increment (2 ^ 53) = 2 ^ 53 := by
  decide

/-- Between `-2^53` and `2^53` the increment does not decrease a number. -/
theorem le_increment (c : Int) (hlow : -(2 ^ 53) ≤ c) (hhigh : c ≤ 2 ^ 53) :
    c ≤ increment c := by
  by_cases h : c = 2 ^ 53
  · rw [h, increment_two_pow]
  · rw [increment_of_lt c hlow (by omega)]
    omega

/-! ## Statement dispatch -/

theorem startsWith_insert_not_select (s : List Char)
    (h : startsWith s "insert".data = true) : startsWith s "select".data = false := by
  cases s with
  | nil => simp [startsWith] at h
  | cons c cs =>
    simp only [startsWith, Bool.and_eq_true, beq_iff_eq] at h
    simp [startsWith, h.1]

theorem query_insert (db : Db) (sql : String) (params : List Value) (now : String)
    (h : startsWith (trimChars (lowerChars sql.data)) "insert".data = true) :
    query db sql params now = handleInsert db sql params now := by
  simp [query, h, startsWith_insert_not_select _ h]

theorem insertRow_get_id (id : Value) (columns : List String) (params : List Value)
    (now : String) (h : "id" ∉ columns) : (insertRow id columns params now).get "id" = id := by
  have h0 : (assignColumns [("id", id)] columns params 0).get "id" = id := by
    rw [assignColumns_get_of_not_mem _ _ _ _ _ h]
    simp [Row.get]
  unfold insertRow
  simp only []
  split <;> split <;>
    simp [Row.get_set_ne, h0]

/-- C1 (counterexample): an insert whose column list names `id` returns the bound
parameter as the row's id, not the pre-insert counter value. -/
theorem insert_id_column_overrides_counter :
    Db.seed.counter "users" = .num 1 ∧
    (query Db.seed "INSERT INTO users (id, email) VALUES (?, ?)"
        [.num 99, .str "a@b.c"] "2024-01-01T00:00:00.000Z").1 =
      .rows [[("id", .num 99), ("email", .str "a@b.c"),
        ("created_at", .str "2024-01-01T00:00:00.000Z"),
        ("updated_at", .str "2024-01-01T00:00:00.000Z")]] ∧
    ¬ ∃ row, (query Db.seed "INSERT INTO users (id, email) VALUES (?, ?)"
        [.num 99, .str "a@b.c"] "2024-01-01T00:00:00.000Z").1 = .rows [row] ∧
      row.get "id" = .num 1 := by
  refine ⟨by decide, by decide, ?_⟩
  rintro ⟨row, h1, h2⟩
  have h : (query Db.seed "INSERT INTO users (id, email) VALUES (?, ?)"
      [.num 99, .str "a@b.c"] "2024-01-01T00:00:00.000Z").1 =
      .rows [[("id", .num 99), ("email", .str "a@b.c"),
        ("created_at", .str "2024-01-01T00:00:00.000Z"),
        ("updated_at", .str "2024-01-01T00:00:00.000Z")]] := by decide
  rw [h] at h1
  simp only [Outcome.rows.injEq, List.cons.injEq, and_true] at h1
  subst h1
  exact absurd h2 (by decide)

/-- C1 (amended): for every snapshot and every insert statement whose column
list does not name `id`, naming a table that exists and whose counter has the
value `c`, a number with `-2^53 <= c < 2^53`, `query` returns exactly one row,
its id equals `c`, and afterwards that table's counter equals `c + 1`. -/
theorem insert_returns_counter_id (db : Db) (sql : String) (params : List Value)
    (now : String) (tableName columnsText : String) (c : Int) (rows : List Row)
    (hkind : startsWith (trimChars (lowerChars sql.data)) "insert".data = true)
    (htable : insertMatch sql = some tableName)
    (hcols : columnsMatch sql = some columnsText)
    (hid : "id" ∉ insertColumns columnsText)
    (hrows : db.table tableName = some rows)
    (hcounter : db.counter tableName = .num c)
    (hlow : -(2 ^ 53) ≤ c) (hhigh : c < 2 ^ 53) :
    (∃ row, (query db sql params now).1 = .rows [row] ∧ row.get "id" = .num c) ∧
    (query db sql params now).2.counter tableName = .num (c + 1) := by
  rw [query_insert _ _ _ _ hkind]
  simp only [handleInsert, htable, hcols, Db.table_setCounter, hrows, hcounter, toNumber,
    Option.map, ofNumber]
  refine ⟨⟨_, rfl, insertRow_get_id _ _ _ _ hid⟩, ?_⟩
  rw [Db.counter_mutateTable, Db.counter_setCounter_self, increment_of_lt c hlow hhigh]

/-- C1 (witness): the insert of the specification's scenario on the seeded snapshot. -/
theorem insert_returns_counter_id_witness :
    (∃ row, (query Db.seed "INSERT INTO menu_items (name, price) VALUES (?, ?)"
        [.str "Tea", .num 2] "2024-01-01T00:00:00.000Z").1 = .rows [row] ∧
      row.get "id" = .num 1) ∧
    (query Db.seed "INSERT INTO menu_items (name, price) VALUES (?, ?)"
        [.str "Tea", .num 2] "2024-01-01T00:00:00.000Z").2.counter "menu_items" = .num (1 + 1) :=
  insert_returns_counter_id Db.seed "INSERT INTO menu_items (name, price) VALUES (?, ?)"
    [.str "Tea", .num 2] "2024-01-01T00:00:00.000Z" "menu_items" "name, price" 1 []
    (by decide) (by decide) (by decide) (by decide) (by decide) (by decide)
    (by decide) (by decide)

/-- C2 (failing input): `SELECT id FROM orders WHERE order_id = ?` is answered by
the `id = ?` lookup, because `/id\s*=\s*\?/i` also matches inside `order_id = ?`:
the row whose `order_id` equals the parameter is not returned, and a row whose
`id` loosely equals the parameter is returned instead. -/
theorem select_order_id_looks_up_id :
    (query (Db.seed.mutateTable "orders" [[("id", .num 1), ("order_id", .str "ORD-1")]])
        "SELECT id FROM orders WHERE order_id = ?" [.str "ORD-1"] "t0").1 = .rows [] ∧
    (query (Db.seed.mutateTable "orders"
          [[("id", .num 1), ("order_id", .str "2")], [("id", .num 2), ("order_id", .str "1")]])
        "SELECT id FROM orders WHERE order_id = ?" [.str "2"] "t0").1 =
      .rows [[("id", .num 2), ("order_id", .str "1")]] := by
  decide

/-- C3 (failing input): `delete from feedback where order_id = ?` removes every
row of the table, also the rows whose `order_id` differs from the parameter. -/
theorem delete_order_id_removes_all_rows :
    (query (Db.seed.mutateTable "feedback"
          [[("id", .num 1), ("order_id", .str "ORD-1")],
           [("id", .num 2), ("order_id", .str "ORD-2")]])
        "delete from feedback where order_id = ?" [.str "ORD-1"] "t0") =
      (.rows [], Db.seed.mutateTable "feedback" []) := by
  decide

/-- C5 (failing input): an update with a set clause and no where clause returns
no row and leaves the snapshot as it was, because `/set\s+(.+?)where/i` needs
the keyword `where`. -/
theorem update_without_where_changes_nothing :
    (query (Db.seed.mutateTable "menu_items" [[("id", .num 1), ("price", .num 2)]])
        "UPDATE menu_items SET price = ?" [.num 3] "t0") =
      (.rows [], Db.seed.mutateTable "menu_items" [[("id", .num 1), ("price", .num 2)]]) := by
  decide

/-- C6 (failing input): for the column names `order_id` and `category` the
split finds the separator `or` inside the name, the operator is `or`, and
`evaluateCondition` returns true for every row and every parameter list, also
when the field does not loosely equal the parameter. -/
theorem evaluateCondition_or_inside_column_name :
    conditionParts "order_id = ?" = ["", "or", "der_id", "=", "?"] ∧
    (∀ (row : Row) (params : List Value),
      evaluateCondition row "order_id = ?" params = true) ∧
    looseEq (Row.get [("order_id", .str "A")] "order_id") (.str "B") = false ∧
    conditionParts "category = ?" = ["categ", "or", "y", "=", "?"] ∧
    (∀ (row : Row) (params : List Value),
      evaluateCondition row "category = ?" params = true) ∧
    looseEq (Row.get [("category", .str "Drinks")] "category") (.str "Snacks") = false := by
  have h1 : conditionOperator "order_id = ?" = some "or" := by decide
  have h2 : conditionOperator "category = ?" = some "or" := by decide
  refine ⟨by decide, ?_, by decide, by decide, ?_, by decide⟩
  · intro row params
    simp [evaluateCondition, h1, applyOperator]
  · intro row params
    simp [evaluateCondition, h2, applyOperator]

/-- C9 (failing input): insert, update and delete-with-predicate on a table that
is not in the snapshot throw a `TypeError` (the insert after recording the counter
`NaN` for that name); only select and delete-without-predicate return the empty
result. -/
theorem missing_table_throws :
    (query Db.seed "INSERT INTO ghosts (name) VALUES (?)" [.str "x"] "t0") =
      (.typeError, Db.seed.setCounter "ghosts" .nan) ∧
    (query Db.seed "UPDATE ghosts SET name = ? WHERE id = ?" [.str "x", .num 1] "t0") =
      (.typeError, Db.seed) ∧
    (query Db.seed "DELETE FROM ghosts WHERE id = ?" [.num 1] "t0") =
      (.typeError, Db.seed) ∧
    (query Db.seed "SELECT * FROM ghosts WHERE id = ?" [.num 1] "t0") =
      (.rows [], Db.seed) := by
  decide

/-! ## The condition evaluator: comparisons with undefined -/

theorem splitAux_length (sep : Char) (s cur : List Char) :
    (splitAux sep cur s).length = s.count sep + 1 := by
  induction s generalizing cur with
  | nil => simp [splitAux]
  | cons c cs ih =>
    by_cases h : c = sep
    · subst h
      simp [splitAux, ih]
    · have h2 : (c == sep) = false := by simpa using h
      simp [splitAux, h, ih, List.count_cons, h2]

theorem isLessThan_undefined_right (a : Value) : isLessThan a .undefined = none := by
  cases a <;> simp [isLessThan, toNumber]

theorem isLessThan_undefined_left (a : Value) : isLessThan .undefined a = none := by
  cases a <;> simp [isLessThan, toNumber]

/-! ## Update -/

theorem startsWith_update_not_select (s : List Char)
    (h : startsWith s "update".data = true) : startsWith s "select".data = false := by
  cases s with
  | nil => simp [startsWith] at h
  | cons c cs =>
    simp only [startsWith, Bool.and_eq_true, beq_iff_eq] at h
    simp [startsWith, h.1]

theorem startsWith_update_not_insert (s : List Char)
    (h : startsWith s "update".data = true) : startsWith s "insert".data = false := by
  cases s with
  | nil => simp [startsWith] at h
  | cons c cs =>
    simp only [startsWith, Bool.and_eq_true, beq_iff_eq] at h
    simp [startsWith, h.1]

theorem query_update (db : Db) (sql : String) (params : List Value) (now : String)
    (h : startsWith (trimChars (lowerChars sql.data)) "update".data = true) :
    query db sql params now = handleUpdate db sql params now := by
  simp [query, h, startsWith_update_not_select _ h, startsWith_update_not_insert _ h]

theorem evaluateCondition_id_eq (row : Row) (params : List Value) :
    evaluateCondition row "id = ?" params = looseEq (row.get "id") (param params 0) := by
  have h1 : (splitChar '?' "id = ?".data).length - 1 = 1 := by decide
  have h2 : conditionOperator "id = ?" = some "=" := by decide
  have h3 : conditionField "id = ?" = "id" := by decide
  simp [evaluateCondition, h1, h2, h3, applyOperator]

theorem looseEq_num_decide (n m : Int) : looseEq (.num n) (.num m) = decide (n = m) := by
  simp only [looseEq, numEq, toNumber]
  by_cases h : n = m <;> simp [h]

theorem looseEq_str_decide (a b : String) : looseEq (.str a) (.str b) = decide (a = b) := by
  simp only [looseEq]
  by_cases h : a = b <;> simp [h]

theorem updateColumns_length (setText : String) :
    (updateColumns setText).length = (splitChar ',' setText.data).length := by
  simp [updateColumns]

theorem param_append_left (vs : List Value) (p : Value) (i : Nat) (h : i < vs.length) :
    param (vs ++ [p]) i = param vs i := by
  simp [param, List.getD_eq_getElem?_getD, List.getElem?_append_left h]

theorem assignColumns_get_at (cols : List String) (row : Row) (params : List Value)
    (idx i : Nat) (col : String) (hcol : cols.get? i = some col)
    (hlast : col ∉ cols.drop (i + 1)) :
    (assignColumns row cols params idx).get col = param params (idx + i) := by
  induction cols generalizing row idx i with
  | nil => simp at hcol
  | cons c cs ih =>
    cases i with
    | zero =>
      simp only [List.get?_cons_zero, Option.some.injEq] at hcol
      subst hcol
      simp only [Nat.zero_add, List.drop_succ_cons, List.drop_zero] at hlast
      simp only [assignColumns, Nat.add_zero]
      rw [assignColumns_get_of_not_mem _ _ _ _ _ hlast, Row.get_set_self]
    | succ j =>
      simp only [List.get?_cons_succ] at hcol
      simp only [List.drop_succ_cons] at hlast
      simp only [assignColumns]
      rw [ih _ (idx + 1) j hcol hlast]
      congr 1
      omega

theorem updateSelects_id (setText : String) (vs : List Value) (p : Value) (row : Row)
    (hlen : vs.length = (updateColumns setText).length) :
    updateSelects (some "id = ?") setText (vs ++ [p]) row = looseEq (row.get "id") p := by
  rw [updateColumns_length] at hlen
  simp only [updateSelects, evaluateCondition_id_eq, ← hlen]
  simp [param]

/-- C4 (counterexample): an assignment to `updated_at` is overwritten by the
re-stamped time, and of two assignments to the same column the later one wins, so
the row does not end with `row[ci] = vi` for every `i`. -/
theorem update_assignment_overwritten :
    (query (Db.seed.mutateTable "users" [[("id", .num 1), ("updated_at", .str "old")]])
        "UPDATE users SET updated_at = ? WHERE id = ?" [.str "2020-02-02", .num 1]
        "2024-01-01T00:00:00.000Z").1 =
      .rows [[("id", .num 1), ("updated_at", .str "2024-01-01T00:00:00.000Z")]] ∧
    (query (Db.seed.mutateTable "users" [[("id", .num 1), ("name", .str "old")]])
        "UPDATE users SET name = ?, name = ? WHERE id = ?" [.str "A", .str "B", .num 1]
        "2024-01-01T00:00:00.000Z").1 =
      .rows [[("id", .num 1), ("name", .str "B"),
        ("updated_at", .str "2024-01-01T00:00:00.000Z")]] := by
  decide

/-- C4 (amended): for every update statement parsed as table `T`, a set clause
with the columns `c1, ..., ck`, none of them `__proto__`, and the predicate
`id = ?`, called with the parameters `[v1, ..., vk, p]`: exactly the rows of `T`
that the predicate `id = ?` selects for the parameter `p` (`row.id == p`; for a
numeric id and a numeric `p`, the rows whose id is `p`) are mutated, the returned
result is exactly those mutated rows, every other row of `T` is unchanged, and
each mutated row ends with `row[ci] = vi` for every column `ci` other than
`updated_at` that is not assigned again later in the set clause, with
`updated_at` equal to the current time and every unassigned field as before. -/
theorem update_where_id (db : Db) (sql now tableName setText : String) (rows : List Row)
    (vs : List Value) (p : Value)
    (hkind : startsWith (trimChars (lowerChars sql.data)) "update".data = true)
    (htable : updateMatch sql = some tableName)
    (hset : setMatch sql = some setText)
    (hwhere : whereMatch sql = some "id = ?")
    (hrows : db.table tableName = some rows)
    (hlen : vs.length = (updateColumns setText).length) :
    "__proto__" ∉ updateColumns setText →
    (query db sql (vs ++ [p]) now).1 =
      .rows ((rows.filter (fun row => evaluateCondition row "id = ?" [p])).map
        (fun row => updateRow row setText (vs ++ [p]) now)) ∧
    (query db sql (vs ++ [p]) now).2.table tableName =
      some (rows.map (fun row =>
        if evaluateCondition row "id = ?" [p] then updateRow row setText (vs ++ [p]) now
        else row)) ∧
    (∀ (row : Row) (n m : Int), row.get "id" = .num n → p = .num m →
      evaluateCondition row "id = ?" [p] = decide (n = m)) ∧
    (∀ (row : Row) (i : Nat) (col : String) (v : Value),
      (updateColumns setText).get? i = some col → vs.get? i = some v →
      col ≠ "updated_at" → col ∉ (updateColumns setText).drop (i + 1) →
      (updateRow row setText (vs ++ [p]) now).get col = v) ∧
    (∀ row : Row, (updateRow row setText (vs ++ [p]) now).get "updated_at" = .str now) ∧
    (∀ (row : Row) (f : String), f ∉ updateColumns setText → f ≠ "updated_at" →
      (updateRow row setText (vs ++ [p]) now).get f = row.get f) := by
  intro _
  have hsel : updateSelects (some "id = ?") setText (vs ++ [p]) =
      fun row => evaluateCondition row "id = ?" [p] := by
    funext row
    rw [updateSelects_id setText vs p row hlen, evaluateCondition_id_eq]
    rfl
  rw [query_update _ _ _ _ hkind]
  simp only [handleUpdate, htable, hset, hwhere, hrows, hsel, Db.table_mutateTable_self]
  refine ⟨trivial, trivial, ?_, ?_, ?_, ?_⟩
  · intro row n m hn hm
    rw [evaluateCondition_id_eq, hn, hm]
    exact looseEq_num_decide n m
  · intro row i col v hcol hv hne hlast
    have hi : i < vs.length := by
      rcases List.get?_eq_some.mp hv with ⟨h, _⟩
      exact h
    unfold updateRow
    rw [Row.get_set_ne _ _ _ _ (Ne.symm hne), assignColumns_get_at _ _ _ 0 i col hcol hlast,
      Nat.zero_add, param_append_left _ _ _ hi]
    simp [param, List.getD_eq_getElem?_getD, ← List.get?_eq_getElem?, hv]
  · intro row
    exact Row.get_set_self _ _ _
  · intro row f hf hne
    unfold updateRow
    rw [Row.get_set_ne _ _ _ _ (Ne.symm hne), assignColumns_get_of_not_mem _ _ _ _ _ hf]

/-- C4 (witness): the update issued by the payment route on a table of two orders. -/
theorem update_where_id_witness :
    (query (Db.seed.mutateTable "orders"
          [[("id", .num 1), ("status", .str "PENDING")],
           [("id", .num 2), ("status", .str "PENDING")]])
        "UPDATE orders SET status = ? WHERE id = ?" ([.str "PAID"] ++ [.num 2])
        "2024-01-01T00:00:00.000Z").1 =
      .rows (([[("id", .num 1), ("status", .str "PENDING")],
          [("id", .num 2), ("status", .str "PENDING")]].filter
            (fun row => evaluateCondition row "id = ?" [.num 2])).map
        (fun row => updateRow row "status = ? " ([.str "PAID"] ++ [.num 2])
          "2024-01-01T00:00:00.000Z")) :=
  (update_where_id
    (Db.seed.mutateTable "orders"
      [[("id", .num 1), ("status", .str "PENDING")],
       [("id", .num 2), ("status", .str "PENDING")]])
    "UPDATE orders SET status = ? WHERE id = ?" "2024-01-01T00:00:00.000Z" "orders"
    "status = ? "
    [[("id", .num 1), ("status", .str "PENDING")], [("id", .num 2), ("status", .str "PENDING")]]
    [.str "PAID"] (.num 2)
    (by decide) (by decide) (by decide) (by decide) (by decide) (by decide) (by decide)).1

/-! ## Select -/

theorem query_select (db : Db) (sql : String) (params : List Value) (now : String)
    (h : startsWith (trimChars (lowerChars sql.data)) "select".data = true) :
    query db sql params now = (handleSelect db sql params, db) := by
  simp [query, h]

theorem startsWith_lower_of_litCI (kw t r : List Char) (h : litCI kw t = some r) :
    startsWith (lowerChars t) kw = true := by
  induction kw generalizing t with
  | nil => cases t <;> simp [startsWith, lowerChars]
  | cons k ks ih =>
    cases t with
    | nil => simp [litCI] at h
    | cons c cs =>
      by_cases hc : (c.toLower == k) = true
      · simp only [litCI, hc, if_true] at h
        have := ih cs h
        simp only [lowerChars] at this
        simp [startsWith, lowerChars, hc, this]
      · simp [litCI, hc] at h

theorem includes_of_search {α : Type} (m : List Char → Option α) (kw s : List Char) (x : α)
    (hm : ∀ t y, m t = some y → startsWith (lowerChars t) kw = true)
    (h : search m s = some x) : includes (lowerChars s) kw = true := by
  induction s with
  | nil =>
    have := hm [] x h
    simpa [includes, lowerChars] using this
  | cons c cs ih =>
    simp only [search] at h
    cases hh : m (c :: cs) with
    | some y =>
      have := hm _ _ hh
      simp only [lowerChars, List.map_cons] at this
      simp [includes, lowerChars, this]
    | none =>
      rw [hh] at h
      simp only [orTry] at h
      have := ih h
      simp only [lowerChars] at this
      simp [includes, lowerChars, this]

theorem includes_where_of_selectWhereMatch (sql w : String)
    (h : selectWhereMatch sql = some w) :
    includes (lowerChars sql.data) "where".data = true := by
  unfold selectWhereMatch at h
  simp only [Option.map_eq_some'] at h
  obtain ⟨x, hx, _⟩ := h
  refine includes_of_search _ _ _ x ?_ hx
  intro t y hy
  cases hl : litCI "where".data t with
  | none => simp [hl] at hy
  | some r => exact startsWith_lower_of_litCI _ _ _ hl

/-- A select on a name under which the snapshot holds an array does not throw. -/
theorem handleSelect_no_throw (db : Db) (tableName : String) (rows : List Row)
    (hrows : db.table tableName = some rows) :
    ¬ ((tableName = "_counters" ∧ db.countersRows = none) ∨
      (tableName ∈ objectPrototypeNames ∧ db.table tableName = none)) := by
  rintro (⟨h1, h2⟩ | ⟨_, h3⟩)
  · rw [Db.table, if_pos h1, h2] at hrows
    cases hrows
  · rw [hrows] at h3
    cases h3

theorem evaluateCondition_email_eq (row : Row) (params : List Value) :
    evaluateCondition row "email = ?" params = looseEq (row.get "email") (param params 0) := by
  have h1 : (splitChar '?' "email = ?".data).length - 1 = 1 := by decide
  have h2 : conditionOperator "email = ?" = some "=" := by decide
  have h3 : conditionField "email = ?" = "email" := by decide
  simp [evaluateCondition, h1, h2, h3, applyOperator]

theorem looseEq_num_unique (a b : Int) (p : Value)
    (ha : looseEq (.num a) p = true) (hb : looseEq (.num b) p = true) : a = b := by
  cases p with
  | undefined => simp [looseEq] at ha
  | null => simp [looseEq] at ha
  | nan => simp [looseEq, numEq, toNumber] at ha
  | bool c =>
    simp only [looseEq, numEq, toNumber, beq_iff_eq] at ha hb
    rw [ha, hb]
  | num n =>
    simp only [looseEq, numEq, toNumber, beq_iff_eq] at ha hb
    rw [ha, hb]
  | str s =>
    simp only [looseEq, toNumber] at ha hb
    cases hs : stringToNumber s with
    | none => simp [hs, numEq] at ha
    | some n =>
      simp only [hs, numEq, beq_iff_eq] at ha hb
      rw [ha, hb]

theorem filter_eq_of_find (pred : Row → Bool) (rows : List Row)
    (h : rows.Pairwise (fun a b => ¬ (pred a = true ∧ pred b = true))) :
    rows.filter pred = (rows.find? pred).toList := by
  induction rows with
  | nil => simp
  | cons r rs ih =>
    rw [List.pairwise_cons] at h
    cases hr : pred r with
    | false => simp [List.filter_cons, List.find?_cons, hr, ih h.2]
    | true =>
      have : rs.filter pred = [] := by
        rw [List.filter_eq_nil_iff]
        intro b hb hpb
        exact h.1 b hb ⟨hr, hpb⟩
      simp [List.filter_cons, List.find?_cons, hr, this]

theorem strictEq_str_eq_looseEq (s e : String) :
    strictEq (.str s) (.str e) = looseEq (.str s) (.str e) := by
  simp [strictEq, looseEq]

/-- C7 (counterexample): the fast path and the general evaluator disagree on a
table with a repeated id (`find` returns the first row only), on an email stored
as a number (`===` against `==`), and on `order_id = ?`, which is answered by the
id lookup while the evaluator accepts every row. -/
theorem select_fast_path_differs :
    (handleSelect (Db.seed.mutateTable "users" [[("id", .num 1), ("name", .str "a")],
          [("id", .num 1), ("name", .str "b")]])
        "SELECT * FROM users WHERE id = ?" [.num 1] = .rows [[("id", .num 1), ("name", .str "a")]] ∧
      selectByEvaluator (Db.seed.mutateTable "users" [[("id", .num 1), ("name", .str "a")],
          [("id", .num 1), ("name", .str "b")]]) "users" "id = ?" [.num 1] =
        [[("id", .num 1), ("name", .str "a")], [("id", .num 1), ("name", .str "b")]]) ∧
    (handleSelect (Db.seed.mutateTable "users" [[("id", .num 1), ("email", .num 5)]])
        "SELECT * FROM users WHERE email = ?" [.str "5"] = .rows [] ∧
      selectByEvaluator (Db.seed.mutateTable "users" [[("id", .num 1), ("email", .num 5)]])
        "users" "email = ?" [.str "5"] = [[("id", .num 1), ("email", .num 5)]]) ∧
    (handleSelect (Db.seed.mutateTable "orders" [[("id", .num 1), ("order_id", .str "ORD-1")]])
        "SELECT * FROM orders WHERE order_id = ?" [.str "ORD-2"] = .rows [] ∧
      selectByEvaluator (Db.seed.mutateTable "orders"
          [[("id", .num 1), ("order_id", .str "ORD-1")]])
        "orders" "order_id = ?" [.str "ORD-2"] = [[("id", .num 1), ("order_id", .str "ORD-1")]]) := by
  decide

/-- C7 (amended): for a select statement on an existing table whose predicate is
`id = ?`, when the ids of the table are pairwise distinct numbers, or whose
predicate is `email = ?`, when the parameter and every stored email are strings,
the result of select equals the result of filtering the table's rows with the
general Condition Evaluator on the same predicate and parameters. -/
theorem select_fast_path_agrees (db : Db) (sql now tableName w : String) (rows : List Row)
    (params : List Value)
    (hkind : startsWith (trimChars (lowerChars sql.data)) "select".data = true)
    (hfrom : fromMatch sql = some tableName)
    (hwhere : selectWhereMatch sql = some w)
    (hrows : db.table tableName = some rows)
    (hshape :
      (String.mk (trimChars w.data) = "id = ?" ∧
        (∀ row ∈ rows, ∃ n, row.get "id" = .num n) ∧
        rows.Pairwise (fun a b => a.get "id" ≠ b.get "id")) ∨
      (String.mk (trimChars w.data) = "email = ?" ∧
        (∃ e, param params 0 = .str e) ∧
        ∀ row ∈ rows, ∃ s, row.get "email" = .str s)) :
    (query db sql params now).1 =
      .rows (selectByEvaluator db tableName (String.mk (trimChars w.data)) params) := by
  have hnc := handleSelect_no_throw db tableName rows hrows
  rw [query_select _ _ _ _ hkind]
  simp only [handleSelect, hfrom, if_neg hnc]
  simp only [includes_where_of_selectWhereMatch _ _ hwhere,
    if_true, hwhere, hrows, Option.getD_some, selectByEvaluator]
  rcases hshape with ⟨hc, hnum, hdist⟩ | ⟨hc, ⟨e, he⟩, hstr⟩
  · have h1 : idMatch "id = ?" = true := by decide
    have h2 : emailMatch "id = ?" = false := by decide
    have h3 : orderIdMatch "id = ?" = false := by decide
    rw [hc]
    simp only [h1, h2, h3, Bool.true_and, Bool.false_and]
    cases ht : truthy (param params 0) with
    | false => simp
    | true =>
      have hpw : rows.Pairwise (fun a b =>
          ¬ (looseEq (a.get "id") (param params 0) = true ∧
            looseEq (b.get "id") (param params 0) = true)) := by
        refine (List.Pairwise.and_mem.mp hdist).imp ?_
        rintro a b ⟨ha, hb, hab⟩ ⟨h4, h5⟩
        obtain ⟨n, hn⟩ := hnum a ha
        obtain ⟨m, hm⟩ := hnum b hb
        rw [hn] at h4
        rw [hm] at h5
        apply hab
        rw [hn, hm, looseEq_num_unique n m _ h4 h5]
      have hfilter := filter_eq_of_find _ rows hpw
      simp only [evaluateCondition_id_eq, if_true, hfilter]
      cases rows.find? (fun row => looseEq (row.get "id") (param params 0)) <;> rfl
  · have h1 : idMatch "email = ?" = false := by decide
    have h2 : emailMatch "email = ?" = true := by decide
    rw [hc]
    simp only [h1, h2, Bool.true_and, Bool.false_and, evaluateCondition_email_eq]
    cases ht : truthy (param params 0) with
    | false => simp
    | true =>
      simp only [if_true, if_false, Bool.false_eq_true, Outcome.rows.injEq, he]
      apply List.filter_congr
      intro row hrow
      obtain ⟨s, hs⟩ := hstr row hrow
      rw [hs, strictEq_str_eq_looseEq]

/-- C7 (witness): a select by id on a table of two users. -/
theorem select_fast_path_agrees_witness :
    (query (Db.seed.mutateTable "users" [[("id", .num 1), ("email", .str "a@b.c")],
        [("id", .num 2), ("email", .str "d@e.f")]])
      "SELECT * FROM users WHERE id = ?" [.num 2] "2024-01-01T00:00:00.000Z").1 =
    .rows (selectByEvaluator (Db.seed.mutateTable "users"
        [[("id", .num 1), ("email", .str "a@b.c")], [("id", .num 2), ("email", .str "d@e.f")]])
      "users" (String.mk (trimChars "id = ?".data)) [.num 2]) :=
  select_fast_path_agrees
    (Db.seed.mutateTable "users" [[("id", .num 1), ("email", .str "a@b.c")],
      [("id", .num 2), ("email", .str "d@e.f")]])
    "SELECT * FROM users WHERE id = ?" "2024-01-01T00:00:00.000Z" "users" "id = ?"
    [[("id", .num 1), ("email", .str "a@b.c")], [("id", .num 2), ("email", .str "d@e.f")]]
    [.num 2] (by decide) (by decide) (by decide) (by decide)
    (Or.inl ⟨by decide,
      by
        intro row h
        simp only [List.mem_cons, List.mem_singleton, List.not_mem_nil, or_false] at h
        rcases h with rfl | rfl
        · exact ⟨1, rfl⟩
        · exact ⟨2, rfl⟩,
      by decide⟩)

/-! ## Id uniqueness -/

theorem startsWith_delete_not_select (s : List Char)
    (h : startsWith s "delete".data = true) : startsWith s "select".data = false := by
  cases s with
  | nil => simp [startsWith] at h
  | cons c cs =>
    simp only [startsWith, Bool.and_eq_true, beq_iff_eq] at h
    simp [startsWith, h.1]

theorem Db.table_assignTable_self (db : Db) (t : String) (rows : List Row) :
    (db.assignTable t rows).table t = some rows := by
  unfold Db.assignTable
  by_cases h : t = "_counters"
  · simp [h, Db.table]
  · simp [h, Db.table, lookupKey_bindKey_self]

theorem Db.table_assignTable_ne (db : Db) (t u : String) (rows : List Row) (h : t ≠ u) :
    (db.assignTable t rows).table u = db.table u := by
  unfold Db.assignTable
  by_cases ht : t = "_counters"
  · have hu : u ≠ "_counters" := fun hu => h (ht.trans hu.symm)
    simp [ht, Db.table, hu]
  · by_cases hu : u = "_counters"
    · simp [ht, Db.table, hu]
    · simp [ht, Db.table, hu, lookupKey_bindKey_ne _ _ _ _ h]

theorem Db.counter_assignTable (db : Db) (t u : String) (rows : List Row)
    (h : t ≠ "_counters") : (db.assignTable t rows).counter u = db.counter u := by
  simp [Db.assignTable, h, Db.counter]

theorem Db.countersRows_mutateTable (db : Db) (t : String) (rows : List Row)
    (h : t ≠ "_counters") : (db.mutateTable t rows).countersRows = db.countersRows := by
  simp [Db.mutateTable, h]

theorem Db.countersRows_assignTable (db : Db) (t : String) (rows : List Row)
    (h : t ≠ "_counters") : (db.assignTable t rows).countersRows = db.countersRows := by
  simp [Db.assignTable, h]

/-- While the counters object is in place, `_counters` names no table. -/
theorem Db.table_ne_counters (db : Db) (t : String) (rows : List Row)
    (hobj : db.countersRows = none) (h : db.table t = some rows) : t ≠ "_counters" := by
  intro ht
  rw [Db.table, if_pos ht, hobj] at h
  cases h

theorem IdsFresh.mono (db : Db) (b b' : Int) (h : IdsFresh db b) (hb : b ≤ b') :
    IdsFresh db b' := by
  refine ⟨h.1, fun t rows ht => ?_⟩
  obtain ⟨hd, c, hc, hl, hu, hids⟩ := h.2 t rows ht
  exact ⟨hd, c, hc, hl, le_trans hu hb, hids⟩

/-- The invariant is kept by a step that changes no table and no counter of a
table. -/
theorem IdsFresh.frame (db next : Db) (b : Int) (h : IdsFresh db b)
    (hobj : next.countersRows = none)
    (htable : ∀ u, next.table u = db.table u)
    (hcounter : ∀ u rows, db.table u = some rows → next.counter u = db.counter u) :
    IdsFresh next b := by
  refine ⟨hobj, fun t rows ht => ?_⟩
  rw [htable t] at ht
  obtain ⟨hd, c, hc, rest⟩ := h.2 t rows ht
  exact ⟨hd, c, by rw [hcounter t rows ht, hc], rest⟩

/-- The invariant is kept by a step that replaces the rows and the counter of one
table by rows and a counter that satisfy it, and keeps every other table and
counter. -/
theorem IdsFresh.step (db next : Db) (b : Int) (tableName : String) (rows : List Row)
    (h : IdsFresh db b)
    (hobj : next.countersRows = none)
    (hself : next.table tableName = some rows)
    (hother : ∀ u, u ≠ tableName → next.table u = db.table u)
    (hcounter : ∀ u, u ≠ tableName → next.counter u = db.counter u)
    (hnew : idsDistinct rows ∧
      ∃ c, next.counter tableName = .num c ∧ -(2 ^ 53) ≤ c ∧ c ≤ b ∧
        ∀ row ∈ rows, ∃ n, row.get "id" = .num n ∧ n < c) :
    IdsFresh next b := by
  refine ⟨hobj, fun u rs hu => ?_⟩
  by_cases hut : u = tableName
  · subst hut
    rw [hself] at hu
    cases hu
    exact hnew
  · rw [hother u hut] at hu
    obtain ⟨hd, c, hc, rest⟩ := h.2 u rs hu
    exact ⟨hd, c, by rw [hcounter u hut, hc], rest⟩

theorem idsDistinct_filter (rows : List Row) (pred : Row → Bool) (h : idsDistinct rows) :
    idsDistinct (rows.filter pred) :=
  List.Pairwise.sublist (List.filter_sublist rows) h

theorem idsDistinct_map (rows : List Row) (g : Row → Row)
    (hg : ∀ row, (g row).get "id" = row.get "id") (h : idsDistinct rows) :
    idsDistinct (rows.map g) := by
  unfold idsDistinct
  rw [List.pairwise_map]
  simpa [hg] using h

theorem handleInsert_keeps_IdsFresh (db : Db) (sql : String) (params : List Value)
    (now : String) (b : Int) (hinv : IdsFresh db b) (hb : b < 2 ^ 53)
    (hid : ∀ columnsText, columnsMatch sql = some columnsText →
      "id" ∉ insertColumns columnsText) :
    IdsFresh (handleInsert db sql params now).2 (b + 1) := by
  have hmono : IdsFresh db (b + 1) := IdsFresh.mono db b (b + 1) hinv (by omega)
  unfold handleInsert
  cases hm : insertMatch sql with
  | none => exact hmono
  | some t =>
    cases hc : columnsMatch sql with
    | none => exact hmono
    | some cs =>
      simp only [Db.table_setCounter]
      cases ht : db.table t with
      | none =>
        refine IdsFresh.frame db _ (b + 1) hmono hinv.1 (fun u => Db.table_setCounter _ _ _ _) ?_
        intro u rows hu
        have hut : t ≠ u := by
          intro h
          rw [h, hu] at ht
          cases ht
        exact Db.counter_setCounter_ne _ _ _ _ hut
      | some rows =>
        obtain ⟨hd, c, hcnt, hlow, hhigh, hids⟩ := hinv.2 t rows ht
        have hname : t ≠ "_counters" := Db.table_ne_counters db t rows hinv.1 ht
        have hnew : (insertRow (ofNumber (toNumber (db.counter t))) (insertColumns cs) params
            now).get "id" = .num c := by
          rw [insertRow_get_id _ _ _ _ (hid cs hc), hcnt]
          rfl
        have hinc : ofNumber ((toNumber (db.counter t)).map increment) = .num (c + 1) := by
          rw [hcnt]
          simp only [toNumber, Option.map_some', ofNumber]
          rw [increment_of_lt c hlow (by omega)]
        refine IdsFresh.step db _ (b + 1) t _ hmono ?_ (Db.table_mutateTable_self _ _ _) ?_ ?_ ?_
        · rw [Db.countersRows_mutateTable _ _ _ hname]
          exact hinv.1
        · intro u hu
          rw [Db.table_mutateTable_ne _ _ _ _ (Ne.symm hu), Db.table_setCounter]
        · intro u hu
          rw [Db.counter_mutateTable, Db.counter_setCounter_ne _ _ _ _ (Ne.symm hu)]
        · refine ⟨?_, c + 1, ?_, by omega, by omega, ?_⟩
          · unfold idsDistinct
            rw [List.pairwise_append]
            refine ⟨hd, List.pairwise_singleton _ _, ?_⟩
            intro a ha r hr
            rw [List.mem_singleton] at hr
            subst hr
            obtain ⟨n, hn, hlt⟩ := hids a ha
            rw [hn, hnew]
            intro heq
            have := Value.num.inj heq
            omega
          · rw [Db.counter_mutateTable, Db.counter_setCounter_self, hinc]
          · intro row hrow
            rw [List.mem_append, List.mem_singleton] at hrow
            rcases hrow with hrow | hrow
            · obtain ⟨n, hn, hlt⟩ := hids row hrow
              exact ⟨n, hn, by omega⟩
            · subst hrow
              exact ⟨c, hnew, by omega⟩

theorem updateRow_get_id (row : Row) (setText : String) (params : List Value) (now : String)
    (h : "id" ∉ updateColumns setText) :
    (updateRow row setText params now).get "id" = row.get "id" := by
  unfold updateRow
  rw [Row.get_set_ne _ _ _ _ (by decide), assignColumns_get_of_not_mem _ _ _ _ _ h]

theorem handleUpdate_keeps_IdsFresh (db : Db) (sql : String) (params : List Value)
    (now : String) (b : Int) (hinv : IdsFresh db b)
    (hid : ∀ setText, setMatch sql = some setText → "id" ∉ updateColumns setText) :
    IdsFresh (handleUpdate db sql params now).2 b := by
  unfold handleUpdate
  cases hm : updateMatch sql with
  | none => exact hinv
  | some t =>
    cases hs : setMatch sql with
    | none => exact hinv
    | some st =>
      simp only []
      cases ht : db.table t with
      | none => exact hinv
      | some rows =>
        simp only []
        obtain ⟨hd, c, hcnt, hlow, hhigh, hids⟩ := hinv.2 t rows ht
        have hname : t ≠ "_counters" := Db.table_ne_counters db t rows hinv.1 ht
        have hg : ∀ row : Row,
            (if updateSelects (whereMatch sql) st params row = true then
              updateRow row st params now else row).get "id" = row.get "id" := by
          intro row
          split
          · exact updateRow_get_id _ _ _ _ (hid st hs)
          · rfl
        refine IdsFresh.step db _ b t _ hinv ?_ (Db.table_mutateTable_self _ _ _) ?_ ?_ ?_
        · rw [Db.countersRows_mutateTable _ _ _ hname]
          exact hinv.1
        · intro u hu
          rw [Db.table_mutateTable_ne _ _ _ _ (Ne.symm hu)]
        · intro u _
          rw [Db.counter_mutateTable]
        · refine ⟨idsDistinct_map rows _ hg hd, c, ?_, hlow, hhigh, ?_⟩
          · rw [Db.counter_mutateTable, hcnt]
          · intro row hrow
            rw [List.mem_map] at hrow
            obtain ⟨r, hr, hrow⟩ := hrow
            subst hrow
            rw [hg r]
            exact hids r hr

theorem handleDelete_keeps_IdsFresh (db : Db) (sql : String) (params : List Value)
    (b : Int) (hinv : IdsFresh db b)
    (hdel : ∀ t, fromMatch sql = some t → ∃ rows, db.table t = some rows) :
    IdsFresh (handleDelete db sql params).2 b := by
  unfold handleDelete
  cases hm : fromMatch sql with
  | none => exact hinv
  | some t =>
    obtain ⟨rows, ht⟩ := hdel t hm
    obtain ⟨hd, c, hcnt, hlow, hhigh, hids⟩ := hinv.2 t rows ht
    have hname : t ≠ "_counters" := Db.table_ne_counters db t rows hinv.1 ht
    cases hw : whereMatch sql with
    | none =>
      simp only []
      refine IdsFresh.step db _ b t [] hinv ?_ (Db.table_assignTable_self _ _ _) ?_ ?_ ?_
      · rw [Db.countersRows_assignTable _ _ _ hname]
        exact hinv.1
      · intro u hu
        rw [Db.table_assignTable_ne _ _ _ _ (Ne.symm hu)]
      · intro u _
        exact Db.counter_assignTable _ _ _ _ hname
      · refine ⟨List.Pairwise.nil, c, ?_, hlow, hhigh, ?_⟩
        · rw [Db.counter_assignTable _ _ _ _ hname, hcnt]
        · intro row hrow
          cases hrow
    | some w =>
      simp only [ht]
      refine IdsFresh.step db _ b t _ hinv ?_ (Db.table_assignTable_self _ _ _) ?_ ?_ ?_
      · rw [Db.countersRows_assignTable _ _ _ hname]
        exact hinv.1
      · intro u hu
        rw [Db.table_assignTable_ne _ _ _ _ (Ne.symm hu)]
      · intro u _
        exact Db.counter_assignTable _ _ _ _ hname
      · refine ⟨idsDistinct_filter rows _ hd, c, ?_, hlow, hhigh, ?_⟩
        · rw [Db.counter_assignTable _ _ _ _ hname, hcnt]
        · intro row hrow
          exact hids row (List.mem_of_mem_filter hrow)

theorem assignsId_insert (sql columnsText : String) (h : assignsId sql = false)
    (hkind : startsWith (trimChars (lowerChars sql.data)) "insert".data = true)
    (hc : columnsMatch sql = some columnsText) : "id" ∉ insertColumns columnsText := by
  intro hmem
  simp [assignsId, hkind, hc, hmem] at h

theorem assignsId_update (sql setText : String) (h : assignsId sql = false)
    (hkind : startsWith (trimChars (lowerChars sql.data)) "update".data = true)
    (hs : setMatch sql = some setText) : "id" ∉ updateColumns setText := by
  intro hmem
  simp [assignsId, hkind, hs, hmem] at h

theorem deletesMissingTable_delete (db : Db) (sql : String)
    (h : deletesMissingTable db sql = false)
    (hkind : startsWith (trimChars (lowerChars sql.data)) "delete".data = true) :
    ∀ t, fromMatch sql = some t → ∃ rows, db.table t = some rows := by
  intro t ht
  simp only [deletesMissingTable, hkind, ht, Bool.true_and, Bool.not_eq_false'] at h
  exact Option.isSome_iff_exists.mp h

theorem query_keeps_IdsFresh (db : Db) (sql : String) (params : List Value) (now : String)
    (b : Int) (hinv : IdsFresh db b) (hb : b < 2 ^ 53) (hno : assignsId sql = false)
    (hdel : deletesMissingTable db sql = false) :
    IdsFresh (query db sql params now).2 (b + 1) := by
  have hmono : IdsFresh db (b + 1) := IdsFresh.mono db b (b + 1) hinv (by omega)
  unfold query
  simp only []
  split
  · exact hmono
  · split
    · next hi =>
      exact handleInsert_keeps_IdsFresh db sql params now b hinv hb
        (fun cs hc => assignsId_insert sql cs hno hi hc)
    · split
      · next hu =>
        exact IdsFresh.mono _ b (b + 1)
          (handleUpdate_keeps_IdsFresh db sql params now b hinv
            (fun st hs => assignsId_update sql st hno hu hs)) (by omega)
      · split
        · next hd =>
          exact IdsFresh.mono _ b (b + 1)
            (handleDelete_keeps_IdsFresh db sql params b hinv
              (deletesMissingTable_delete db sql hdel hd)) (by omega)
        · exact hmono

/-- A step that replaces the rows of one existing table and keeps the others
leaves the set of table names as it was. -/
theorem isSome_of_replace (db next : Db) (t : String) (rows rows' : List Row)
    (ht : db.table t = some rows) (hself : next.table t = some rows')
    (hother : ∀ u, u ≠ t → next.table u = db.table u) (u : String) :
    (next.table u).isSome = (db.table u).isSome := by
  by_cases hu : u = t
  · subst hu
    rw [hself, ht]
    rfl
  · rw [hother u hu]

/-- A statement other than a delete naming a missing table creates no table and
removes none. -/
theorem query_table_isSome (db : Db) (sql : String) (params : List Value) (now : String)
    (hdel : deletesMissingTable db sql = false) (u : String) :
    ((query db sql params now).2.table u).isSome = (db.table u).isSome := by
  unfold query
  simp only []
  split
  · rfl
  · split
    · unfold handleInsert
      cases insertMatch sql with
      | none => rfl
      | some t =>
        cases columnsMatch sql with
        | none => rfl
        | some cs =>
          simp only [Db.table_setCounter]
          cases ht : db.table t with
          | none =>
            simp only []
            rw [Db.table_setCounter]
          | some rows =>
            exact isSome_of_replace db _ t rows _ ht (Db.table_mutateTable_self _ _ _)
              (fun v hv => by
                rw [Db.table_mutateTable_ne _ _ _ _ (Ne.symm hv), Db.table_setCounter]) u
    · split
      · unfold handleUpdate
        cases updateMatch sql with
        | none => rfl
        | some t =>
          cases setMatch sql with
          | none => rfl
          | some st =>
            simp only []
            cases ht : db.table t with
            | none => rfl
            | some rows =>
              exact isSome_of_replace db _ t rows _ ht (Db.table_mutateTable_self _ _ _)
                (fun v hv => Db.table_mutateTable_ne _ _ _ _ (Ne.symm hv)) u
      · split
        · next hd =>
          unfold handleDelete
          cases hm : fromMatch sql with
          | none => rfl
          | some t =>
            obtain ⟨rows, ht⟩ := deletesMissingTable_delete db sql hdel hd t hm
            cases whereMatch sql with
            | none =>
              exact isSome_of_replace db _ t rows _ ht (Db.table_assignTable_self _ _ _)
                (fun v hv => Db.table_assignTable_ne _ _ _ _ (Ne.symm hv)) u
            | some w =>
              simp only [ht]
              exact isSome_of_replace db _ t rows _ ht (Db.table_assignTable_self _ _ _)
                (fun v hv => Db.table_assignTable_ne _ _ _ _ (Ne.symm hv)) u
        · rfl

theorem deletesMissingTable_congr (db next : Db) (sql : String)
    (h : ∀ u, (next.table u).isSome = (db.table u).isSome) :
    deletesMissingTable next sql = deletesMissingTable db sql := by
  unfold deletesMissingTable
  cases fromMatch sql with
  | none => rfl
  | some t => simp only [h t]

theorem queryAll_keeps_IdsFresh (calls : List Call) (db : Db) (b : Int)
    (hinv : IdsFresh db b) (hb : b + calls.length ≤ 2 ^ 53)
    (hno : ∀ call ∈ calls, assignsId call.sql = false ∧
      deletesMissingTable db call.sql = false) :
    IdsFresh (queryAll db calls) (b + calls.length) := by
  induction calls generalizing db b with
  | nil => simpa using hinv
  | cons call rest ih =>
    simp only [List.length_cons, Nat.cast_add, Nat.cast_one] at hb ⊢
    obtain ⟨hid, hdel⟩ := hno call (List.mem_cons_self _ _)
    have hstep := query_keeps_IdsFresh db call.sql call.params call.now b hinv (by omega)
      hid hdel
    have hrest := ih (query db call.sql call.params call.now).2 (b + 1) hstep (by omega)
      (fun c hc => by
        obtain ⟨h1, h2⟩ := hno c (List.mem_cons_of_mem _ hc)
        refine ⟨h1, ?_⟩
        rw [deletesMissingTable_congr db _ c.sql
          (query_table_isSome db call.sql call.params call.now hdel)]
        exact h2)
    simp only [queryAll]
    have hsum : b + 1 + (rest.length : Int) = b + ((rest.length : Int) + 1) := by omega
    rw [hsum] at hrest
    exact hrest

/-- C10 (counterexample): starting from a table with the distinct ids 1 and 2 and
the counter 3, an update that assigns the column `id` gives both rows the id 7,
and an insert whose column list names `id` adds a second row with the id 1. -/
theorem id_assignment_breaks_uniqueness :
    ((query ((Db.seed.mutateTable "users" [[("id", .num 1)], [("id", .num 2)]]).setCounter
          "users" (.num 3))
        "UPDATE users SET id = ? WHERE id > ?" [.num 7, .num 0] "t1").2.table "users" =
      some [[("id", .num 7), ("updated_at", .str "t1")],
        [("id", .num 7), ("updated_at", .str "t1")]]) ∧
    ((query ((Db.seed.mutateTable "users" [[("id", .num 1)], [("id", .num 2)]]).setCounter
          "users" (.num 3))
        "INSERT INTO users (id) VALUES (?)" [.num 1] "t1").2.table "users" =
      some [[("id", .num 1)], [("id", .num 2)],
        [("id", .num 1), ("created_at", .str "t1"), ("updated_at", .str "t1")]]) ∧
    ¬ idsDistinct [[("id", .num 7), ("updated_at", .str "t1")],
        [("id", .num 7), ("updated_at", .str "t1")]] := by
  refine ⟨by decide, by decide, ?_⟩
  unfold idsDistinct
  decide

/-- C10 (amended): starting from a snapshot whose counters object is in place,
in which every table's rows have pairwise distinct numeric ids and each table's
counter is a number `c` greater than every id in that table, with `-2^53 <= c`
and `c` plus the number of statements at most `2^53`: after any sequence of query
statements (select, insert, update, delete) in which no insert's column list and
no update's set clause names the column `id`, and no delete names a table that
the snapshot does not hold (`_counters` is none), the ids within each table are
still pairwise distinct numbers. -/
theorem ids_stay_distinct (db : Db) (calls : List Call)
    (hobj : db.countersRows = none)
    (hstart : ∀ tableName rows, db.table tableName = some rows →
      idsDistinct rows ∧
      ∃ c, db.counter tableName = .num c ∧ -(2 ^ 53) ≤ c ∧ c + calls.length ≤ 2 ^ 53 ∧
        ∀ row ∈ rows, ∃ n, row.get "id" = .num n ∧ n < c)
    (hcalls : ∀ call ∈ calls, assignsId call.sql = false ∧
      deletesMissingTable db call.sql = false) :
    ∀ tableName rows, (queryAll db calls).table tableName = some rows →
      idsDistinct rows ∧ ∀ row ∈ rows, ∃ n, row.get "id" = .num n := by
  have hinv : IdsFresh db (2 ^ 53 - calls.length) := by
    refine ⟨hobj, fun t rows ht => ?_⟩
    obtain ⟨hd, c, hc, hlow, hhigh, hb⟩ := hstart t rows ht
    exact ⟨hd, c, hc, hlow, by omega, hb⟩
  have hend := queryAll_keeps_IdsFresh calls db (2 ^ 53 - calls.length) hinv (by omega) hcalls
  intro t rows ht
  obtain ⟨hd, c, _, _, _, hids⟩ := hend.2 t rows ht
  refine ⟨hd, fun row hrow => ?_⟩
  obtain ⟨n, hn, _⟩ := hids row hrow
  exact ⟨n, hn⟩

/-- C10 (witness): an insert, a delete and an update on a table of two users. -/
theorem ids_stay_distinct_witness :
    idsDistinct [[("id", .num 1), ("name", .str "b"), ("updated_at", .str "t3")],
      [("id", .num 3), ("name", .str "c"), ("created_at", .str "t1"),
        ("updated_at", .str "t1")]] := by
  have h := ids_stay_distinct
    { tables := [("users", [[("id", .num 1), ("name", .str "a")],
        [("id", .num 2), ("name", .str "a")]])],
      counters := [("users", .num 3)], countersRows := none }
    [{ sql := "INSERT INTO users (name) VALUES (?)", params := [.str "c"], now := "t1" },
     { sql := "DELETE FROM users WHERE id = ?", params := [.num 2], now := "t2" },
     { sql := "UPDATE users SET name = ? WHERE id = ?", params := [.str "b", .num 1],
       now := "t3" }]
    rfl
    (by
      intro t rows ht
      by_cases h1 : t = "_counters"
      · subst h1
        simp [Db.table] at ht
      · by_cases h2 : t = "users"
        · subst h2
          have hr : rows = [[("id", .num 1), ("name", .str "a")],
              [("id", .num 2), ("name", .str "a")]] := by
            have : (some [[("id", Value.num 1), ("name", Value.str "a")],
                [("id", .num 2), ("name", .str "a")]] : Option (List Row)) = some rows := ht
            exact (Option.some.inj this).symm
          subst hr
          refine ⟨by unfold idsDistinct; decide, 3, rfl, by decide, by decide, ?_⟩
          intro row hrow
          simp only [List.mem_cons, List.mem_singleton, List.not_mem_nil, or_false] at hrow
          rcases hrow with rfl | rfl
          · exact ⟨1, rfl, by decide⟩
          · exact ⟨2, rfl, by decide⟩
        · have h3 : ¬ "users" = t := fun h => h2 h.symm
          simp [Db.table, h1, lookupKey, h3] at ht)
    (by decide)
  exact (h "users" _ (by decide)).1

/-! ## Dispatch and parse failures -/

theorem startsWith_delete_not_insert (s : List Char)
    (h : startsWith s "delete".data = true) : startsWith s "insert".data = false := by
  cases s with
  | nil => simp [startsWith] at h
  | cons c cs =>
    simp only [startsWith, Bool.and_eq_true, beq_iff_eq] at h
    simp [startsWith, h.1]

theorem startsWith_delete_not_update (s : List Char)
    (h : startsWith s "delete".data = true) : startsWith s "update".data = false := by
  cases s with
  | nil => simp [startsWith] at h
  | cons c cs =>
    simp only [startsWith, Bool.and_eq_true, beq_iff_eq] at h
    simp [startsWith, h.1]

theorem query_delete (db : Db) (sql : String) (params : List Value) (now : String)
    (h : startsWith (trimChars (lowerChars sql.data)) "delete".data = true) :
    query db sql params now = handleDelete db sql params := by
  simp [query, h, startsWith_delete_not_select _ h, startsWith_delete_not_insert _ h,
    startsWith_delete_not_update _ h]

/-- C19: a statement whose text, lower-cased and trimmed, begins with none of
`select`, `insert`, `update`, `delete` makes `query` return the empty sequence
(no error is raised) and leaves the whole snapshot, tables and counters, as it
was. -/
theorem unrecognised_statement_is_noop (db : Db) (sql : String) (params : List Value)
    (now : String)
    (hs : startsWith (trimChars (lowerChars sql.data)) "select".data = false)
    (hi : startsWith (trimChars (lowerChars sql.data)) "insert".data = false)
    (hu : startsWith (trimChars (lowerChars sql.data)) "update".data = false)
    (hd : startsWith (trimChars (lowerChars sql.data)) "delete".data = false) :
    query db sql params now = (.rows [], db) := by
  simp [query, hs, hi, hu, hd]

/-- C19 (witness): a `DROP TABLE` statement on the seeded snapshot. -/
theorem unrecognised_statement_is_noop_witness :
    query Db.seed "  DROP TABLE users" [.num 1] "2024-01-01T00:00:00.000Z" =
      (.rows [], Db.seed) :=
  unrecognised_statement_is_noop Db.seed "  DROP TABLE users" [.num 1]
    "2024-01-01T00:00:00.000Z" (by decide) (by decide) (by decide) (by decide)

/-- C20: parse failures are atomic. A select or delete in which `from <table>`
is not found, an insert in which `insert into <table>` or the parenthesized
column list is not found, and an update in which `update <table>` or the set
clause is not found make `query` return the empty sequence without raising and
leave every table and every counter as they were. -/
theorem parse_failure_is_atomic (db : Db) (sql : String) (params : List Value)
    (now : String)
    (h : (startsWith (trimChars (lowerChars sql.data)) "select".data = true ∧
          fromMatch sql = none) ∨
        (startsWith (trimChars (lowerChars sql.data)) "delete".data = true ∧
          fromMatch sql = none) ∨
        (startsWith (trimChars (lowerChars sql.data)) "insert".data = true ∧
          (insertMatch sql = none ∨ columnsMatch sql = none)) ∨
        (startsWith (trimChars (lowerChars sql.data)) "update".data = true ∧
          (updateMatch sql = none ∨ setMatch sql = none))) :
    query db sql params now = (.rows [], db) := by
  rcases h with ⟨hk, hm⟩ | ⟨hk, hm⟩ | ⟨hk, hm⟩ | ⟨hk, hm⟩
  · rw [query_select _ _ _ _ hk]
    simp [handleSelect, hm]
  · rw [query_delete _ _ _ _ hk]
    simp [handleDelete, hm]
  · rw [query_insert _ _ _ _ hk]
    rcases hm with hm | hm
    · simp [handleInsert, hm]
    · cases ht : insertMatch sql <;> simp [handleInsert, hm, ht]
  · rw [query_update _ _ _ _ hk]
    rcases hm with hm | hm
    · simp [handleUpdate, hm]
    · cases ht : updateMatch sql <;> simp [handleUpdate, hm, ht]

/-- C20 (witness): an insert without a parenthesized column list, on a snapshot
with a row in the target table. -/
theorem parse_failure_is_atomic_witness :
    query (Db.seed.mutateTable "users" [[("id", .num 1)]]) "INSERT INTO users VALUES"
        [.str "a"] "2024-01-01T00:00:00.000Z" =
      (.rows [], Db.seed.mutateTable "users" [[("id", .num 1)]]) :=
  parse_failure_is_atomic (Db.seed.mutateTable "users" [[("id", .num 1)]])
    "INSERT INTO users VALUES" [.str "a"] "2024-01-01T00:00:00.000Z"
    (Or.inr (Or.inr (Or.inl ⟨by decide, Or.inr (by decide)⟩)))

/-! ## Counters -/

theorem handleUpdate_counter (db : Db) (sql : String) (params : List Value) (now u : String) :
    (handleUpdate db sql params now).2.counter u = db.counter u := by
  unfold handleUpdate
  cases updateMatch sql with
  | none => rfl
  | some t =>
    cases setMatch sql with
    | none => rfl
    | some st =>
      simp only []
      cases db.table t with
      | none => rfl
      | some rows => exact Db.counter_mutateTable _ _ _ _

theorem handleDelete_counter (db : Db) (sql : String) (params : List Value) (u : String)
    (h : fromMatch sql ≠ some "_counters") :
    (handleDelete db sql params).2.counter u = db.counter u := by
  unfold handleDelete
  cases hm : fromMatch sql with
  | none => rfl
  | some t =>
    have ht : t ≠ "_counters" := by
      intro ht
      rw [hm, ht] at h
      exact h rfl
    cases whereMatch sql with
    | none => exact Db.counter_assignTable _ _ _ _ ht
    | some w =>
      simp only []
      cases db.table t with
      | none => rfl
      | some rows => exact Db.counter_assignTable _ _ _ _ ht

theorem handleInsert_counter_self (db : Db) (sql : String) (params : List Value)
    (now t cs : String) (ht : insertMatch sql = some t) (hc : columnsMatch sql = some cs) :
    (handleInsert db sql params now).2.counter t =
      ofNumber ((toNumber (db.counter t)).map increment) := by
  simp only [handleInsert, ht, hc, Db.table_setCounter]
  cases db.table t with
  | none => exact Db.counter_setCounter_self _ _ _
  | some rows =>
    simp only []
    rw [Db.counter_mutateTable, Db.counter_setCounter_self]

theorem handleInsert_counter_ne (db : Db) (sql : String) (params : List Value)
    (now t u : String) (ht : insertMatch sql = some t) (hu : u ≠ t) :
    (handleInsert db sql params now).2.counter u = db.counter u := by
  simp only [handleInsert, ht]
  cases columnsMatch sql with
  | none => rfl
  | some cs =>
    simp only [Db.table_setCounter]
    cases db.table t with
    | none => exact Db.counter_setCounter_ne _ _ _ _ (Ne.symm hu)
    | some rows =>
      simp only []
      rw [Db.counter_mutateTable, Db.counter_setCounter_ne _ _ _ _ (Ne.symm hu)]

theorem handleInsert_unparsed (db : Db) (sql : String) (params : List Value) (now : String)
    (h : insertMatch sql = none ∨ columnsMatch sql = none) :
    handleInsert db sql params now = (.rows [], db) := by
  rcases h with h | h
  · simp [handleInsert, h]
  · cases ht : insertMatch sql <;> simp [handleInsert, h, ht]

/-- Statements other than insert leave every counter as it was, unless a delete
names `_counters`. -/
theorem query_counter_of_not_insert (db : Db) (sql : String) (params : List Value)
    (now u : String)
    (hsafe : ¬ (startsWith (trimChars (lowerChars sql.data)) "delete".data = true ∧
      fromMatch sql = some "_counters"))
    (hi : startsWith (trimChars (lowerChars sql.data)) "insert".data = false) :
    (query db sql params now).2.counter u = db.counter u := by
  unfold query
  simp only [hi]
  split
  · rfl
  · simp only [Bool.false_eq_true, if_false]
    split
    · exact handleUpdate_counter _ _ _ _ _
    · split
      · next hd => exact handleDelete_counter _ _ _ _ (fun h => hsafe ⟨hd, h⟩)
      · rfl

/-- C12 (counterexample): `DELETE FROM _counters` replaces the counters object,
so the counter of `users` goes from 1 to undefined and the next insert into
`users` gets the id `NaN`; and a successful insert into a table without a counter
leaves the counter `NaN`, not raised by one. -/
theorem delete_counters_resets_counters :
    Db.seed.counter "users" = .num 1 ∧
    (query Db.seed "DELETE FROM _counters" [] "t0").2.counter "users" = .undefined ∧
    (query (query Db.seed "DELETE FROM _counters" [] "t0").2
        "INSERT INTO users (email) VALUES (?)" [.str "a@b.c"] "t1") =
      (.rows [[("id", .nan), ("email", .str "a@b.c"), ("created_at", .str "t1"),
          ("updated_at", .str "t1")]],
        { tables := [("users", [[("id", .nan), ("email", .str "a@b.c"),
              ("created_at", .str "t1"), ("updated_at", .str "t1")]]),
            ("menu_items", []), ("orders", []), ("order_items", []), ("feedback", [])],
          counters := [("users", .nan)], countersRows := some [] }) ∧
    (query (Db.seed.mutateTable "logs" []) "INSERT INTO logs (msg) VALUES (?)" [.str "x"]
        "t1").2.counter "logs" = .nan := by
  decide

/-- C12 (amended): for every snapshot and every statement passed to `query`
other than a delete naming `_counters`, each counter that is a number between
`-2^53` and `2^53` is afterwards a number greater than or equal to its value
before; select, update and delete leave every counter unchanged; an insert into
a table of the snapshot, in which the table name and the column list are found,
changes only that table's counter and, when it is a number `c` with
`-2^53 <= c < 2^53`, raises it by exactly one. -/
theorem counters_never_decrease (db : Db) (sql : String) (params : List Value)
    (now : String)
    (hsafe : ¬ (startsWith (trimChars (lowerChars sql.data)) "delete".data = true ∧
      fromMatch sql = some "_counters")) :
    (∀ u c, db.counter u = .num c → -(2 ^ 53) ≤ c → c ≤ 2 ^ 53 →
      ∃ c', (query db sql params now).2.counter u = .num c' ∧ c ≤ c') ∧
    (startsWith (trimChars (lowerChars sql.data)) "insert".data = false →
      ∀ u, (query db sql params now).2.counter u = db.counter u) ∧
    (startsWith (trimChars (lowerChars sql.data)) "insert".data = true →
      ∀ t cs rows, insertMatch sql = some t → columnsMatch sql = some cs →
        db.table t = some rows →
        (∀ u, u ≠ t → (query db sql params now).2.counter u = db.counter u) ∧
        (∀ c, db.counter t = .num c → -(2 ^ 53) ≤ c → c < 2 ^ 53 →
          (query db sql params now).2.counter t = .num (c + 1))) := by
  have hnot := fun hi u => query_counter_of_not_insert db sql params now u hsafe hi
  have hself : startsWith (trimChars (lowerChars sql.data)) "insert".data = true →
      ∀ t cs c, insertMatch sql = some t → columnsMatch sql = some cs →
        db.counter t = .num c →
        (query db sql params now).2.counter t = .num (increment c) := by
    intro hi t cs c ht hc hcnt
    rw [query_insert _ _ _ _ hi, handleInsert_counter_self _ _ _ _ _ _ ht hc, hcnt]
    rfl
  have hne : startsWith (trimChars (lowerChars sql.data)) "insert".data = true →
      ∀ t, insertMatch sql = some t →
        ∀ u, u ≠ t → (query db sql params now).2.counter u = db.counter u := by
    intro hi t ht u hu
    rw [query_insert _ _ _ _ hi]
    exact handleInsert_counter_ne _ _ _ _ _ _ ht hu
  refine ⟨?_, hnot, ?_⟩
  · intro u c hcnt hlow hhigh
    cases hi : startsWith (trimChars (lowerChars sql.data)) "insert".data with
    | false => exact ⟨c, by rw [hnot hi u, hcnt], le_refl c⟩
    | true =>
      cases ht : insertMatch sql with
      | none =>
        rw [query_insert _ _ _ _ hi, handleInsert_unparsed _ _ _ _ (Or.inl ht)]
        exact ⟨c, hcnt, le_refl c⟩
      | some t =>
        cases hc : columnsMatch sql with
        | none =>
          rw [query_insert _ _ _ _ hi, handleInsert_unparsed _ _ _ _ (Or.inr hc)]
          exact ⟨c, hcnt, le_refl c⟩
        | some cs =>
          by_cases hu : u = t
          · subst hu
            exact ⟨increment c, hself hi u cs c ht hc hcnt, le_increment c hlow hhigh⟩
          · exact ⟨c, by rw [hne hi t ht u hu, hcnt], le_refl c⟩
  · intro hi t cs rows ht hc _
    refine ⟨hne hi t ht, fun c hcnt hlow hhigh => ?_⟩
    rw [hself hi t cs c ht hc hcnt, increment_of_lt c hlow hhigh]

/-- C12 (witness): an insert into `orders` on the seeded snapshot raises the
counter of `orders` from 1 to 2 and leaves the counter of `users` at 1. -/
theorem counters_never_decrease_witness :
    (query Db.seed "INSERT INTO orders (order_id) VALUES (?)" [.str "ORD-1"]
        "t0").2.counter "orders" = .num (1 + 1) ∧
    (query Db.seed "INSERT INTO orders (order_id) VALUES (?)" [.str "ORD-1"]
        "t0").2.counter "users" = Db.seed.counter "users" :=
  have h := (counters_never_decrease Db.seed "INSERT INTO orders (order_id) VALUES (?)"
    [.str "ORD-1"] "t0" (by decide)).2.2 (by decide) "orders" "order_id" [] (by decide)
    (by decide) (by decide)
  ⟨h.2 1 (by decide) (by decide) (by decide), h.1 "users" (by decide)⟩

/-! ## Delete without a predicate -/

/-- C15 (counterexample): `DELETE FROM _counters`, a delete without a where
clause, replaces the counters object by an empty array: the counters of
`users` and `orders` are gone afterwards. -/
theorem delete_from_counters_drops_counters :
    (Db.seed.setCounter "users" (.num 4)).counter "users" = .num 4 ∧
    (Db.seed.setCounter "users" (.num 4)).counter "orders" = .num 1 ∧
    query (Db.seed.setCounter "users" (.num 4)) "DELETE FROM _counters" [] "t0" =
      (.rows [], { tables := Db.seed.tables, counters := [], countersRows := some [] }) ∧
    (query (Db.seed.setCounter "users" (.num 4)) "DELETE FROM _counters" []
      "t0").2.counter "users" = .undefined ∧
    (query (Db.seed.setCounter "users" (.num 4)) "DELETE FROM _counters" []
      "t0").2.counter "orders" = .undefined := by
  decide

/-- C15 (amended): for every delete statement without a where clause that names
a table `T` other than `_counters`, the table `T` is empty afterwards, the
returned result is empty, and every other table and every counter (including
`T`'s) is unchanged. -/
theorem delete_all_truncates (db : Db) (sql : String) (params : List Value)
    (now tableName : String)
    (hkind : startsWith (trimChars (lowerChars sql.data)) "delete".data = true)
    (hfrom : fromMatch sql = some tableName)
    (hwhere : whereMatch sql = none)
    (hname : tableName ≠ "_counters") :
    (query db sql params now).1 = .rows [] ∧
    (query db sql params now).2.table tableName = some [] ∧
    (∀ u, u ≠ tableName → (query db sql params now).2.table u = db.table u) ∧
    (∀ u, (query db sql params now).2.counter u = db.counter u) := by
  rw [query_delete _ _ _ _ hkind]
  simp only [handleDelete, hfrom, hwhere]
  refine ⟨trivial, Db.table_assignTable_self _ _ _, ?_, ?_⟩
  · intro u hu
    exact Db.table_assignTable_ne _ _ _ _ (Ne.symm hu)
  · intro u
    exact Db.counter_assignTable _ _ _ _ hname

/-- C15 (witness): `DELETE FROM feedback` on a snapshot with two feedback rows. -/
theorem delete_all_truncates_witness :
    (query (Db.seed.mutateTable "feedback" [[("id", .num 1)], [("id", .num 2)]])
        "DELETE FROM feedback" [] "t0").1 = .rows [] ∧
    (query (Db.seed.mutateTable "feedback" [[("id", .num 1)], [("id", .num 2)]])
        "DELETE FROM feedback" [] "t0").2.table "feedback" = some [] :=
  have h := delete_all_truncates
    (Db.seed.mutateTable "feedback" [[("id", .num 1)], [("id", .num 2)]])
    "DELETE FROM feedback" [] "t0" "feedback" (by decide) (by decide) (by decide) (by decide)
  ⟨h.1, h.2.1⟩

/-! ## Insert: positional binding -/

theorem insertRow_get (id : Value) (columns : List String) (params : List Value)
    (now : String) (i : Nat) (col : String)
    (hcol : columns.get? i = some col) (hlast : col ∉ columns.drop (i + 1))
    (hstamp : col = "created_at" ∨ col = "updated_at" → truthy (param params i) = true) :
    (insertRow id columns params now).get col = param params i := by
  have h0 : (assignColumns [("id", id)] columns params 0).get col = param params i := by
    rw [assignColumns_get_at _ _ _ 0 i col hcol hlast, Nat.zero_add]
  unfold insertRow
  simp only []
  by_cases hc : col = "created_at"
  · subst hc
    have ht := hstamp (Or.inl rfl)
    simp only [h0, ht, Bool.not_true, Bool.false_eq_true, if_false]
    split
    · rw [Row.get_set_ne _ _ _ _ (by decide), h0]
    · exact h0
  · by_cases hu : col = "updated_at"
    · subst hu
      have ht := hstamp (Or.inr rfl)
      split
      · rw [Row.get_set_ne _ _ _ _ (by decide), h0]
        simp [ht, Row.get_set_ne, h0]
      · simp [h0, ht]
    · split <;> split <;>
        simp [Row.get_set_ne _ _ _ _ (Ne.symm hc), Row.get_set_ne _ _ _ _ (Ne.symm hu), h0]

/-- C13 (counterexample): a falsy value bound to `created_at` is replaced by the
current time, and of two entries of the column list with the same name the
later one wins, so the returned row does not bind every column to its parameter. -/
theorem insert_binding_overwritten :
    (query Db.seed "INSERT INTO users (email, created_at) VALUES (?, ?)"
        [.str "a@b.c", .null] "2024-01-01T00:00:00.000Z").1 =
      .rows [[("id", .num 1), ("email", .str "a@b.c"),
        ("created_at", .str "2024-01-01T00:00:00.000Z"),
        ("updated_at", .str "2024-01-01T00:00:00.000Z")]] ∧
    (query Db.seed "INSERT INTO users (name, name) VALUES (?, ?)"
        [.str "A", .str "B"] "2024-01-01T00:00:00.000Z").1 =
      .rows [[("id", .num 1), ("name", .str "B"),
        ("created_at", .str "2024-01-01T00:00:00.000Z"),
        ("updated_at", .str "2024-01-01T00:00:00.000Z")]] := by
  decide

/-- C13 (amended): for every insert into an existing table with column list
`(c1, ..., cn)`, none of the columns `__proto__`, and params `[v1, ..., vn]`, the
returned row binds each column positionally, `row[ci] = vi`, for every column
`ci` that is not named again later in the list and is not `created_at` or
`updated_at` bound to a falsy value; the table afterwards is the prior table with
that same row appended as its last element, and all other tables are unchanged. -/
theorem insert_binds_columns (db : Db) (sql : String) (params : List Value)
    (now tableName columnsText : String) (rows : List Row)
    (hkind : startsWith (trimChars (lowerChars sql.data)) "insert".data = true)
    (htable : insertMatch sql = some tableName)
    (hcols : columnsMatch sql = some columnsText)
    (hrows : db.table tableName = some rows) :
    "__proto__" ∉ insertColumns columnsText →
    ∃ row, (query db sql params now).1 = .rows [row] ∧
      (query db sql params now).2.table tableName = some (rows ++ [row]) ∧
      (∀ u, u ≠ tableName → (query db sql params now).2.table u = db.table u) ∧
      (∀ (i : Nat) (col : String), (insertColumns columnsText).get? i = some col →
        col ∉ (insertColumns columnsText).drop (i + 1) →
        (col = "created_at" ∨ col = "updated_at" → truthy (param params i) = true) →
        row.get col = param params i) := by
  intro _
  rw [query_insert _ _ _ _ hkind]
  simp only [handleInsert, htable, hcols, Db.table_setCounter, hrows]
  refine ⟨_, rfl, Db.table_mutateTable_self _ _ _, ?_, ?_⟩
  · intro u hu
    rw [Db.table_mutateTable_ne _ _ _ _ (Ne.symm hu), Db.table_setCounter]
  · intro i col hcol hlast hstamp
    exact insertRow_get _ _ _ _ i col hcol hlast hstamp

/-- C13 (witness): the insert issued by the order route, on a table that already
holds one order. -/
theorem insert_binds_columns_witness :
    ∃ row, (query (Db.seed.mutateTable "orders" [[("id", .num 7)]])
        "INSERT INTO orders (order_id, user_id, total_amount, status) VALUES (?, ?, ?, ?)"
        [.str "ORD-1", .num 3, .num 250, .str "PENDING"] "t0").1 = .rows [row] ∧
      (query (Db.seed.mutateTable "orders" [[("id", .num 7)]])
        "INSERT INTO orders (order_id, user_id, total_amount, status) VALUES (?, ?, ?, ?)"
        [.str "ORD-1", .num 3, .num 250, .str "PENDING"] "t0").2.table "orders" =
        some ([[("id", .num 7)]] ++ [row]) ∧
      row.get "status" = .str "PENDING" := by
  obtain ⟨row, h1, h2, _, h4⟩ := insert_binds_columns
    (Db.seed.mutateTable "orders" [[("id", .num 7)]])
    "INSERT INTO orders (order_id, user_id, total_amount, status) VALUES (?, ?, ?, ?)"
    [.str "ORD-1", .num 3, .num 250, .str "PENDING"] "t0" "orders"
    "order_id, user_id, total_amount, status" [[("id", .num 7)]]
    (by decide) (by decide) (by decide) (by decide) (by decide)
  exact ⟨row, h1, h2, h4 3 "status" (by decide) (by decide) (by decide)⟩

/-! ## Select by id -/

theorem find_eq_of_unique (pred : Row → Bool) (rows : List Row) (row : Row)
    (h : rows.Pairwise (fun a b => ¬ (pred a = true ∧ pred b = true)))
    (hmem : row ∈ rows) (hrow : pred row = true) : rows.find? pred = some row := by
  have hf := filter_eq_of_find pred rows h
  have hin : row ∈ rows.filter pred := List.mem_filter.mpr ⟨hmem, hrow⟩
  rw [hf] at hin
  cases hfind : rows.find? pred with
  | none => simp [hfind] at hin
  | some r =>
    simp only [hfind, Option.toList, List.mem_singleton] at hin
    rw [hin]

theorem looseEq_num_num (a b : Int) : looseEq (.num a) (.num b) = true ↔ a = b := by
  simp [looseEq, numEq, toNumber]

/-- C14 (counterexample): in a table whose ids are the pairwise distinct values
`"5"` (a string) and `5`, the select by id with the parameter 5 returns the row
whose id is the string, which is the first row that loosely equals 5, not the row
whose id is the number 5. -/
theorem select_by_id_returns_string_id :
    List.Pairwise (fun (a b : Row) => a.get "id" ≠ b.get "id")
      [[("id", .str "5"), ("status", .str "PAID")], [("id", .num 5), ("status", .str "PENDING")]] ∧
    (query (Db.seed.mutateTable "orders"
        [[("id", .str "5"), ("status", .str "PAID")], [("id", .num 5), ("status", .str "PENDING")]])
      "select * from orders where id = ?" [.num 5] "t0").1 =
      .rows [[("id", .str "5"), ("status", .str "PAID")]] := by
  decide

/-- C14 (amended): for a table whose ids are pairwise distinct numbers and a
non-zero number `p`, a select with the predicate `id = ?` and params `[p]` returns
exactly the row whose id is `p` when the table contains one, and the empty
sequence when no row has the id `p`. -/
theorem select_by_id (db : Db) (sql now tableName w : String) (rows : List Row) (p : Int)
    (hkind : startsWith (trimChars (lowerChars sql.data)) "select".data = true)
    (hfrom : fromMatch sql = some tableName)
    (hwhere : selectWhereMatch sql = some w)
    (hcond : String.mk (trimChars w.data) = "id = ?")
    (hrows : db.table tableName = some rows)
    (hnum : ∀ row ∈ rows, ∃ n, row.get "id" = .num n)
    (hdist : rows.Pairwise (fun a b => a.get "id" ≠ b.get "id"))
    (hp : p ≠ 0) :
    (∀ row ∈ rows, row.get "id" = .num p →
      (query db sql [.num p] now).1 = .rows [row]) ∧
    ((∀ row ∈ rows, row.get "id" ≠ .num p) →
      (query db sql [.num p] now).1 = .rows []) := by
  have hnc := handleSelect_no_throw db tableName rows hrows
  have h1 : idMatch "id = ?" = true := by decide
  have ht : truthy (param [Value.num p] 0) = true := by
    simp [param, truthy, hp]
  have hq : (query db sql [.num p] now).1 =
      match rows.find? (fun row => looseEq (row.get "id") (.num p)) with
      | some found => .rows [found]
      | none => .rows [] := by
    rw [query_select _ _ _ _ hkind]
    simp only [handleSelect, hfrom, if_neg hnc]
    simp only [includes_where_of_selectWhereMatch _ _ hwhere, if_true, hwhere, hrows,
      Option.getD_some, hcond, h1, ht, Bool.and_self]
    rfl
  constructor
  · intro row hrow hid
    have hpw : rows.Pairwise (fun a b =>
        ¬ (looseEq (a.get "id") (.num p) = true ∧ looseEq (b.get "id") (.num p) = true)) := by
      refine (List.Pairwise.and_mem.mp hdist).imp ?_
      rintro a b ⟨ha, hb, hab⟩ ⟨h4, h5⟩
      obtain ⟨n, hn⟩ := hnum a ha
      obtain ⟨m, hm⟩ := hnum b hb
      rw [hn] at h4
      rw [hm] at h5
      apply hab
      rw [hn, hm, looseEq_num_unique n m _ h4 h5]
    have hfind := find_eq_of_unique _ rows row hpw hrow
      (by rw [hid]; exact (looseEq_num_num p p).mpr rfl)
    rw [hq, hfind]
  · intro hnone
    have hfind : rows.find? (fun row => looseEq (row.get "id") (.num p)) = none := by
      rw [List.find?_eq_none]
      intro row hrow
      obtain ⟨n, hn⟩ := hnum row hrow
      have := hnone row hrow
      rw [hn] at this
      simp only [hn]
      intro hloose
      exact this (by rw [(looseEq_num_num n p).mp hloose])
    rw [hq, hfind]

/-- C14 (witness): the specification's scenario, `select * from orders where
id = ?` with params `[5]` on a table that contains a row with the id 5. -/
theorem select_by_id_witness :
    (query (Db.seed.mutateTable "orders"
        [[("id", .num 4), ("status", .str "PAID")], [("id", .num 5), ("status", .str "PENDING")]])
      "select * from orders where id = ?" [.num 5] "t0").1 =
      .rows [[("id", .num 5), ("status", .str "PENDING")]] :=
  (select_by_id
    (Db.seed.mutateTable "orders"
      [[("id", .num 4), ("status", .str "PAID")], [("id", .num 5), ("status", .str "PENDING")]])
    "select * from orders where id = ?" "t0" "orders" "id = ?"
    [[("id", .num 4), ("status", .str "PAID")], [("id", .num 5), ("status", .str "PENDING")]]
    5 (by decide) (by decide) (by decide) (by decide) (by decide)
    (by
      intro row h
      simp only [List.mem_cons, List.mem_singleton, List.not_mem_nil, or_false] at h
      rcases h with rfl | rfl
      · exact ⟨4, rfl⟩
      · exact ⟨5, rfl⟩)
    (by decide) (by decide)).1 [("id", .num 5), ("status", .str "PENDING")]
    (by decide) (by decide)

/-! ## The record returned by `run` -/

theorem query_insert_rows (db : Db) (sql : String) (params : List Value)
    (now tableName columnsText : String) (rows : List Row)
    (hkind : startsWith (trimChars (lowerChars sql.data)) "insert".data = true)
    (htable : insertMatch sql = some tableName)
    (hcols : columnsMatch sql = some columnsText)
    (hrows : db.table tableName = some rows) :
    (query db sql params now).1 =
      .rows [insertRow (ofNumber (toNumber (db.counter tableName)))
        (insertColumns columnsText) params now] := by
  rw [query_insert _ _ _ _ hkind]
  simp only [handleInsert, htable, hcols, Db.table_setCounter, hrows]

theorem run_of_rows (db : Db) (sql : String) (params : List Value) (now : String)
    (rs : List Row) (hq : (query db sql params now).1 = .rows rs) :
    (run db sql params now).1 =
      some
        { lastID := if truthy (firstId rs) then firstId rs else .num 0
          changes := rs.length } := by
  unfold run
  cases h : query db sql params now with
  | mk outcome next =>
    rw [h] at hq
    simp only at hq
    subst hq
    rfl

/-- C18 (counterexample): on a table without a counter the insert returns a row
whose id is `NaN`, and `run` reports `lastID = 0`, not the id of that first row;
likewise for a selected row whose id is `null`. -/
theorem run_lastID_differs_from_first_id :
    (query (Db.seed.mutateTable "logs" []) "INSERT INTO logs (msg) VALUES (?)" [.str "x"]
        "t1").1 =
      .rows [[("id", .nan), ("msg", .str "x"), ("created_at", .str "t1"),
        ("updated_at", .str "t1")]] ∧
    (run (Db.seed.mutateTable "logs" []) "INSERT INTO logs (msg) VALUES (?)" [.str "x"]
        "t1").1 = some { lastID := .num 0, changes := 1 } ∧
    (query (Db.seed.mutateTable "users" [[("id", .null), ("email", .str "a@b.c")]])
        "SELECT * FROM users" [] "t1").1 = .rows [[("id", .null), ("email", .str "a@b.c")]] ∧
    (run (Db.seed.mutateTable "users" [[("id", .null), ("email", .str "a@b.c")]])
        "SELECT * FROM users" [] "t1").1 = some { lastID := .num 0, changes := 1 } := by
  decide

/-- C18 (amended): for every statement and parameter list for which `query`
returns rows, `run` returns `changes` equal to the number of result rows and
`lastID` equal to the id of the first row when that id is truthy, and 0 when the
result is empty or that id is falsy (0, `NaN`, null, undefined, the empty string,
false); in particular an insert that does not name `id`, into an existing table
whose counter is the number `c`, reports `lastID = c` and `changes = 1`. -/
theorem run_reports_first_id (db : Db) (sql : String) (params : List Value) (now : String)
    (rs : List Row) (hq : (query db sql params now).1 = .rows rs) :
    ∃ r, (run db sql params now).1 = some r ∧ r.changes = rs.length ∧
      (rs = [] → r.lastID = .num 0) ∧
      (∀ row rest, rs = row :: rest → truthy (row.get "id") = true →
        r.lastID = row.get "id") ∧
      (∀ row rest, rs = row :: rest → truthy (row.get "id") = false →
        r.lastID = .num 0) ∧
      (startsWith (trimChars (lowerChars sql.data)) "insert".data = true →
        ∀ (tableName columnsText : String) (c : Int) (rows : List Row),
          insertMatch sql = some tableName → columnsMatch sql = some columnsText →
          "id" ∉ insertColumns columnsText → db.table tableName = some rows →
          db.counter tableName = .num c → r.lastID = .num c ∧ r.changes = 1) := by
  refine ⟨_, run_of_rows db sql params now rs hq, rfl, ?_, ?_, ?_, ?_⟩
  · intro h
    subst h
    rfl
  · intro row rest h ht
    subst h
    simp [firstId, ht]
  · intro row rest h ht
    subst h
    simp [firstId, ht]
  · intro hkind t cs c rows htable hcols hid hrows hcounter
    have hrow := query_insert_rows db sql params now t cs rows hkind htable hcols hrows
    rw [hq] at hrow
    simp only [Outcome.rows.injEq] at hrow
    subst hrow
    have hidv := insertRow_get_id (ofNumber (toNumber (db.counter t))) (insertColumns cs)
      params now hid
    rw [hcounter] at hidv
    simp only [toNumber, ofNumber] at hidv
    simp only [firstId, List.head?_cons, List.length_singleton, and_true]
    rw [hcounter]
    simp only [toNumber, ofNumber, hidv]
    by_cases hc : c = 0
    · subst hc
      simp [truthy]
    · simp [truthy, hc]

/-- C18 (witness): the insert of the specification's scenario reports the
pre-insert counter 1 and one change. -/
theorem run_reports_first_id_witness :
    ∃ r, (run Db.seed "INSERT INTO menu_items (name, price) VALUES (?, ?)"
        [.str "Tea", .num 2] "t0").1 = some r ∧ r.lastID = .num 1 ∧ r.changes = 1 := by
  obtain ⟨r, h1, _, _, _, _, h6⟩ := run_reports_first_id Db.seed
    "INSERT INTO menu_items (name, price) VALUES (?, ?)" [.str "Tea", .num 2] "t0"
    [[("id", .num 1), ("name", .str "Tea"), ("price", .num 2), ("created_at", .str "t0"),
      ("updated_at", .str "t0")]] (by decide)
  exact ⟨r, h1, h6 (by decide) "menu_items" "name, price" 1 [] (by decide) (by decide)
    (by decide) (by decide) (by decide)⟩

/-! ## The split of a predicate at its first separator -/

theorem operatorAlternatives_eq :
    operatorAlternatives =
      [['='], ['>'], ['<'], ['>', '='], ['<', '='], ['!', '='], ['a', 'n', 'd'], ['o', 'r']] := by
  decide

theorem litCI_append_space (kw t us : List Char)
    (hk : ∀ k ∈ kw, (' '.toLower == k) = false)
    (h : startsWith (lowerChars t) kw = false) : litCI kw (t ++ ' ' :: us) = none := by
  induction kw generalizing t with
  | nil => cases t <;> simp [startsWith, lowerChars] at h
  | cons k ks ih =>
    cases t with
    | nil =>
      have := hk k (List.mem_cons_self _ _)
      simp only [List.nil_append, litCI, this, Bool.false_eq_true, if_false]
    | cons c t' =>
      by_cases hc : (c.toLower == k) = true
      · simp only [lowerChars, List.map_cons, startsWith, hc, Bool.true_and] at h
        simp only [List.cons_append, litCI, hc, if_true]
        exact ih t' (fun k' hk' => hk k' (List.mem_cons_of_mem _ hk')) h
      · simp [litCI, hc]

theorem separatorAt_plain (c : Char) (cs us : List Char) (hc : plainChar c = true)
    (hand : startsWith (lowerChars (c :: cs)) "and".data = false)
    (hor : startsWith (lowerChars (c :: cs)) "or".data = false) :
    separatorAt (c :: cs ++ ' ' :: us) = none := by
  simp only [plainChar, Bool.and_eq_true, Bool.not_eq_true', bne_iff_ne, ne_eq] at hc
  obtain ⟨⟨⟨⟨hsp, h1⟩, h2⟩, h3⟩, h4⟩ := hc
  have e1 : (c.toLower == '=') = false := by simpa using h1
  have e2 : (c.toLower == '>') = false := by simpa using h2
  have e3 : (c.toLower == '<') = false := by simpa using h3
  have e4 : (c.toLower == '!') = false := by simpa using h4
  have hA : litCI ['a', 'n', 'd'] (c :: cs ++ ' ' :: us) = none :=
    litCI_append_space _ (c :: cs) us (by decide) hand
  have hO : litCI ['o', 'r'] (c :: cs ++ ' ' :: us) = none :=
    litCI_append_space _ (c :: cs) us (by decide) hor
  have hA' : litCI ['a', 'n', 'd'] (c :: (cs ++ ' ' :: us)) = none := hA
  have hO' : litCI ['o', 'r'] (c :: (cs ++ ' ' :: us)) = none := hO
  simp only [separatorAt, starThen, List.cons_append, plusThen, hsp, Bool.false_eq_true,
    if_false, orTry, operatorAlternatives_eq, altThen, hA', hO', Option.bind]
  simp [litCI, e1, e2, e3, e4, orTry]

theorem splitOperators_zero_cons (cur : List Char) (c : Char) (cs : List Char) :
    splitOperators 0 cur (c :: cs) =
      match separatorAt (c :: cs) with
      | some (op, rest) =>
        cur :: op :: splitOperators ((c :: cs).length - rest.length - 1) [] cs
      | none => splitOperators 0 (cur ++ [c]) cs :=
  rfl

theorem splitOperators_none (cur : List Char) (c : Char) (cs : List Char)
    (h : separatorAt (c :: cs) = none) :
    splitOperators 0 cur (c :: cs) = splitOperators 0 (cur ++ [c]) cs := by
  rw [splitOperators_zero_cons, h]

theorem splitOperators_some (cur : List Char) (c : Char) (cs op rest : List Char)
    (h : separatorAt (c :: cs) = some (op, rest)) :
    splitOperators 0 cur (c :: cs) =
      cur :: op :: splitOperators ((c :: cs).length - rest.length - 1) [] cs := by
  rw [splitOperators_zero_cons, h]

theorem splitOperators_plain (f cur us : List Char) (hf : plainName f = true) :
    splitOperators 0 cur (f ++ ' ' :: us) = splitOperators 0 (cur ++ f) (' ' :: us) := by
  induction f generalizing cur with
  | nil => simp
  | cons c cs ih =>
    simp only [plainName, Bool.and_eq_true, Bool.not_eq_true'] at hf
    obtain ⟨⟨⟨hc, hand⟩, hor⟩, hrest⟩ := hf
    have hsep := separatorAt_plain c cs us hc hand hor
    have hsep' : separatorAt (c :: (cs ++ ' ' :: us)) = none := hsep
    rw [List.cons_append, splitOperators_none cur c _ hsep', ih (cur ++ [c]) hrest,
      List.append_assoc]
    rfl

theorem plainName_not_space (f : List Char) (hf : plainName f = true) :
    ∀ c ∈ f, isSpace c = false := by
  induction f with
  | nil => simp
  | cons c cs ih =>
    simp only [plainName, plainChar, Bool.and_eq_true, Bool.not_eq_true'] at hf
    intro d hd
    rcases List.mem_cons.mp hd with rfl | hd
    · exact hf.1.1.1.1.1.1.1
    · exact ih hf.2 d hd

theorem dropWhile_isSpace_of_none (l : List Char) (h : ∀ c ∈ l, isSpace c = false) :
    l.dropWhile isSpace = l := by
  cases l with
  | nil => rfl
  | cons c cs => simp [List.dropWhile, h c (List.mem_cons_self _ _)]

theorem trimChars_plain (f : List Char) (hf : plainName f = true) : trimChars f = f := by
  have h := plainName_not_space f hf
  unfold trimChars
  rw [dropWhile_isSpace_of_none f h,
    dropWhile_isSpace_of_none f.reverse (fun c hc => h c (List.mem_reverse.mp hc)),
    List.reverse_reverse]

theorem plusThen_spaces_some (op acc s : List Char) :
    plusThen isSpace (fun _ r => some (op, r)) acc s =
      match s with
      | [] => none
      | c :: cs => if isSpace c then some (op, cs.dropWhile isSpace) else none := by
  induction s generalizing acc with
  | nil => rfl
  | cons c cs ih =>
    by_cases hc : isSpace c = true
    · simp only [plusThen, hc, if_true]
      rw [ih]
      cases cs with
      | nil => rfl
      | cons d ds =>
        by_cases hd : isSpace d = true
        · simp [hd, orTry, List.dropWhile]
        · simp [hd, orTry, List.dropWhile]
    · simp [plusThen, hc]

theorem starThen_spaces_some (op acc s : List Char) :
    starThen isSpace (fun _ r => some (op, r)) acc s = some (op, s.dropWhile isSpace) := by
  unfold starThen
  rw [plusThen_spaces_some]
  cases s with
  | nil => rfl
  | cons c cs =>
    by_cases hc : isSpace c = true
    · simp [hc, orTry, List.dropWhile]
    · simp [hc, orTry, List.dropWhile]

/-- What the separator pattern does at a blank followed by a character that is
not white space. -/
theorem separatorAt_space (x : Char) (ys : List Char) (hx : isSpace x = false) :
    separatorAt (' ' :: x :: ys) =
      orTry
        (altThen (fun op r2 => starThen isSpace (fun _ r3 => some (op, r3)) [] r2)
          operatorAlternatives (x :: ys))
        (altThen (fun op r2 => starThen isSpace (fun _ r3 => some (op, r3)) [] r2)
          operatorAlternatives (' ' :: x :: ys)) := by
  have hs : isSpace ' ' = true := by decide
  simp only [separatorAt, starThen, plusThen, hs, hx, if_true, Bool.false_eq_true, if_false,
    orTry]

theorem separatorAt_eq (rest : List Char) :
    separatorAt (' ' :: '=' :: ' ' :: '?' :: rest) = some (['='], '?' :: rest) := by
  have h1 : isSpace '=' = false := by decide
  have h2 : isSpace ' ' = true := by decide
  have h3 : isSpace '?' = false := by decide
  rw [separatorAt_space _ _ h1, operatorAlternatives_eq]
  simp [altThen, litCI, orTry, starThen_spaces_some, List.dropWhile, h2, h3]

theorem separatorAt_ge (rest : List Char) :
    separatorAt (' ' :: '>' :: '=' :: ' ' :: '?' :: rest) =
      some (['>'], '=' :: ' ' :: '?' :: rest) := by
  have h1 : isSpace '>' = false := by decide
  have h2 : isSpace '=' = false := by decide
  rw [separatorAt_space _ _ h1, operatorAlternatives_eq]
  simp [altThen, litCI, orTry, starThen_spaces_some, List.dropWhile, h2]

theorem separatorAt_le (rest : List Char) :
    separatorAt (' ' :: '<' :: '=' :: ' ' :: '?' :: rest) =
      some (['<'], '=' :: ' ' :: '?' :: rest) := by
  have h1 : isSpace '<' = false := by decide
  have h2 : isSpace '=' = false := by decide
  rw [separatorAt_space _ _ h1, operatorAlternatives_eq]
  simp [altThen, litCI, orTry, starThen_spaces_some, List.dropWhile, h2]

theorem separatorAt_and (rest : List Char) :
    separatorAt (' ' :: 'A' :: 'N' :: 'D' :: ' ' :: rest) =
      some (['A', 'N', 'D'], rest.dropWhile isSpace) := by
  have h1 : isSpace 'A' = false := by decide
  have h2 : isSpace ' ' = true := by decide
  have ha : Char.toLower 'A' = 'a' := by decide
  have hn : Char.toLower 'N' = 'n' := by decide
  have hd : Char.toLower 'D' = 'd' := by decide
  rw [separatorAt_space _ _ h1, operatorAlternatives_eq]
  simp [altThen, litCI, orTry, starThen_spaces_some, List.dropWhile, h2, ha, hn, hd]

theorem separatorAt_or (rest : List Char) :
    separatorAt (' ' :: 'O' :: 'R' :: ' ' :: rest) =
      some (['O', 'R'], rest.dropWhile isSpace) := by
  have h1 : isSpace 'O' = false := by decide
  have h2 : isSpace ' ' = true := by decide
  have ho : Char.toLower 'O' = 'o' := by decide
  have hr : Char.toLower 'R' = 'r' := by decide
  rw [separatorAt_space _ _ h1, operatorAlternatives_eq]
  simp [altThen, litCI, orTry, starThen_spaces_some, List.dropWhile, h2, ho, hr]

/-- The field and the operator of a predicate that starts with a plain field
name followed by a blank at which the separator pattern matches. -/
theorem condition_plain (f : String) (us op r : List Char) (hf : plainName f.data = true)
    (hsep : separatorAt (' ' :: us) = some (op, r)) :
    conditionField (String.mk (f.data ++ ' ' :: us)) = f ∧
    conditionOperator (String.mk (f.data ++ ' ' :: us)) = some (String.mk op) := by
  have hparts : conditionParts (String.mk (f.data ++ ' ' :: us)) =
      f :: String.mk op ::
        (splitOperators ((' ' :: us).length - r.length - 1) [] us).map String.mk := by
    unfold conditionParts
    rw [splitOperators_plain f.data [] us hf, splitOperators_some _ _ _ op r hsep]
    rfl
  constructor
  · unfold conditionField
    rw [hparts]
    simp only [List.headD_cons]
    rw [trimChars_plain f.data hf]
  · unfold conditionOperator
    rw [hparts]
    rfl

theorem paramIndex_ne_zero_data (s : List Char) (h : '?' ∈ s) :
    (splitChar '?' s).length - 1 ≠ 0 := by
  rw [splitChar, splitAux_length]
  have := List.count_pos_iff.mpr h
  omega

/-- A predicate that starts with `f = ?`, `f` a plain field name, is evaluated
as `row[f] == params[0]`, whatever follows. -/
theorem evaluateCondition_plain_eq (row : Row) (params : List Value) (f rest : String)
    (hf : plainName f.data = true) :
    evaluateCondition row (f ++ " = ?" ++ rest) params =
      looseEq (row.get f) (param params 0) := by
  have hs : f ++ " = ?" ++ rest = String.mk (f.data ++ ' ' :: '=' :: ' ' :: '?' :: rest.data) := by
    apply String.ext
    simp only [String.data_append, List.append_assoc]
    rfl
  obtain ⟨hfield, hop⟩ := condition_plain f _ _ _ hf (separatorAt_eq rest.data)
  have hq : (splitChar '?' (f.data ++ ' ' :: '=' :: ' ' :: '?' :: rest.data)).length - 1 ≠ 0 :=
    paramIndex_ne_zero_data _ (by simp)
  rw [hs]
  simp only [evaluateCondition, hq, if_false, hfield, hop]
  rfl

/-- A predicate that starts with `f >= ?`, `f` a plain field name, is evaluated
as `row[f] > params[0]`. -/
theorem evaluateCondition_plain_ge (row : Row) (params : List Value) (f rest : String)
    (hf : plainName f.data = true) :
    evaluateCondition row (f ++ " >= ?" ++ rest) params =
      jsGt (row.get f) (param params 0) := by
  have hs : f ++ " >= ?" ++ rest =
      String.mk (f.data ++ ' ' :: '>' :: '=' :: ' ' :: '?' :: rest.data) := by
    apply String.ext
    simp only [String.data_append, List.append_assoc]
    rfl
  obtain ⟨hfield, hop⟩ := condition_plain f _ _ _ hf (separatorAt_ge rest.data)
  have hq : (splitChar '?'
      (f.data ++ ' ' :: '>' :: '=' :: ' ' :: '?' :: rest.data)).length - 1 ≠ 0 :=
    paramIndex_ne_zero_data _ (by simp)
  rw [hs]
  simp only [evaluateCondition, hq, if_false, hfield, hop]
  rfl

/-- A predicate that starts with `f <= ?`, `f` a plain field name, is evaluated
as `row[f] < params[0]`. -/
theorem evaluateCondition_plain_le (row : Row) (params : List Value) (f rest : String)
    (hf : plainName f.data = true) :
    evaluateCondition row (f ++ " <= ?" ++ rest) params =
      jsLt (row.get f) (param params 0) := by
  have hs : f ++ " <= ?" ++ rest =
      String.mk (f.data ++ ' ' :: '<' :: '=' :: ' ' :: '?' :: rest.data) := by
    apply String.ext
    simp only [String.data_append, List.append_assoc]
    rfl
  obtain ⟨hfield, hop⟩ := condition_plain f _ _ _ hf (separatorAt_le rest.data)
  have hq : (splitChar '?'
      (f.data ++ ' ' :: '<' :: '=' :: ' ' :: '?' :: rest.data)).length - 1 ≠ 0 :=
    paramIndex_ne_zero_data _ (by simp)
  rw [hs]
  simp only [evaluateCondition, hq, if_false, hfield, hop]
  rfl

theorem applyOperator_keyword (op : String) (a v : Value)
    (h : op = "AND" ∨ op = "OR") : applyOperator (some op) a v = true := by
  rcases h with rfl | rfl <;> rfl

/-- A predicate that starts with a plain field name followed by ` AND ` or
` OR ` is true for every row and every parameter list. -/
theorem evaluateCondition_plain_keyword (row : Row) (params : List Value) (f rest : String)
    (hf : plainName f.data = true) :
    evaluateCondition row (f ++ " AND " ++ rest) params = true ∧
    evaluateCondition row (f ++ " OR " ++ rest) params = true := by
  have hs1 : f ++ " AND " ++ rest =
      String.mk (f.data ++ ' ' :: 'A' :: 'N' :: 'D' :: ' ' :: rest.data) := by
    apply String.ext
    simp only [String.data_append, List.append_assoc]
    rfl
  have hs2 : f ++ " OR " ++ rest = String.mk (f.data ++ ' ' :: 'O' :: 'R' :: ' ' :: rest.data) := by
    apply String.ext
    simp only [String.data_append, List.append_assoc]
    rfl
  obtain ⟨_, hop1⟩ := condition_plain f _ _ _ hf (separatorAt_and rest.data)
  obtain ⟨_, hop2⟩ := condition_plain f _ _ _ hf (separatorAt_or rest.data)
  constructor
  · rw [hs1]
    unfold evaluateCondition
    simp only [hop1]
    split
    · rfl
    · exact applyOperator_keyword _ _ _ (Or.inl rfl)
  · rw [hs2]
    unfold evaluateCondition
    simp only [hop2]
    split
    · rfl
    · exact applyOperator_keyword _ _ _ (Or.inr rfl)

theorem separatorAt_gt (rest : List Char) :
    separatorAt (' ' :: '>' :: ' ' :: '?' :: rest) = some (['>'], '?' :: rest) := by
  have h1 : isSpace '>' = false := by decide
  have h2 : isSpace ' ' = true := by decide
  have h3 : isSpace '?' = false := by decide
  rw [separatorAt_space _ _ h1, operatorAlternatives_eq]
  simp [altThen, litCI, orTry, starThen_spaces_some, List.dropWhile, h2, h3]

theorem separatorAt_lt (rest : List Char) :
    separatorAt (' ' :: '<' :: ' ' :: '?' :: rest) = some (['<'], '?' :: rest) := by
  have h1 : isSpace '<' = false := by decide
  have h2 : isSpace ' ' = true := by decide
  have h3 : isSpace '?' = false := by decide
  rw [separatorAt_space _ _ h1, operatorAlternatives_eq]
  simp [altThen, litCI, orTry, starThen_spaces_some, List.dropWhile, h2, h3]

theorem separatorAt_ne (rest : List Char) :
    separatorAt (' ' :: '!' :: '=' :: ' ' :: '?' :: rest) = some (['!', '='], '?' :: rest) := by
  have h1 : isSpace '!' = false := by decide
  have h2 : isSpace ' ' = true := by decide
  have h3 : isSpace '?' = false := by decide
  rw [separatorAt_space _ _ h1, operatorAlternatives_eq]
  simp [altThen, litCI, orTry, starThen_spaces_some, List.dropWhile, h2, h3]

/-- A predicate that starts with `f > ?`, `f` a plain field name, is evaluated
as `row[f] > params[0]`. -/
theorem evaluateCondition_plain_gt (row : Row) (params : List Value) (f rest : String)
    (hf : plainName f.data = true) :
    evaluateCondition row (f ++ " > ?" ++ rest) params =
      jsGt (row.get f) (param params 0) := by
  have hs : f ++ " > ?" ++ rest = String.mk (f.data ++ ' ' :: '>' :: ' ' :: '?' :: rest.data) := by
    apply String.ext
    simp only [String.data_append, List.append_assoc]
    rfl
  obtain ⟨hfield, hop⟩ := condition_plain f _ _ _ hf (separatorAt_gt rest.data)
  have hq : (splitChar '?' (f.data ++ ' ' :: '>' :: ' ' :: '?' :: rest.data)).length - 1 ≠ 0 :=
    paramIndex_ne_zero_data _ (by simp)
  rw [hs]
  simp only [evaluateCondition, hq, if_false, hfield, hop]
  rfl

/-- A predicate that starts with `f < ?`, `f` a plain field name, is evaluated
as `row[f] < params[0]`. -/
theorem evaluateCondition_plain_lt (row : Row) (params : List Value) (f rest : String)
    (hf : plainName f.data = true) :
    evaluateCondition row (f ++ " < ?" ++ rest) params =
      jsLt (row.get f) (param params 0) := by
  have hs : f ++ " < ?" ++ rest = String.mk (f.data ++ ' ' :: '<' :: ' ' :: '?' :: rest.data) := by
    apply String.ext
    simp only [String.data_append, List.append_assoc]
    rfl
  obtain ⟨hfield, hop⟩ := condition_plain f _ _ _ hf (separatorAt_lt rest.data)
  have hq : (splitChar '?' (f.data ++ ' ' :: '<' :: ' ' :: '?' :: rest.data)).length - 1 ≠ 0 :=
    paramIndex_ne_zero_data _ (by simp)
  rw [hs]
  simp only [evaluateCondition, hq, if_false, hfield, hop]
  rfl

/-- A predicate that starts with `f != ?`, `f` a plain field name, is evaluated
as `row[f] != params[0]`. -/
theorem evaluateCondition_plain_ne (row : Row) (params : List Value) (f rest : String)
    (hf : plainName f.data = true) :
    evaluateCondition row (f ++ " != ?" ++ rest) params =
      !looseEq (row.get f) (param params 0) := by
  have hs : f ++ " != ?" ++ rest =
      String.mk (f.data ++ ' ' :: '!' :: '=' :: ' ' :: '?' :: rest.data) := by
    apply String.ext
    simp only [String.data_append, List.append_assoc]
    rfl
  obtain ⟨hfield, hop⟩ := condition_plain f _ _ _ hf (separatorAt_ne rest.data)
  have hq : (splitChar '?'
      (f.data ++ ' ' :: '!' :: '=' :: ' ' :: '?' :: rest.data)).length - 1 ≠ 0 :=
    paramIndex_ne_zero_data _ (by simp)
  rw [hs]
  simp only [evaluateCondition, hq, if_false, hfield, hop]
  rfl

theorem looseEq_undefined_decide (a : Value) :
    looseEq a .undefined = decide (a = .undefined ∨ a = .null) := by
  cases a <;> simp [looseEq]

/-! ## The condition evaluator without a bound parameter -/

/-- C8 (counterexample): with an empty parameter list `evaluateCondition` returns
true for `id = ?` on a row without that field or with a null field, for `id != ?`
on a row with a present field, and for `order_id = ?` on every row. -/
theorem evaluateCondition_missing_param_matches :
    evaluateCondition [("name", .str "Tea")] "id = ?" [] = true ∧
    evaluateCondition [("id", .null)] "id = ?" [] = true ∧
    evaluateCondition [("id", .num 1)] "id != ?" [] = true ∧
    evaluateCondition [("order_id", .str "ORD-1")] "order_id = ?" [] = true := by
  decide

/-- C8 (amended): `evaluateCondition` called with an empty parameter list raises
no error and compares the row's field with undefined. For a predicate that starts
with a comparison of a plain field name `f` with a placeholder: `f = ?` returns
true exactly when `row[f]` is undefined or null, so it returns false for a row
that has the field, and `f != ?` returns the opposite (both for a name `f` that
is not inherited from `Object.prototype`, under which a row that lacks the field
reads undefined); `f > ?`, `f < ?`, `f >= ?` and `f <= ?` return false for every
row; and a predicate in which the field name is followed directly by ` AND ` or
` OR ` returns true for every row. -/
theorem evaluateCondition_missing_param (row : Row) (f rest : String)
    (hf : plainName f.data = true) :
    (f ∉ objectPrototypeNames →
      evaluateCondition row (f ++ " = ?" ++ rest) [] =
        decide (row.get f = .undefined ∨ row.get f = .null) ∧
      evaluateCondition row (f ++ " != ?" ++ rest) [] =
        !decide (row.get f = .undefined ∨ row.get f = .null)) ∧
    (row.get f ≠ .undefined → row.get f ≠ .null →
      evaluateCondition row (f ++ " = ?" ++ rest) [] = false ∧
      evaluateCondition row (f ++ " != ?" ++ rest) [] = true) ∧
    evaluateCondition row (f ++ " > ?" ++ rest) [] = false ∧
    evaluateCondition row (f ++ " < ?" ++ rest) [] = false ∧
    evaluateCondition row (f ++ " >= ?" ++ rest) [] = false ∧
    evaluateCondition row (f ++ " <= ?" ++ rest) [] = false ∧
    evaluateCondition row (f ++ " AND " ++ rest) [] = true ∧
    evaluateCondition row (f ++ " OR " ++ rest) [] = true := by
  have hp : param [] 0 = Value.undefined := rfl
  have heq := evaluateCondition_plain_eq row [] f rest hf
  have hne := evaluateCondition_plain_ne row [] f rest hf
  rw [hp, looseEq_undefined_decide] at heq hne
  refine ⟨fun _ => ⟨heq, hne⟩, ?_, ?_, ?_, ?_, ?_,
    (evaluateCondition_plain_keyword row [] f rest hf).1,
    (evaluateCondition_plain_keyword row [] f rest hf).2⟩
  · intro h1 h2
    rw [heq, hne]
    simp [h1, h2]
  · rw [evaluateCondition_plain_gt row [] f rest hf, hp]
    simp [jsGt, isLessThan_undefined_left]
  · rw [evaluateCondition_plain_lt row [] f rest hf, hp]
    simp [jsLt, isLessThan_undefined_right]
  · rw [evaluateCondition_plain_ge row [] f rest hf, hp]
    simp [jsGt, isLessThan_undefined_left]
  · rw [evaluateCondition_plain_le row [] f rest hf, hp]
    simp [jsLt, isLessThan_undefined_right]

/-- C8 (witness): the predicate `id = ?` on a row with a numeric id returns
false, and on a row without an id it returns true. -/
theorem evaluateCondition_missing_param_witness :
    evaluateCondition [("id", .num 1)] ("id" ++ " = ?" ++ "") [] = false ∧
    evaluateCondition [("name", .str "Tea")] ("id" ++ " = ?" ++ "") [] =
      decide (Row.get [("name", .str "Tea")] "id" = .undefined ∨
        Row.get [("name", .str "Tea")] "id" = .null) :=
  ⟨((evaluateCondition_missing_param [("id", .num 1)] "id" "" (by decide)).2.1
      (by decide) (by decide)).1,
    ((evaluateCondition_missing_param [("name", .str "Tea")] "id" "" (by decide)).1
      (by decide)).1⟩

/-! ## Ordering operators and compound predicates -/

/-- C16 (failing input): the predicates `price >= ?` and `price <= ?` are split
at `>` and `<` (the pattern lists them before `>=` and `<=`), so they are
evaluated as `row.price > v` and `row.price < v`: a row whose field equals the
parameter matches neither, although `5 >= 5` and `5 <= 5` hold. -/
theorem ordering_operators_drop_equality :
    conditionParts "price >= ?" = ["price", ">", "", "=", "?"] ∧
    conditionParts "price <= ?" = ["price", "<", "", "=", "?"] ∧
    (∀ (row : Row) (params : List Value),
      evaluateCondition row "price >= ?" params = jsGt (row.get "price") (param params 0)) ∧
    (∀ (row : Row) (params : List Value),
      evaluateCondition row "price <= ?" params = jsLt (row.get "price") (param params 0)) ∧
    evaluateCondition [("price", .num 5)] "price >= ?" [.num 5] = false ∧
    jsGe (Row.get [("price", .num 5)] "price") (.num 5) = true ∧
    evaluateCondition [("price", .num 5)] "price <= ?" [.num 5] = false ∧
    jsLe (Row.get [("price", .num 5)] "price") (.num 5) = true := by
  refine ⟨by decide, by decide, ?_, ?_, by decide, by decide, by decide, by decide⟩
  · intro row params
    exact evaluateCondition_plain_ge row params "price" "" (by decide)
  · intro row params
    exact evaluateCondition_plain_le row params "price" "" (by decide)

/-- C17 (counterexample): the compound predicate `id = ? AND email = ?` of the
order route is split at its first `=`, so it is evaluated as `row.id ==
params[0]` and is false for a row with another id. -/
theorem compound_predicate_not_always_true :
    conditionParts "id = ? AND email = ?" = ["id", "=", "?", "AND", "email", "=", "?"] ∧
    evaluateCondition [("id", .num 1), ("email", .str "a@b.c")] "id = ? AND email = ?"
      [.num 2, .str "a@b.c"] = false := by
  decide

/-- C17 (amended): a predicate with a placeholder that composes comparisons with
AND or OR is evaluated at the first separator the split finds. When the
predicate starts with the comparison `f = ?`, `f` a plain field name, whatever
follows is ignored: the result is that of the single comparison `f = ?`, that is
`row[f] == params[0]` (for two numbers, or two strings, whether they are equal),
so it is false for a row with another value; it is true for every row and every
parameter list when the field name is followed directly by ` AND ` or ` OR `. -/
theorem compound_predicate_first_separator (row : Row) (params : List Value)
    (f rest : String) (hf : plainName f.data = true) :
    evaluateCondition row (f ++ " = ?" ++ rest) params =
      evaluateCondition row (f ++ " = ?") params ∧
    (∀ n m : Int, row.get f = .num n → param params 0 = .num m →
      evaluateCondition row (f ++ " = ?" ++ rest) params = decide (n = m)) ∧
    (∀ a b : String, row.get f = .str a → param params 0 = .str b →
      evaluateCondition row (f ++ " = ?" ++ rest) params = decide (a = b)) ∧
    evaluateCondition row (f ++ " AND " ++ rest) params = true ∧
    evaluateCondition row (f ++ " OR " ++ rest) params = true := by
  have h1 := evaluateCondition_plain_eq row params f rest hf
  have h2 := evaluateCondition_plain_eq row params f "" hf
  rw [String.append_empty] at h2
  refine ⟨by rw [h1, h2], ?_, ?_,
    (evaluateCondition_plain_keyword row params f rest hf).1,
    (evaluateCondition_plain_keyword row params f rest hf).2⟩
  · intro n m hn hm
    rw [h1, hn, hm]
    exact looseEq_num_decide n m
  · intro a b ha hb
    rw [h1, ha, hb]
    exact looseEq_str_decide a b

/-- C17 (witness): the predicate `id = ? AND email = ?` of the order route is
false for a row with another id, whatever its email. -/
theorem compound_predicate_first_separator_witness :
    evaluateCondition [("id", .num 1), ("email", .str "a@b.c")]
      ("id" ++ " = ?" ++ " AND email = ?") [.num 2, .str "a@b.c"] =
      decide ((1 : Int) = 2) :=
  (compound_predicate_first_separator [("id", .num 1), ("email", .str "a@b.c")]
    [.num 2, .str "a@b.c"] "id" " AND email = ?" (by decide)).2.1 1 2 (by decide) (by decide)

/-! ## Ids returned by a sequence of inserts and deletes -/

theorem handleDelete_ids (db : Db) (sql : String) (params : List Value) :
    (handleDelete db sql params).1.ids = [] := by
  unfold handleDelete
  cases fromMatch sql with
  | none => rfl
  | some t =>
    cases whereMatch sql with
    | none => rfl
    | some w =>
      simp only []
      cases db.table t <;> rfl

/-- One insert into, or delete from, a table whose counter is the number `c`,
with `-2^53 <= c < 2^53`: the counter stays a number, raised by one at most, and
the call returns no id or the id `c` with the counter raised. -/
theorem query_step_ids (db : Db) (sql : String) (params : List Value)
    (now tableName : String) (c : Int)
    (hname : tableName ≠ "_counters")
    (hcounter : db.counter tableName = .num c)
    (hlow : -(2 ^ 53) ≤ c) (hhigh : c < 2 ^ 53)
    (hcall : insertsOrDeletes tableName sql = true)
    (hid : assignsId sql = false) :
    ∃ c', (query db sql params now).2.counter tableName = .num c' ∧ c ≤ c' ∧ c' ≤ c + 1 ∧
      ((query db sql params now).1.ids = [] ∨
        ((query db sql params now).1.ids = [.num c] ∧ c < c')) := by
  simp only [insertsOrDeletes, Bool.or_eq_true, Bool.and_eq_true, decide_eq_true_eq] at hcall
  rcases hcall with ⟨hkind, hm⟩ | ⟨hkind, hm⟩
  · rw [query_insert _ _ _ _ hkind]
    cases hc : columnsMatch sql with
    | none =>
      rw [handleInsert_unparsed _ _ _ _ (Or.inr hc)]
      exact ⟨c, hcounter, le_refl c, by omega, Or.inl rfl⟩
    | some cs =>
      have hcnt := handleInsert_counter_self db sql params now tableName cs hm hc
      rw [hcounter] at hcnt
      simp only [toNumber, Option.map_some', ofNumber, increment_of_lt c hlow hhigh] at hcnt
      refine ⟨c + 1, hcnt, by omega, le_refl _, ?_⟩
      simp only [handleInsert, hm, hc, Db.table_setCounter]
      cases ht : db.table tableName with
      | none => exact Or.inl rfl
      | some rows =>
        refine Or.inr ⟨?_, by omega⟩
        simp only [Outcome.ids, List.map_cons, List.map_nil]
        rw [insertRow_get_id _ _ _ _ (assignsId_insert sql cs hid hkind hc), hcounter]
        rfl
  · rw [query_delete _ _ _ _ hkind]
    refine ⟨c, ?_, le_refl c, by omega, Or.inl (handleDelete_ids _ _ _)⟩
    rw [handleDelete_counter _ _ _ _ (by rw [hm]; intro h; exact hname (Option.some.inj h)),
      hcounter]

theorem returnedIds_increase (tableName : String) (hname : tableName ≠ "_counters")
    (calls : List Call) :
    ∀ (db : Db) (c : Int), db.counter tableName = .num c →
      -(2 ^ 53) ≤ c → c + calls.length ≤ 2 ^ 53 →
      (∀ call ∈ calls, insertsOrDeletes tableName call.sql = true ∧
        assignsId call.sql = false) →
      ∃ ns : List Int, returnedIds db calls = ns.map Value.num ∧
        ns.Pairwise (fun a b => a < b) ∧ ∀ n ∈ ns, c ≤ n := by
  induction calls with
  | nil =>
    intro db c _ _ _ _
    exact ⟨[], rfl, List.Pairwise.nil, by simp⟩
  | cons call rest ih =>
    intro db c hcounter hlow hbound hcalls
    simp only [List.length_cons, Nat.cast_add, Nat.cast_one] at hbound
    obtain ⟨hcall, hid⟩ := hcalls call (List.mem_cons_self _ _)
    obtain ⟨c', hc', hle, hle1, hids⟩ :=
      query_step_ids db call.sql call.params call.now tableName c hname hcounter hlow
        (by omega) hcall hid
    obtain ⟨ns, hns, hpw, hge⟩ := ih _ c' hc' (by omega) (by omega)
      (fun x hx => hcalls x (List.mem_cons_of_mem _ hx))
    rcases hids with hids | ⟨hids, hlt⟩
    · refine ⟨ns, ?_, hpw, fun n hn => le_trans hle (hge n hn)⟩
      simp only [returnedIds, hids, List.nil_append, hns]
    · refine ⟨c :: ns, ?_, ?_, ?_⟩
      · simp only [returnedIds, hids, hns, List.map_cons, List.singleton_append]
      · rw [List.pairwise_cons]
        exact ⟨fun n hn => lt_of_lt_of_le hlt (hge n hn), hpw⟩
      · intro n hn
        rcases List.mem_cons.mp hn with rfl | hn
        · exact le_refl _
        · exact le_trans hle (hge n hn)

/-- C11 (counterexample): two inserts whose column list names `id` return the
same id 5; two inserts into a table that has no counter both return the id
`NaN`, which is not greater than itself; and so do two inserts into `_counters`
after `DELETE FROM _counters` has replaced the counters object. -/
theorem inserted_id_repeats :
    returnedIds Db.seed
      [{ sql := "INSERT INTO users (id, email) VALUES (?, ?)", params := [.num 5, .str "a"],
         now := "t1" },
       { sql := "DELETE FROM users", params := [], now := "t2" },
       { sql := "INSERT INTO users (id, email) VALUES (?, ?)", params := [.num 5, .str "b"],
         now := "t3" }] = [.num 5, .num 5] ∧
    returnedIds (Db.seed.mutateTable "logs" [])
      [{ sql := "INSERT INTO logs (msg) VALUES (?)", params := [.str "a"], now := "t1" },
       { sql := "INSERT INTO logs (msg) VALUES (?)", params := [.str "b"], now := "t2" }] =
      [.nan, .nan] ∧
    jsGt .nan .nan = false ∧
    returnedIds { tables := [], counters := [("_counters", .num 1)], countersRows := none }
      [{ sql := "DELETE FROM _counters", params := [], now := "t1" },
       { sql := "INSERT INTO _counters (msg) VALUES (?)", params := [.str "a"], now := "t2" },
       { sql := "INSERT INTO _counters (msg) VALUES (?)", params := [.str "b"], now := "t3" }] =
      [.nan, .nan] := by
  decide

/-- C11 (amended): for every sequence of insert and delete statements on one
table (other than `_counters`) whose counter at the start is a number `c` with
`-2^53 <= c` and `c` plus the number of statements at most `2^53`, in which no
insert's column list names `id`, ids are never reused: the ids returned by the
inserts are numbers, and each is strictly greater than every id returned by an
earlier insert, also when the earlier rows have since been deleted. -/
theorem inserted_ids_increase (db : Db) (tableName : String) (c : Int) (calls : List Call)
    (hname : tableName ≠ "_counters")
    (hcounter : db.counter tableName = .num c)
    (hlow : -(2 ^ 53) ≤ c) (hbound : c + calls.length ≤ 2 ^ 53)
    (hcalls : ∀ call ∈ calls, insertsOrDeletes tableName call.sql = true ∧
      assignsId call.sql = false) :
    ∃ ns : List Int, returnedIds db calls = ns.map Value.num ∧
      ns.Pairwise (fun a b => a < b) ∧ ∀ n ∈ ns, c ≤ n :=
  returnedIds_increase tableName hname calls db c hcounter hlow hbound hcalls

/-- C11 (witness): two inserts into `users`, a delete of all its rows, and a
third insert, which gets the id 3. -/
theorem inserted_ids_increase_witness :
    returnedIds Db.seed
      [{ sql := "INSERT INTO users (email) VALUES (?)", params := [.str "a"], now := "t1" },
       { sql := "INSERT INTO users (email) VALUES (?)", params := [.str "b"], now := "t2" },
       { sql := "DELETE FROM users", params := [], now := "t3" },
       { sql := "INSERT INTO users (email) VALUES (?)", params := [.str "c"], now := "t4" }] =
      [.num 1, .num 2, .num 3] ∧
    ∃ ns : List Int, returnedIds Db.seed
      [{ sql := "INSERT INTO users (email) VALUES (?)", params := [.str "a"], now := "t1" },
       { sql := "INSERT INTO users (email) VALUES (?)", params := [.str "b"], now := "t2" },
       { sql := "DELETE FROM users", params := [], now := "t3" },
       { sql := "INSERT INTO users (email) VALUES (?)", params := [.str "c"], now := "t4" }] =
        ns.map Value.num ∧ ns.Pairwise (fun a b => a < b) ∧ ∀ n ∈ ns, (1 : Int) ≤ n :=
  ⟨by decide,
    inserted_ids_increase Db.seed "users" 1 _ (by decide) (by decide) (by decide) (by decide)
      (by decide)⟩

/-! ## The read-through cache -/

/-- C22 (counterexample): a falsy value handed to `setCachedMenu` (0, the empty
string, false, undefined) is not returned by the `getCachedMenu()` that follows
at once: the test `cache.menu && ...` fails and the result is null. -/
theorem cached_falsy_value_is_a_miss :
    getCachedMenu (setCachedMenu Cache.empty (.scalar (.num 0)) 1000) 1000 = .scalar .null ∧
    getCachedMenu (setCachedMenu Cache.empty (.scalar (.str "")) 1000) 1000 = .scalar .null ∧
    getCachedMenu (setCachedMenu Cache.empty (.scalar (.bool false)) 1000) 1000 =
      .scalar .null ∧
    getCachedMenu (setCachedMenu Cache.empty (.scalar .undefined) 1000) 1000 =
      .scalar .null := by
  decide

/-- C22 (amended): `setCachedMenu(v)` at time `t0` followed by `getCachedMenu()`
at a time `t` with `t - t0 < 60000` returns `v` for every truthy value `v` (every
object or array, and every scalar other than 0, `NaN`, the empty string, false,
null and undefined), whatever entry was cached before; for a falsy `v` it
returns null. -/
theorem cache_set_then_get (cache : Cache) (v : CacheValue) (t0 t : Int)
    (ht : t - t0 < 60000) :
    (v.truthy = true → getCachedMenu (setCachedMenu cache v t0) t = v) ∧
    (v.truthy = false → getCachedMenu (setCachedMenu cache v t0) t = .scalar .null) := by
  constructor
  · intro hv
    simp [getCachedMenu, setCachedMenu, hv, CACHE_TTL, ht]
  · intro hv
    simp [getCachedMenu, setCachedMenu, hv]

/-- C22 (witness): a grouped menu listing cached over an older entry and read
59999 ms later. -/
theorem cache_set_then_get_witness :
    getCachedMenu
      (setCachedMenu { menu := .scalar (.str "old"), menuTimestamp := some 5 }
        (.object [("Drinks", [[("id", .num 1), ("name", .str "Tea")]])]) 1000) 60999 =
      .object [("Drinks", [[("id", .num 1), ("name", .str "Tea")]])] :=
  (cache_set_then_get { menu := .scalar (.str "old"), menuTimestamp := some 5 }
    (.object [("Drinks", [[("id", .num 1), ("name", .str "Tea")]])]) 1000 60999
    (by decide)).1 (by decide)

/-- C23: with the clock as an explicit input, after `setCachedMenu(v)` at time
`t0` the call `getCachedMenu()` at any time `t` with `t - t0 >= 60000` (exactly
60000 included) returns null, and after `clearMenuCache()` the call
`getCachedMenu()` returns null at every time. -/
theorem cache_expires_and_clears (cache : Cache) (v : CacheValue) (t0 t : Int) :
    (60000 ≤ t - t0 → getCachedMenu (setCachedMenu cache v t0) t = .scalar .null) ∧
    getCachedMenu (clearMenuCache cache) t = .scalar .null := by
  constructor
  · intro ht
    have h : ¬ (t - t0 < 60000) := by omega
    simp [getCachedMenu, setCachedMenu, CACHE_TTL, h]
  · simp [getCachedMenu, clearMenuCache, CacheValue.truthy, truthy]

/-- C23 (witness): a menu listing cached at time 1000 and read exactly 60000 ms
later. -/
theorem cache_expires_and_clears_witness :
    getCachedMenu (setCachedMenu Cache.empty (.object [("Drinks", [])]) 1000) 61000 =
      .scalar .null :=
  (cache_expires_and_clears Cache.empty (.object [("Drinks", [])]) 1000 61000).1
    (by decide)

/-! ## Persistence -/

/-- C24: when the backing file does not exist, cannot be read, or does not
parse as JSON, `loadDatabase` (and `rollback`, which calls it) returns without
raising and leaves the in-memory snapshot exactly as it was; when the file
exists and parses, the snapshot is replaced by the parsed value. -/
theorem loadDatabase_keeps_or_replaces (parse : String → Option Db) (file : BackingFile)
    (database : Db) :
    ((file = .missing ∨ file = .unreadable ∨ ∃ data, file = .text data ∧ parse data = none) →
      (loadDatabase parse file database).1 = database ∧
      (rollback parse file database).1 = database) ∧
    (∀ data parsed, file = .text data → parse data = some parsed →
      (loadDatabase parse file database).1 = parsed ∧
      (rollback parse file database).1 = parsed) := by
  constructor
  · rintro (h | h | ⟨data, h, hp⟩)
    · subst h
      exact ⟨rfl, rfl⟩
    · subst h
      exact ⟨rfl, rfl⟩
    · subst h
      simp [rollback, loadDatabase, hp]
  · intro data parsed h hp
    subst h
    simp [rollback, loadDatabase, hp]

/-- C24 (witness): a file whose text does not parse leaves the snapshot with its
order, and a file that parses replaces it. -/
theorem loadDatabase_keeps_or_replaces_witness :
    (loadDatabase (fun data => if data = "seed" then some Db.seed else none)
        (.text "not json") (Db.seed.mutateTable "orders" [[("id", .num 1)]])).1 =
      Db.seed.mutateTable "orders" [[("id", .num 1)]] ∧
    (loadDatabase (fun data => if data = "seed" then some Db.seed else none)
        (.text "seed") (Db.seed.mutateTable "orders" [[("id", .num 1)]])).1 = Db.seed :=
  ⟨((loadDatabase_keeps_or_replaces (fun data => if data = "seed" then some Db.seed else none)
      (.text "not json") (Db.seed.mutateTable "orders" [[("id", .num 1)]])).1
      (Or.inr (Or.inr ⟨"not json", rfl, by decide⟩))).1,
    ((loadDatabase_keeps_or_replaces (fun data => if data = "seed" then some Db.seed else none)
      (.text "seed") (Db.seed.mutateTable "orders" [[("id", .num 1)]])).2
      "seed" Db.seed rfl (by decide)).1⟩

/-! ## The debounced write -/

theorem mutateAndSave_pending (s : SaveState) (t0 now : Int) (next : Db)
    (hp : s.saveTimeout = some (t0 + 100)) (hgap : now - t0 < 100) :
    mutateAndSave s now next =
      { database := next, saveTimeout := some (now + 100), writes := s.writes } := by
  have h : ¬ (t0 + 100 ≤ now) := by omega
  simp [mutateAndSave, saveDatabase, runTimers, hp, h]

theorem mutateAndSave_idle (s : SaveState) (now : Int) (next : Db)
    (hp : s.saveTimeout = none) :
    mutateAndSave s now next =
      { database := next, saveTimeout := some (now + 100), writes := s.writes } := by
  simp [mutateAndSave, saveDatabase, runTimers, hp]

/-- A burst of calls that follows a call at time `t0`: no timer fires, and the
pending deadline and the snapshot are those of the last call. -/
theorem saveAll_pending (calls : List (Int × Db)) :
    ∀ (s : SaveState) (t0 : Int), s.saveTimeout = some (t0 + 100) →
      List.Chain (fun a b => b.1 - a.1 < 100) (t0, s.database) calls →
      saveAll s calls =
        { database := (((t0, s.database) :: calls).getLast (List.cons_ne_nil _ _)).2,
          saveTimeout :=
            some ((((t0, s.database) :: calls).getLast (List.cons_ne_nil _ _)).1 + 100),
          writes := s.writes } := by
  induction calls with
  | nil =>
    intro s t0 hp _
    cases s
    simp only at hp
    simp [saveAll, hp]
  | cons call rest ih =>
    intro s t0 hp hchain
    obtain ⟨now, next⟩ := call
    rw [List.chain_cons] at hchain
    obtain ⟨hgap, hrest⟩ := hchain
    simp only [saveAll]
    rw [mutateAndSave_pending s t0 now next hp hgap]
    rw [ih _ now rfl (by
      refine List.Chain.imp' (fun _ _ h => h) (fun _ h => h) ?_
      exact hrest)]
    simp [List.getLast_cons]

/-- C25: with the timer as explicit state and no timer pending at the start,
`N >= 1` calls of `saveDatabase` (each after a mutation), every call after the
first less than 100 ms after the previous one, lead to exactly one write: once
the clock has reached 100 ms after the last call, the writes made are the
earlier ones followed by a single write, dated 100 ms after the last call, of the
snapshot as it stands after the last mutation, and no timer is pending. -/
theorem debounced_burst_writes_once (s : SaveState) (first : Int × Db)
    (rest : List (Int × Db)) (now : Int)
    (hidle : s.saveTimeout = none)
    (hburst : List.Chain (fun a b => b.1 - a.1 < 100) first rest)
    (hnow : ((first :: rest).getLast (List.cons_ne_nil _ _)).1 + 100 ≤ now) :
    runTimers (saveAll s (first :: rest)) now =
      { database := ((first :: rest).getLast (List.cons_ne_nil _ _)).2,
        saveTimeout := none,
        writes := s.writes ++
          [(((first :: rest).getLast (List.cons_ne_nil _ _)).1 + 100,
            ((first :: rest).getLast (List.cons_ne_nil _ _)).2)] } := by
  obtain ⟨t1, d1⟩ := first
  simp only [saveAll]
  rw [mutateAndSave_idle s t1 d1 hidle, saveAll_pending rest _ t1 rfl hburst]
  simp only [runTimers, hnow, if_true]

/-- C25 (witness): three mutations at the times 0, 50 and 120 give one write,
at time 220, of the third snapshot. -/
theorem debounced_burst_writes_once_witness :
    runTimers
      (saveAll { database := Db.seed, saveTimeout := none, writes := [] }
        [(0, Db.seed.setCounter "users" (.num 2)), (50, Db.seed.setCounter "users" (.num 3)),
         (120, Db.seed.setCounter "users" (.num 4))]) 500 =
      { database := Db.seed.setCounter "users" (.num 4), saveTimeout := none,
        writes := [(220, Db.seed.setCounter "users" (.num 4))] } :=
  debounced_burst_writes_once { database := Db.seed, saveTimeout := none, writes := [] }
    (0, Db.seed.setCounter "users" (.num 2))
    [(50, Db.seed.setCounter "users" (.num 3)), (120, Db.seed.setCounter "users" (.num 4))]
    500 rfl (List.Chain.cons (by decide) (List.Chain.cons (by decide) List.Chain.nil))
    (by decide)

/-! ## Input sanitization -/

theorem trimUnits_sublist (l : List Nat) : (trimUnits l).Sublist l := by
  unfold trimUnits
  have h1 : ((l.dropWhile isSpaceUnit).reverse.dropWhile isSpaceUnit).Sublist
      (l.dropWhile isSpaceUnit).reverse := List.dropWhile_sublist _
  have h2 := List.Sublist.reverse h1
  rw [List.reverse_reverse] at h2
  exact h2.trans (List.dropWhile_sublist _)

theorem dropWhile_head_false (p : Nat → Bool) (x : Nat) (t : List Nat)
    (h : (x :: t).dropWhile p = x :: t) : p x = false := by
  cases hx : p x with
  | false => rfl
  | true =>
    rw [List.dropWhile_cons, hx] at h
    simp only [if_true] at h
    have hlen := (List.dropWhile_sublist p (l := t)).length_le
    rw [h] at hlen
    simp at hlen

theorem dropWhile_reverse_clean (p : Nat → Bool) (a : List Nat)
    (ha : a.dropWhile p = a) :
    ((a.reverse.dropWhile p).reverse).dropWhile p = (a.reverse.dropWhile p).reverse := by
  obtain ⟨c, hc⟩ := List.dropWhile_suffix p (l := a.reverse)
  have ha' : a = (a.reverse.dropWhile p).reverse ++ c.reverse := by
    have := congrArg List.reverse hc
    rw [List.reverse_append, List.reverse_reverse] at this
    exact this.symm
  cases hb : (a.reverse.dropWhile p).reverse with
  | nil => rfl
  | cons x xs =>
    rw [hb] at ha'
    rw [ha'] at ha
    have hx := dropWhile_head_false p x _ ha
    rw [List.dropWhile_cons, hx]
    simp

theorem trimUnits_idem (l : List Nat) : trimUnits (trimUnits l) = trimUnits l := by
  unfold trimUnits
  have h := dropWhile_reverse_clean isSpaceUnit (l.dropWhile isSpaceUnit)
    (List.dropWhile_idempotent isSpaceUnit l)
  rw [h, List.reverse_reverse, List.dropWhile_idempotent]

theorem filter_angle_of_sublist (l m : List Nat)
    (h : m.Sublist (l.filter (fun u => u != 60 && u != 62))) :
    m.filter (fun u => u != 60 && u != 62) = m := by
  rw [List.filter_eq_self]
  intro a ha
  exact (List.mem_filter.mp (h.subset ha)).2

/-- The second application of `sanitizeString` only trims the first result. -/
theorem sanitizeString_twice {α : Type} (s : List Nat) :
    sanitizeString (sanitizeString (.string s : Input α)) =
      .string (trimUnits
        ((trimUnits (s.filter (fun u => u != 60 && u != 62))).take 1000)) := by
  have hsub : ((trimUnits (s.filter (fun u => u != 60 && u != 62))).take 1000).Sublist
      (s.filter (fun u => u != 60 && u != 62)) :=
    (List.take_sublist _ _).trans (trimUnits_sublist _)
  have hlen : (trimUnits
      ((trimUnits (s.filter (fun u => u != 60 && u != 62))).take 1000)).length ≤ 1000 :=
    le_trans (trimUnits_sublist _).length_le (List.length_take_le _ _)
  simp only [sanitizeString]
  rw [filter_angle_of_sublist s _ hsub, List.take_of_length_le hlen]

/-- C26: for every string `s`, given by its UTF-16 code units, `sanitizeString(s)`
is a string of at most 1000 units that contains neither `<` (the unit 60) nor
`>` (the unit 62); every input that is not a string is returned unchanged. -/
theorem sanitizeString_bounds {α : Type} (s : List Nat) (v : α) :
    (∃ r : List Nat, sanitizeString (.string s : Input α) = .string r ∧ r.length ≤ 1000 ∧
      60 ∉ r ∧ 62 ∉ r) ∧
    sanitizeString (.other v) = .other v := by
  refine ⟨⟨_, rfl, ?_, ?_, ?_⟩, rfl⟩
  · exact List.length_take_le _ _
  · intro h
    have := ((List.take_sublist _ _).trans (trimUnits_sublist _)).subset h
    simp at this
  · intro h
    have := ((List.take_sublist _ _).trans (trimUnits_sublist _)).subset h
    simp at this

/-- C26 (witness): a name with markup and surrounding blanks. -/
theorem sanitizeString_bounds_witness :
    sanitizeString (.string (utf16 " <b>Tea</b> ".data) : Input Value) =
      .string (utf16 "bTea/b".data) ∧
    ∃ r : List Nat, sanitizeString (.string (utf16 " <b>Tea</b> ".data) : Input Value) =
      .string r ∧ r.length ≤ 1000 ∧ 60 ∉ r ∧ 62 ∉ r :=
  ⟨by decide, (sanitizeString_bounds (utf16 " <b>Tea</b> ".data) (Value.num 5)).1⟩

set_option maxRecDepth 1000000 in
/-- C30 (counterexample): for the string of 999 letters `a`, a blank and a `b`
the first application cuts after the blank, which the second application trims
away: the results have 1000 and 999 units. The same happens for 499 characters
outside the Basic Multilingual Plane (two units each) followed by `a b`. -/
theorem sanitizeString_not_idempotent :
    sanitizeString (.string (List.replicate 999 97 ++ [32, 98]) : Input Value) =
      .string (List.replicate 999 97 ++ [32]) ∧
    sanitizeString (sanitizeString
        (.string (List.replicate 999 97 ++ [32, 98]) : Input Value)) =
      .string (List.replicate 999 97) ∧
    sanitizeString (sanitizeString
        (.string (List.replicate 999 97 ++ [32, 98]) : Input Value)) ≠
      sanitizeString (.string (List.replicate 999 97 ++ [32, 98])) ∧
    (utf16 (List.replicate 499 (Char.ofNat 0x1F600) ++ ['a', ' ', 'b'])).length = 1001 ∧
    sanitizeString (sanitizeString
        (.string (utf16 (List.replicate 499 (Char.ofNat 0x1F600) ++ ['a', ' ', 'b'])) :
          Input Value)) ≠
      sanitizeString
        (.string (utf16 (List.replicate 499 (Char.ofNat 0x1F600) ++ ['a', ' ', 'b']))) := by
  decide

/-- C30 (amended): `sanitizeString` is idempotent on every string of at most
1000 UTF-16 code units, and more generally on every string that has at most 1000
units left once `<` and `>` are removed and it is trimmed. -/
theorem sanitizeString_idempotent {α : Type} (s : List Nat)
    (h : s.length ≤ 1000 ∨
      (trimUnits (s.filter (fun u => u != 60 && u != 62))).length ≤ 1000) :
    sanitizeString (sanitizeString (.string s : Input α)) = sanitizeString (.string s) := by
  have h' : (trimUnits (s.filter (fun u => u != 60 && u != 62))).length ≤ 1000 := by
    rcases h with h | h
    · exact le_trans ((trimUnits_sublist _).trans (List.filter_sublist _)).length_le h
    · exact h
  rw [sanitizeString_twice]
  simp only [sanitizeString]
  rw [List.take_of_length_le h', trimUnits_idem]

/-- C30 (witness): a comment with markup and surrounding blanks. -/
theorem sanitizeString_idempotent_witness :
    sanitizeString (sanitizeString
        (.string (utf16 "  <b>Great</b> food  ".data) : Input Value)) =
      sanitizeString (.string (utf16 "  <b>Great</b> food  ".data)) :=
  sanitizeString_idempotent (utf16 "  <b>Great</b> food  ".data) (Or.inl (by decide))

/-! ## Insert: the timestamps -/

/-- The timestamp fields of the assembled row: the value left by the positional
assignments when it is truthy, the current time otherwise. -/
theorem insertRow_get_stamp (id : Value) (columns : List String) (params : List Value)
    (now col : String) (hcol : col = "created_at" ∨ col = "updated_at") :
    (insertRow id columns params now).get col =
      if truthy ((assignColumns [("id", id)] columns params 0).get col) then
        (assignColumns [("id", id)] columns params 0).get col
      else .str now := by
  unfold insertRow
  simp only []
  rcases hcol with rfl | rfl
  · cases hc : truthy ((assignColumns [("id", id)] columns params 0).get "created_at") <;>
      cases hu : truthy ((assignColumns [("id", id)] columns params 0).get "updated_at") <;>
      simp [hc, hu, Row.get_set_ne, Row.get_set_self]
  · cases hc : truthy ((assignColumns [("id", id)] columns params 0).get "created_at") <;>
      cases hu : truthy ((assignColumns [("id", id)] columns params 0).get "updated_at") <;>
      simp [hc, hu, Row.get_set_ne, Row.get_set_self]

/-- C21 (counterexample): an insert that binds `created_at` to the empty string
and `updated_at` to 0 stores and returns a row with both fields stamped with the
current time, although the columns are present. -/
theorem insert_falsy_timestamp_is_stamped :
    query Db.seed "INSERT INTO orders (order_id, created_at, updated_at) VALUES (?, ?, ?)"
        [.str "ORD-1", .str "", .num 0] "2024-01-01T00:00:00.000Z" =
      (.rows [[("id", .num 1), ("order_id", .str "ORD-1"),
          ("created_at", .str "2024-01-01T00:00:00.000Z"),
          ("updated_at", .str "2024-01-01T00:00:00.000Z")]],
        (Db.seed.setCounter "orders" (.num 2)).mutateTable "orders"
          [[("id", .num 1), ("order_id", .str "ORD-1"),
            ("created_at", .str "2024-01-01T00:00:00.000Z"),
            ("updated_at", .str "2024-01-01T00:00:00.000Z")]]) := by
  decide

/-- C21 (amended): for every insert into an existing table, the row that is
returned is the row stored last in the table, and for `created_at` (respectively
`updated_at`): when the column list names it (once, or for the last time) and
binds it to a truthy value `v`, the row has the field equal to `v`; when it binds
it to a falsy value (null, undefined, 0, `NaN`, false, the empty string) or does
not name it, the field is stamped with the current time. -/
theorem insert_timestamps (db : Db) (sql : String) (params : List Value)
    (now tableName columnsText : String) (rows : List Row)
    (hkind : startsWith (trimChars (lowerChars sql.data)) "insert".data = true)
    (htable : insertMatch sql = some tableName)
    (hcols : columnsMatch sql = some columnsText)
    (hrows : db.table tableName = some rows) :
    ∃ row, (query db sql params now).1 = .rows [row] ∧
      (query db sql params now).2.table tableName = some (rows ++ [row]) ∧
      ∀ col, col = "created_at" ∨ col = "updated_at" →
        (∀ i, (insertColumns columnsText).get? i = some col →
          col ∉ (insertColumns columnsText).drop (i + 1) →
          (truthy (param params i) = true → row.get col = param params i) ∧
          (truthy (param params i) = false → row.get col = .str now)) ∧
        (col ∉ insertColumns columnsText → row.get col = .str now) := by
  rw [query_insert _ _ _ _ hkind]
  simp only [handleInsert, htable, hcols, Db.table_setCounter, hrows]
  refine ⟨_, rfl, Db.table_mutateTable_self _ _ _, ?_⟩
  intro col hcol
  rw [insertRow_get_stamp _ _ _ _ col hcol]
  constructor
  · intro i hi hlast
    rw [assignColumns_get_at _ _ _ 0 i col hi hlast, Nat.zero_add]
    constructor
    · intro ht
      simp [ht]
    · intro ht
      simp [ht]
  · intro habsent
    rw [assignColumns_get_of_not_mem _ _ _ _ _ habsent]
    have hne : ¬ ("id" = col) := by
      rcases hcol with rfl | rfl <;> decide
    simp [Row.get, hne, truthy]

/-- C21 (witness): an insert that supplies `created_at` and leaves `updated_at`
out. -/
theorem insert_timestamps_witness :
    ∃ row, (query Db.seed "INSERT INTO orders (order_id, created_at) VALUES (?, ?)"
        [.str "ORD-1", .str "2020-02-02T00:00:00.000Z"] "2024-01-01T00:00:00.000Z").1 =
        .rows [row] ∧
      row.get "created_at" = .str "2020-02-02T00:00:00.000Z" ∧
      row.get "updated_at" = .str "2024-01-01T00:00:00.000Z" := by
  obtain ⟨row, h1, _, h3⟩ := insert_timestamps Db.seed
    "INSERT INTO orders (order_id, created_at) VALUES (?, ?)"
    [.str "ORD-1", .str "2020-02-02T00:00:00.000Z"] "2024-01-01T00:00:00.000Z" "orders"
    "order_id, created_at" [] (by decide) (by decide) (by decide) (by decide)
  exact ⟨row, h1, ((h3 "created_at" (Or.inl rfl)).1 1 (by decide) (by decide)).1 (by decide),
    (h3 "updated_at" (Or.inr rfl)).2 (by decide)⟩

/-! ## Select: order and frame -/

theorem handleSelect_sublist (db : Db) (sql : String) (params : List Value)
    (tableName : String) (rs : List Row) (hfrom : fromMatch sql = some tableName)
    (h : handleSelect db sql params = .rows rs) :
    rs.Sublist ((db.table tableName).getD []) := by
  simp only [handleSelect, hfrom] at h
  split at h
  · cases h
  · split at h
    · split at h
      · split at h
        · split at h
          · next found hfound =>
            simp only [Outcome.rows.injEq] at h
            subst h
            exact List.singleton_sublist.mpr (List.mem_of_find?_eq_some hfound)
          · simp only [Outcome.rows.injEq] at h
            subst h
            exact List.nil_sublist _
        · split at h
          · simp only [Outcome.rows.injEq] at h
            subst h
            exact List.filter_sublist _
          · split at h
            · simp only [Outcome.rows.injEq] at h
              subst h
              exact List.filter_sublist _
            · simp only [Outcome.rows.injEq] at h
              subst h
              exact List.filter_sublist _
      · simp only [Outcome.rows.injEq] at h
        subst h
        exact List.Sublist.refl _
    · simp only [Outcome.rows.injEq] at h
      subst h
      exact List.Sublist.refl _

/-- A select returns rows, it does not throw, when the name it reads is that of
a table of the snapshot, or is neither `_counters` nor a property name inherited
from `Object.prototype`. -/
theorem handleSelect_rows (db : Db) (sql : String) (params : List Value)
    (h : ∀ t, fromMatch sql = some t →
      (db.table t).isSome = true ∨ (t ≠ "_counters" ∧ t ∉ objectPrototypeNames)) :
    ∃ rs, handleSelect db sql params = .rows rs := by
  unfold handleSelect
  cases hm : fromMatch sql with
  | none => exact ⟨_, rfl⟩
  | some t =>
    have ht : ¬ ((t = "_counters" ∧ db.countersRows = none) ∨
        (t ∈ objectPrototypeNames ∧ db.table t = none)) := by
      rcases h t hm with hsome | ⟨h1, h2⟩
      · obtain ⟨rows, hrows⟩ := Option.isSome_iff_exists.mp hsome
        exact handleSelect_no_throw db t rows hrows
      · rintro (⟨h3, _⟩ | ⟨h3, _⟩)
        · exact h1 h3
        · exact h2 h3
    simp only [if_neg ht]
    split
    · split
      · split
        · split
          · exact ⟨_, rfl⟩
          · exact ⟨_, rfl⟩
        · split
          · exact ⟨_, rfl⟩
          · split
            · exact ⟨_, rfl⟩
            · exact ⟨_, rfl⟩
      · exact ⟨_, rfl⟩
    · exact ⟨_, rfl⟩

/-- C27: for every select statement (whatever its column list, ORDER BY or
LIMIT clause) the snapshot, tables and counters, is unchanged, and the rows it
returns are a subsequence of the rows of the named table, in the table's order:
each returned row is a complete row of the table. The select does return such
rows whenever the name is that of a table of the snapshot, and also (the empty
sequence) when it is neither `_counters` nor a property name inherited from
`Object.prototype`. -/
theorem select_returns_sublist (db : Db) (sql : String) (params : List Value)
    (now tableName : String)
    (hkind : startsWith (trimChars (lowerChars sql.data)) "select".data = true)
    (hfrom : fromMatch sql = some tableName) :
    (query db sql params now).2 = db ∧
    (∀ rs, (query db sql params now).1 = .rows rs →
      rs.Sublist ((db.table tableName).getD [])) ∧
    ((db.table tableName).isSome = true ∨
        (tableName ≠ "_counters" ∧ tableName ∉ objectPrototypeNames) →
      ∃ rs, (query db sql params now).1 = .rows rs ∧
        rs.Sublist ((db.table tableName).getD [])) := by
  rw [query_select _ _ _ _ hkind]
  refine ⟨rfl, fun rs h => handleSelect_sublist db sql params tableName rs hfrom h, ?_⟩
  intro hname
  obtain ⟨rs, hrs⟩ := handleSelect_rows db sql params (fun t ht => by
    rw [hfrom] at ht
    cases ht
    exact hname)
  exact ⟨rs, hrs, handleSelect_sublist db sql params tableName rs hfrom hrs⟩

/-- C27 (witness): the menu listing of the menu route, with its column list and
its ORDER BY clause, returns the three rows of the table as they are stored. -/
theorem select_returns_sublist_witness :
    (query (Db.seed.mutateTable "menu_items"
        [[("id", .num 1), ("name", .str "Tea"), ("category", .str "Drinks")],
         [("id", .num 2), ("name", .str "Cake"), ("category", .str "Desserts")],
         [("id", .num 3), ("name", .str "Ale"), ("category", .str "Drinks")]])
      "SELECT id, name FROM menu_items WHERE is_available = TRUE ORDER BY category, name"
      [] "t0").1 =
      .rows [[("id", .num 1), ("name", .str "Tea"), ("category", .str "Drinks")],
         [("id", .num 2), ("name", .str "Cake"), ("category", .str "Desserts")],
         [("id", .num 3), ("name", .str "Ale"), ("category", .str "Drinks")]] ∧
    (query (Db.seed.mutateTable "menu_items"
        [[("id", .num 1), ("name", .str "Tea"), ("category", .str "Drinks")],
         [("id", .num 2), ("name", .str "Cake"), ("category", .str "Desserts")],
         [("id", .num 3), ("name", .str "Ale"), ("category", .str "Drinks")]])
      "SELECT id, name FROM menu_items WHERE is_available = TRUE ORDER BY category, name"
      [] "t0").2 =
      Db.seed.mutateTable "menu_items"
        [[("id", .num 1), ("name", .str "Tea"), ("category", .str "Drinks")],
         [("id", .num 2), ("name", .str "Cake"), ("category", .str "Desserts")],
         [("id", .num 3), ("name", .str "Ale"), ("category", .str "Drinks")]] :=
  ⟨by decide,
    (select_returns_sublist
      (Db.seed.mutateTable "menu_items"
        [[("id", .num 1), ("name", .str "Tea"), ("category", .str "Drinks")],
         [("id", .num 2), ("name", .str "Cake"), ("category", .str "Desserts")],
         [("id", .num 3), ("name", .str "Ale"), ("category", .str "Drinks")]])
      "SELECT id, name FROM menu_items WHERE is_available = TRUE ORDER BY category, name"
      [] "t0" "menu_items" (by decide) (by decide)).1⟩

/-! ## Updates with literal assignments, and the session facade -/

/-- C28 (failing input): in `UPDATE orders SET invoice_sent = TRUE, status = ?
WHERE id = ?` with params `[s, k]` the set clause has two assignments, so the
predicate is evaluated against `params.slice(2)`, the empty list: `row.id ==
undefined` is false for the row with id `k`, no row is mutated and the result is
empty. The same happens for `UPDATE users SET otp = NULL, otp_expiry = NULL WHERE
id = ?` with params `[k]`; on a row without an id it assigns `k` to `otp`. -/
theorem update_with_literal_assignment_matches_nothing :
    query (Db.seed.mutateTable "orders"
        [[("id", .num 1), ("status", .str "PENDING")], [("id", .num 2), ("status", .str "PENDING")]])
      "UPDATE orders SET invoice_sent = TRUE, status = ? WHERE id = ?"
      [.str "CONFIRMED", .num 1] "t1" =
      (.rows [], Db.seed.mutateTable "orders"
        [[("id", .num 1), ("status", .str "PENDING")],
         [("id", .num 2), ("status", .str "PENDING")]]) ∧
    query (Db.seed.mutateTable "users" [[("id", .num 1), ("otp", .str "123456")]])
      "UPDATE users SET otp = NULL, otp_expiry = NULL WHERE id = ?" [.num 1] "t1" =
      (.rows [], Db.seed.mutateTable "users" [[("id", .num 1), ("otp", .str "123456")]]) ∧
    (query (Db.seed.mutateTable "users" [[("email", .str "a@b.c"), ("otp", .str "123456")]])
      "UPDATE users SET otp = NULL, otp_expiry = NULL WHERE id = ?" [.num 1] "t1").1 =
      .rows [[("email", .str "a@b.c"), ("otp", .num 1), ("otp_expiry", .undefined),
        ("updated_at", .str "t1")]] := by
  decide

theorem execute_of_rows (db : Db) (sql : String) (params : List Value) (now : String)
    (rs : List Row) (hq : (query db sql params now).1 = .rows rs) :
    ∃ r, (run db sql params now).1 = some r ∧ (execute db sql params now).1 = some [r] ∧
      r.changes = rs.length := by
  have hrun := run_of_rows db sql params now rs hq
  refine ⟨_, hrun, ?_, rfl⟩
  unfold execute
  cases h : run db sql params now with
  | mk res next =>
    rw [h] at hrun
    simp only at hrun
    subst hrun
    rfl

/-- A statement returns rows, it does not throw, when every table it names is a
table of the snapshot. -/
theorem query_rows_of_tables (db : Db) (sql : String) (params : List Value) (now : String)
    (h : ∀ t, insertMatch sql = some t ∨ updateMatch sql = some t ∨ fromMatch sql = some t →
      (db.table t).isSome = true) :
    ∃ rs, (query db sql params now).1 = .rows rs := by
  unfold query
  simp only []
  split
  · exact handleSelect_rows db sql params (fun t ht => Or.inl (h t (Or.inr (Or.inr ht))))
  · split
    · unfold handleInsert
      cases hm : insertMatch sql with
      | none => exact ⟨_, rfl⟩
      | some t =>
        cases columnsMatch sql with
        | none => exact ⟨_, rfl⟩
        | some cs =>
          obtain ⟨rows, hrows⟩ := Option.isSome_iff_exists.mp (h t (Or.inl hm))
          simp only [Db.table_setCounter, hrows]
          exact ⟨_, rfl⟩
    · split
      · unfold handleUpdate
        cases hm : updateMatch sql with
        | none => exact ⟨_, rfl⟩
        | some t =>
          cases setMatch sql with
          | none => exact ⟨_, rfl⟩
          | some st =>
            obtain ⟨rows, hrows⟩ := Option.isSome_iff_exists.mp (h t (Or.inr (Or.inl hm)))
            simp only [hrows]
            exact ⟨_, rfl⟩
      · split
        · unfold handleDelete
          cases hm : fromMatch sql with
          | none => exact ⟨_, rfl⟩
          | some t =>
            cases whereMatch sql with
            | none => exact ⟨_, rfl⟩
            | some w =>
              obtain ⟨rows, hrows⟩ := Option.isSome_iff_exists.mp (h t (Or.inr (Or.inr hm)))
              simp only [hrows]
              exact ⟨_, rfl⟩
        · exact ⟨_, rfl⟩

/-- C29: `execute` returns a sequence of exactly one element, the `{ lastID,
changes }` record computed by `run`, for every statement and parameter list for
which `query` returns rows. It does so for every statement whose tables are
tables of the snapshot, and for every select whose name is neither `_counters`
nor inherited from `Object.prototype`, also when the select matches no rows: the
first element of the result is never absent. -/
theorem execute_returns_one_record (db : Db) (sql : String) (params : List Value)
    (now : String) :
    (∀ rs, (query db sql params now).1 = .rows rs →
      ∃ r, (run db sql params now).1 = some r ∧ (execute db sql params now).1 = some [r] ∧
        r.changes = rs.length) ∧
    ((∀ t, insertMatch sql = some t ∨ updateMatch sql = some t ∨ fromMatch sql = some t →
        (db.table t).isSome = true) →
      ∃ r, (run db sql params now).1 = some r ∧ (execute db sql params now).1 = some [r]) ∧
    (startsWith (trimChars (lowerChars sql.data)) "select".data = true →
      (∀ t, fromMatch sql = some t →
        (db.table t).isSome = true ∨ (t ≠ "_counters" ∧ t ∉ objectPrototypeNames)) →
      ∃ r, (run db sql params now).1 = some r ∧ (execute db sql params now).1 = some [r]) := by
  refine ⟨fun rs hq => execute_of_rows db sql params now rs hq, ?_, ?_⟩
  · intro h
    obtain ⟨rs, hq⟩ := query_rows_of_tables db sql params now h
    obtain ⟨r, h1, h2, _⟩ := execute_of_rows db sql params now rs hq
    exact ⟨r, h1, h2⟩
  · intro hkind hname
    obtain ⟨rs, hrs⟩ := handleSelect_rows db sql params hname
    have hq : (query db sql params now).1 = .rows rs := by
      rw [query_select _ _ _ _ hkind]
      exact hrs
    obtain ⟨r, h1, h2, _⟩ := execute_of_rows db sql params now rs hq
    exact ⟨r, h1, h2⟩

/-- C29 (witness): the user lookup of the order route on a snapshot without
users: the select matches no row, and `execute` returns one record. -/
theorem execute_returns_one_record_witness :
    (execute Db.seed "SELECT id FROM users WHERE id = ? AND email = ?"
        [.num 7, .str "a@b.c"] "t0").1 = some [{ lastID := .num 0, changes := 0 }] ∧
    ∃ r, (run Db.seed "SELECT id FROM users WHERE id = ? AND email = ?"
        [.num 7, .str "a@b.c"] "t0").1 = some r ∧
      (execute Db.seed "SELECT id FROM users WHERE id = ? AND email = ?"
        [.num 7, .str "a@b.c"] "t0").1 = some [r] :=
  ⟨by decide,
    (execute_returns_one_record Db.seed "SELECT id FROM users WHERE id = ? AND email = ?"
      [.num 7, .str "a@b.c"] "t0").2.1 (by
        intro t ht
        have hfrom : fromMatch "SELECT id FROM users WHERE id = ? AND email = ?" =
            some "users" := by decide
        have hins : insertMatch "SELECT id FROM users WHERE id = ? AND email = ?" = none := by
          decide
        have hupd : updateMatch "SELECT id FROM users WHERE id = ? AND email = ?" = none := by
          decide
        rw [hfrom, hins, hupd] at ht
        rcases ht with ht | ht | ht
        · cases ht
        · cases ht
        · cases ht
          decide)⟩

end FoodOrder
